import Mathlib

/-!
# I2C bus controller of mbed-os (STM target): embedding and properties

The embedding follows `targets/TARGET_STM/i2c_api.c`, `hal/i2c_api.h`,
`drivers/I2C.cpp` and `drivers/I2CSlave.cpp`, built with `DEVICE_I2C`,
`DEVICE_I2CSLAVE` and `DEVICE_I2C_ASYNCH`.

* C unsigned 32-bit values are natural numbers, reduced modulo `2 ^ 32`
  wherever the C expression can wrap; `int32_t` results are integers.
* An object `i2c_t` (with its `struct i2c_s` and the fields of the vendor
  handle that the file reads or writes) is a record; the peripheral that the
  handle points to is a separate record `Periph`, so that several objects
  can share one peripheral.  A `Dev` is an object together with its
  peripheral.
* The vendor HAL is not part of the sources.  A call into it is recorded in
  `Periph.calls`; the status it returns is an input of the embedded function.
* Interrupt context is an input too: `env k` is what the interrupt handlers
  do to the device before the `k`-th evaluation of a polling condition.
* Data buffers are not modelled, only their lengths.
-/

namespace Mbed

/-! ## Constants of `hal/i2c_api.h` -/

def I2C_EVENT_ERROR : Nat := 1 <<< 1
def I2C_EVENT_ERROR_NO_SLAVE : Nat := 1 <<< 2
def I2C_EVENT_TRANSFER_COMPLETE : Nat := 1 <<< 3
def I2C_EVENT_TRANSFER_EARLY_NACK : Nat := 1 <<< 4
def I2C_EVENT_ARBITRATION_LOST : Nat := 1 <<< 5
def I2C_EVENT_ALL : Nat :=
  I2C_EVENT_ERROR ||| I2C_EVENT_TRANSFER_COMPLETE ||| I2C_EVENT_ERROR_NO_SLAVE |||
    I2C_EVENT_TRANSFER_EARLY_NACK ||| I2C_EVENT_ARBITRATION_LOST

def I2C_ERROR_NO_SLAVE : Int := -1
def I2C_ERROR_BUS_BUSY : Int := -2
def I2C_ERROR_TIMEOUT : Int := -3
def I2C_ERROR_ARBITRATION_LOST : Int := -4

def UINT32_MAX : Nat := 2 ^ 32 - 1

/-- Value of a 32-bit unsigned quantity converted to `int32_t`. -/
def toInt32 (x : Nat) : Int :=
  if x % 2 ^ 32 < 2 ^ 31 then ((x % 2 ^ 32 : Nat) : Int) else ((x % 2 ^ 32 : Nat) : Int) - 2 ^ 32

/-- Unsigned 32-bit subtraction `a - b`. -/
def sub32 (a b : Nat) : Nat := (a % 2 ^ 32 + 2 ^ 32 - b % 2 ^ 32) % 2 ^ 32

/-- Status returned by a vendor HAL call (`HAL_StatusTypeDef`). -/
inductive HAL_StatusTypeDef where
  | HAL_OK
  | HAL_ERROR
  | HAL_BUSY
  | HAL_TIMEOUT
  deriving DecidableEq

open HAL_StatusTypeDef

/-! ## Build configuration and vendor constants -/

/-- Build-time choices and vendor constants that the sources use but do not
declare: the IP version, the four frame options of the sequential transfer
API, the two clock-stretching settings, the timing table of the V2 IP and the
arbitration-lost bit of the vendor error code. -/
structure Target where
  I2C_IP_VERSION_V2 : Bool
  I2C_FIRST_AND_LAST_FRAME : Nat
  I2C_FIRST_FRAME : Nat
  I2C_NEXT_FRAME : Nat
  I2C_LAST_FRAME : Nat
  I2C_NOSTRETCH_DISABLE : Nat
  I2C_NOSTRETCH_ENABLE : Nat
  HAL_I2C_ERROR_ARLO : Nat
  get_i2c_timing : Nat → Nat

/-- The frame options that continue a transaction differ from those that
open one after a STOP. -/
def Target.separated (t : Target) : Prop :=
  t.I2C_FIRST_FRAME ≠ t.I2C_FIRST_AND_LAST_FRAME ∧ t.I2C_FIRST_FRAME ≠ t.I2C_LAST_FRAME ∧
    t.I2C_NEXT_FRAME ≠ t.I2C_FIRST_AND_LAST_FRAME ∧ t.I2C_NEXT_FRAME ≠ t.I2C_LAST_FRAME

instance (t : Target) : Decidable t.separated := by
  unfold Target.separated; infer_instance

/-- A V2 target with four different frame options. -/
def stm32v2 : Target where
  I2C_IP_VERSION_V2 := true
  I2C_FIRST_AND_LAST_FRAME := 8
  I2C_FIRST_FRAME := 1
  I2C_NEXT_FRAME := 4
  I2C_LAST_FRAME := 32
  I2C_NOSTRETCH_DISABLE := 0
  I2C_NOSTRETCH_ENABLE := 1
  HAL_I2C_ERROR_ARLO := 2
  get_i2c_timing := fun hz => hz

/-- A V1 target with four different frame options. -/
def stm32v1 : Target where
  I2C_IP_VERSION_V2 := false
  I2C_FIRST_AND_LAST_FRAME := 8
  I2C_FIRST_FRAME := 1
  I2C_NEXT_FRAME := 4
  I2C_LAST_FRAME := 32
  I2C_NOSTRETCH_DISABLE := 0
  I2C_NOSTRETCH_ENABLE := 1
  HAL_I2C_ERROR_ARLO := 2
  get_i2c_timing := fun hz => hz

/-! ## Data model -/

/-- Fields of `handle->Init` that `i2c_api.c` writes. -/
structure I2C_InitTypeDef where
  ClockSpeed : Nat
  Timing : Nat
  NoStretchMode : Nat
  OwnAddress1 : Nat
  deriving DecidableEq

/-- Length, position and width of a `struct buffer_s`. -/
structure buffer_s where
  length : Nat
  pos : Nat
  width : Nat
  deriving DecidableEq

/-- An `i2c_t`: the target structure `struct i2c_s` (with the vendor handle
fields `Init`, `XferCount`, `ErrorCode`) followed by the asynchronous part
of `struct i2c`. -/
structure i2c_t where
  sda : Nat
  scl : Nat
  hz : Nat
  timeout : Nat
  XferOperation : Nat
  event : Nat
  slave : Nat
  pending_slave_tx_master_rx : Nat
  pending_slave_rx_maxter_tx : Nat
  tx_complete : Nat
  clock_stretching_enabled : Nat
  pending_start : Nat
  address : Nat
  stop : Bool
  Init : I2C_InitTypeDef
  XferCount : Nat
  ErrorCode : Nat
  tx_buff : buffer_s
  rx_buff : buffer_s
  handler : Option Nat
  ctx : Option Nat
  deriving DecidableEq

/-- Calls into the vendor HAL and the reset controller, with the arguments
that matter to the bus: the configuration written by `HAL_I2C_Init`, and for
a transfer request the address, the length, the frame option and the status
the call returned. -/
inductive HalCall where
  | ForceReset
  | Init (cfg : I2C_InitTypeDef)
  | DeInit
  | EnableFastModePlus
  | MasterTransmit (address length option : Nat) (status : HAL_StatusTypeDef)
  | MasterReceive (address length option : Nat) (status : HAL_StatusTypeDef)
  | SlaveTransmit (length option : Nat) (status : HAL_StatusTypeDef)
  | SlaveReceive (length option : Nat) (status : HAL_StatusTypeDef)
  | MasterAbort
  | EnableListen
  | DisableListen
  deriving DecidableEq

/-- Modelled from the spec: the peripheral register interface behind a
handle (vendor HAL and NVIC, outside the sources): the configuration last
programmed by `HAL_I2C_Init`, the state of its two interrupt lines, listen
mode, and the calls made so far (newest first). -/
structure Periph where
  Init : I2C_InitTypeDef
  irq_enabled : Bool
  irq_prio : Nat
  listen : Bool
  calls : List HalCall
  deriving DecidableEq

/-- An object together with the peripheral its handle points to. -/
structure Dev where
  obj : i2c_t
  hw : Periph
  deriving DecidableEq

/-- A zero-filled object, as left by the value-initialisation `_i2c()`. -/
def i2c_t.zero : i2c_t where
  sda := 0
  scl := 0
  hz := 0
  timeout := 0
  XferOperation := 0
  event := 0
  slave := 0
  pending_slave_tx_master_rx := 0
  pending_slave_rx_maxter_tx := 0
  tx_complete := 0
  clock_stretching_enabled := 0
  pending_start := 0
  address := 0
  stop := false
  Init := ⟨0, 0, 0, 0⟩
  XferCount := 0
  ErrorCode := 0
  tx_buff := ⟨0, 0, 0⟩
  rx_buff := ⟨0, 0, 0⟩
  handler := none
  ctx := none

/-- A peripheral after reset, before any call. -/
def Periph.reset : Periph where
  Init := ⟨0, 0, 0, 0⟩
  irq_enabled := false
  irq_prio := 0
  listen := false
  calls := []

/-! ## Helpers of `i2c_api.c` -/

/-- `i2c_ev_err_enable(obj, i2c_get_irq_handler(obj))`: both interrupt lines
get priority 2, or 1 for a slave, and are enabled. -/
def i2c_ev_err_enable (d : Dev) : Dev :=
  { d with hw := { d.hw with irq_prio := if d.obj.slave ≠ 0 then 1 else 2, irq_enabled := true } }

/-- `i2c_ev_err_disable`: both interrupt lines are disabled. -/
def i2c_ev_err_disable (d : Dev) : Dev :=
  { d with hw := { d.hw with irq_enabled := false } }

/-- Record one call into the vendor HAL. -/
def Dev.call (d : Dev) (c : HalCall) : Dev :=
  { d with hw := { d.hw with calls := c :: d.hw.calls } }

/-- Modelled from the spec: the vendor function `HAL_I2C_Init(handle)`
(configure timing), which programs the configuration of the handle into the
peripheral. -/
def HAL_I2C_Init (d : Dev) : Dev :=
  { d with hw := { d.hw with Init := d.obj.Init, calls := HalCall.Init d.obj.Init :: d.hw.calls } }

/-- Modelled from the spec: the vendor function
`HAL_I2C_EnableListen_IT(handle)`, which puts the peripheral in listen
mode. -/
def HAL_I2C_EnableListen_IT (d : Dev) : Dev :=
  { d with hw := { d.hw with listen := true, calls := HalCall.EnableListen :: d.hw.calls } }

/-- Modelled from the spec: the vendor function
`HAL_I2C_DisableListen_IT(handle)`, which takes the peripheral out of listen
mode. -/
def HAL_I2C_DisableListen_IT (d : Dev) : Dev :=
  { d with hw := { d.hw with listen := false, calls := HalCall.DisableListen :: d.hw.calls } }

/-- `i2c_hw_reset`: wait while the bus is busy, then pulse the reset line of
the peripheral. -/
def i2c_hw_reset (d : Dev) : Dev :=
  d.call HalCall.ForceReset

/-- `BYTE_TIMEOUT_US`: `(1000000 * 10 * 3) / obj_s->hz`. -/
def BYTE_TIMEOUT_US (o : i2c_t) : Nat := (1000000 * 10 * 3) / o.hz

/-- The frequencies of the V2 timing table, in scan order. -/
def supported_hz : List Nat := [100000, 400000, 1000000]

/-- `abs` applied to a 32-bit unsigned difference: the argument is read as
`int`, and the result goes back to `uint32_t`. -/
def abs32 (x : Nat) : Nat :=
  if x % 2 ^ 32 < 2 ^ 31 then x % 2 ^ 32 else 2 ^ 32 - x % 2 ^ 32

/-- One iteration of the scan in `i2c_frequency`; the accumulator is
`(selected_frequency, minimum_delta)`. -/
def frequency_scan_step (frequency : Nat) (acc : Nat × Nat) (hz_i : Nat) : Nat × Nat :=
  let current_delta := abs32 (sub32 hz_i frequency)
  if current_delta < acc.2 then acc
  else (hz_i, current_delta)

/-- The scan over `supported_hz` in `i2c_frequency`, started with
`selected_frequency = frequency` and `minimum_delta = -1`. -/
def frequency_scan (frequency : Nat) : Nat × Nat :=
  supported_hz.foldl (frequency_scan_step frequency) (frequency, UINT32_MAX)

/-- The value of `selected_frequency` when the configuration is written. -/
def selected_frequency (t : Target) (frequency : Nat) : Nat :=
  if t.I2C_IP_VERSION_V2 then (frequency_scan frequency).1 else frequency

/-- `i2c_frequency`: returns the device and the stored frequency.  The wait
on the BUSY flag, the clock-source selection and the analog filter do not
touch the record; Fast Mode Plus is recorded as a call. -/
def i2c_frequency (t : Target) (d : Dev) (frequency : Nat) : Dev × Nat :=
  let selected := selected_frequency t frequency
  let o := d.obj
  let init1 : I2C_InitTypeDef :=
    if t.I2C_IP_VERSION_V2 then { o.Init with Timing := t.get_i2c_timing selected }
    else { o.Init with ClockSpeed := selected }
  let d1 : Dev :=
    if t.I2C_IP_VERSION_V2 && selected == 1000000 then d.call HalCall.EnableFastModePlus else d
  let init2 : I2C_InitTypeDef :=
    { init1 with NoStretchMode := o.clock_stretching_enabled, OwnAddress1 := 0 }
  let d2 := HAL_I2C_Init { d1 with obj := { o with Init := init2 } }
  ({ d2 with obj := { d2.obj with hz := selected } }, selected)

/-- `i2c_init`, for a pin pair that selects a peripheral.  Clock enable and
pin configuration do not touch the record. -/
def i2c_init (t : Target) (d : Dev) (sda scl : Nat) (is_slave : Bool) : Dev :=
  let o0 := { d.obj with sda := sda, scl := scl }
  let o1 := if o0.hz = 0 then { o0 with hz := 100000 } else o0
  let d1 := i2c_hw_reset { d with obj := o1 }
  let d2 := (i2c_frequency t d1 d1.obj.hz).1
  let o2 : i2c_t :=
    { d2.obj with
      slave := if is_slave then 1 else 0
      pending_slave_tx_master_rx := 0
      pending_slave_rx_maxter_tx := 0
      tx_complete := 0
      event := 0
      XferOperation := t.I2C_FIRST_AND_LAST_FRAME
      clock_stretching_enabled := t.I2C_NOSTRETCH_DISABLE
      timeout := UINT32_MAX
      pending_start := if t.I2C_IP_VERSION_V2 then 0 else d2.obj.pending_start }
  let d3 : Dev := { d2 with obj := o2 }
  if is_slave then HAL_I2C_EnableListen_IT d3 else HAL_I2C_DisableListen_IT d3

/-- `i2c_timeout`: `UINT32_MAX` is reserved for the initial value. -/
def i2c_timeout (d : Dev) (timeout : Nat) : Dev :=
  { d with obj := { d.obj with timeout := if timeout = UINT32_MAX then UINT32_MAX - 1 else timeout } }

/-! ## Frame sequencer and polling -/

/-- The update of `obj_s->XferOperation` that opens `i2c_read`, `i2c_write`
and the single-direction branch of `i2c_transfer_async` (the three copies in
the source are the same text). -/
def next_XferOperation (t : Target) (XferOperation : Nat) (stop : Bool) : Nat :=
  if XferOperation = t.I2C_FIRST_AND_LAST_FRAME ∨ XferOperation = t.I2C_LAST_FRAME then
    if stop then t.I2C_FIRST_AND_LAST_FRAME else t.I2C_FIRST_FRAME
  else if XferOperation = t.I2C_FIRST_FRAME ∨ XferOperation = t.I2C_NEXT_FRAME then
    if stop then t.I2C_LAST_FRAME else t.I2C_NEXT_FRAME
  else XferOperation

/-- State when a polling loop is left: the device, the local `timeout`
counter, and the number of `wait_ns(1000)` calls made. -/
structure PollResult where
  dev : Dev
  timeout : Nat
  waits : Nat

/-- The pre-decrement `--timeout` of a 32-bit unsigned counter. -/
def dec32 (timeout : Nat) : Nat := (timeout + 2 ^ 32 - 1) % 2 ^ 32

/-- At most `fuel` rounds of the loop
`while (pending(obj) && (--timeout != 0)) wait_ns(1000);`.
Interrupt context `env k` runs before the `k`-th evaluation of the
condition. -/
def wait_rounds (pending : i2c_t → Bool) (env : Nat → Dev → Dev) :
    Nat → Dev → Nat → Nat → Nat → PollResult
  | 0, d, timeout, _, waits => ⟨d, timeout, waits⟩
  | fuel + 1, d, timeout, k, waits =>
    let d1 := env k d
    if pending d1.obj then
      let timeout1 := dec32 timeout
      if timeout1 = 0 then ⟨d1, 0, waits⟩
      else wait_rounds pending env fuel d1 timeout1 (k + 1) (waits + 1)
    else ⟨d1, timeout, waits⟩

/-- The loop `while (pending(obj) && (--timeout != 0)) wait_ns(1000);` run to
its end.  After the first decrement the counter only counts down, so the
condition is evaluated at most `dec32 timeout + 1` times; `wait_while_eq`
shows that this is the loop. -/
def wait_while (pending : i2c_t → Bool) (env : Nat → Dev → Dev) (d : Dev)
    (timeout k waits : Nat) : PollResult :=
  wait_rounds pending env (dec32 timeout + 1) d timeout k waits

/-- Loop condition of the master transfers: `!(obj_s->event & I2C_EVENT_ALL)`. -/
def no_event (o : i2c_t) : Bool := o.event &&& I2C_EVENT_ALL == 0

/-- Budget of a master transfer:
`obj_s->timeout != UINT32_MAX ? obj_s->timeout : BYTE_TIMEOUT_US * (length + 1)`. -/
def master_timeout (o : i2c_t) (length : Nat) : Nat :=
  if o.timeout ≠ UINT32_MAX then o.timeout
  else (BYTE_TIMEOUT_US o % 2 ^ 32 * ((length + 1) % 2 ^ 32)) % 2 ^ 32

/-- Budget of a slave transfer:
`obj_s->timeout != UINT32_MAX ? obj_s->timeout : BYTE_TIMEOUT_US * length`. -/
def slave_timeout (o : i2c_t) (length : Nat) : Nat :=
  if o.timeout ≠ UINT32_MAX then o.timeout
  else (BYTE_TIMEOUT_US o % 2 ^ 32 * (length % 2 ^ 32)) % 2 ^ 32

/-- Result of a blocking transfer: device, returned `int32_t`, and the number
of `wait_ns(1000)` calls it made. -/
structure SyncResult where
  dev : Dev
  ret : Int
  waits : Nat

/-! ## Slave transfers -/

/-- `i2c_slave_read`. -/
def i2c_slave_read (t : Target) (env : Nat → Dev → Dev) (status : HAL_StatusTypeDef) (d : Dev)
    (length : Nat) : SyncResult :=
  let d1 := d.call (HalCall.SlaveReceive length t.I2C_NEXT_FRAME status)
  if status = HAL_OK then
    let p := wait_while (fun o => o.pending_slave_rx_maxter_tx != 0) env d1
      (slave_timeout d1.obj length) 0 0
    ⟨p.dev, toInt32 (sub32 length p.dev.obj.XferCount), p.waits⟩
  else ⟨d1, toInt32 (sub32 length d1.obj.XferCount), 0⟩

/-- `i2c_slave_write`. -/
def i2c_slave_write (t : Target) (env : Nat → Dev → Dev) (status : HAL_StatusTypeDef) (d : Dev)
    (length : Nat) : SyncResult :=
  let d1 := d.call (HalCall.SlaveTransmit length t.I2C_NEXT_FRAME status)
  if status = HAL_OK then
    let p := wait_while (fun o => o.pending_slave_tx_master_rx != 0) env d1
      (slave_timeout d1.obj length) 0 0
    ⟨p.dev, toInt32 (sub32 length p.dev.obj.XferCount), p.waits⟩
  else ⟨d1, toInt32 (sub32 length d1.obj.XferCount), 0⟩

/-! ## Blocking master transfers -/

/-- Master branch of `i2c_read` up to and including the receive request: the
frame option is advanced, the event mask cleared, the interrupts enabled and
the request handed to the HAL, which answers `status`. -/
def i2c_read_request (t : Target) (status : HAL_StatusTypeDef) (d : Dev)
    (address length : Nat) (stop : Bool) : Dev :=
  let o : i2c_t :=
    { d.obj with XferOperation := next_XferOperation t d.obj.XferOperation stop, event := 0 }
  let d1 := i2c_ev_err_enable { d with obj := o }
  d1.call (HalCall.MasterReceive address length o.XferOperation status)

/-- Master branch of `i2c_write` up to and including the transmit request. -/
def i2c_write_request (t : Target) (status : HAL_StatusTypeDef) (d : Dev)
    (address length : Nat) (stop : Bool) : Dev :=
  let o : i2c_t :=
    { d.obj with XferOperation := next_XferOperation t d.obj.XferOperation stop, event := 0 }
  let d1 := i2c_ev_err_enable { d with obj := o }
  d1.call (HalCall.MasterTransmit address length o.XferOperation status)

/-- The polling loop of `i2c_read` and `i2c_write`, entered with the device
left by the request: the budget is computed, then the loop runs until an
event bit is seen or the counter reaches zero. -/
def master_poll (env : Nat → Dev → Dev) (d1 : Dev) (length : Nat) : PollResult :=
  wait_while no_event env d1 (master_timeout d1.obj length) 0 0

/-- What `i2c_read` and `i2c_write` do once polling has stopped: interrupts
off, then the classification of the outcome. -/
def master_finish (t : Target) (p : PollResult) (length : Nat) : SyncResult :=
  let d2 := i2c_ev_err_disable p.dev
  if p.timeout = 0 ∨ d2.obj.event ≠ I2C_EVENT_TRANSFER_COMPLETE then
    ⟨i2c_init t d2 d2.obj.sda d2.obj.scl (d2.obj.slave != 0), I2C_ERROR_TIMEOUT, p.waits⟩
  else if d2.obj.event = I2C_EVENT_ARBITRATION_LOST then
    ⟨d2, I2C_ERROR_ARBITRATION_LOST, p.waits⟩
  else ⟨d2, toInt32 (sub32 length d2.obj.XferCount), p.waits⟩

/-- The state in which `i2c_read` leaves its polling loop, the request
having been accepted. -/
def i2c_read_poll (t : Target) (env : Nat → Dev → Dev) (d : Dev) (address length : Nat)
    (stop : Bool) : PollResult :=
  master_poll env (i2c_read_request t HAL_OK d address length stop) length

/-- The state in which `i2c_write` leaves its polling loop, the request
having been accepted. -/
def i2c_write_poll (t : Target) (env : Nat → Dev → Dev) (d : Dev) (address length : Nat)
    (stop : Bool) : PollResult :=
  master_poll env (i2c_write_request t HAL_OK d address length stop) length

/-- `i2c_read`. -/
def i2c_read (t : Target) (env : Nat → Dev → Dev) (status : HAL_StatusTypeDef) (d : Dev)
    (address length : Nat) (stop : Bool) : SyncResult :=
  if d.obj.slave = 1 then i2c_slave_read t env status d length
  else
    let d1 := i2c_read_request t status d address length stop
    if status ≠ HAL_OK then ⟨d1, I2C_ERROR_BUS_BUSY, 0⟩
    else master_finish t (master_poll env d1 length) length

/-- `i2c_write`. -/
def i2c_write (t : Target) (env : Nat → Dev → Dev) (status : HAL_StatusTypeDef) (d : Dev)
    (address length : Nat) (stop : Bool) : SyncResult :=
  if d.obj.slave = 1 then i2c_slave_write t env status d length
  else
    let d1 := i2c_write_request t status d address length stop
    if status ≠ HAL_OK then ⟨d1, I2C_ERROR_BUS_BUSY, 0⟩
    else master_finish t (master_poll env d1 length) length

/-! ## Asynchronous transfer request -/

def SIZE_MAX : Nat := 2 ^ 32 - 1

/-- `i2c_transfer_async`; `status` is what the HAL answers to the request, if
one is made. -/
def i2c_transfer_async (t : Target) (status : HAL_StatusTypeDef) (d : Dev)
    (tx_length rx_length address : Nat) (stop : Bool) (handler ctx : Option Nat) : Dev × Bool :=
  let o : i2c_t :=
    { d.obj with
      tx_buff := ⟨tx_length, 0, 8⟩
      rx_buff := ⟨rx_length, SIZE_MAX, 8⟩
      handler := handler
      ctx := ctx
      event := 0
      address := address
      stop := stop
      tx_complete := 0 }
  let d1 := i2c_ev_err_enable { d with obj := o }
  if (tx_length ≠ 0 ∧ rx_length = 0) ∨ (tx_length = 0 ∧ rx_length ≠ 0) then
    let op := next_XferOperation t o.XferOperation stop
    let d2 : Dev := { d1 with obj := { d1.obj with XferOperation := op } }
    let r1 : Dev × HAL_StatusTypeDef :=
      if tx_length > 0 then (d2.call (HalCall.MasterTransmit address tx_length op status), status)
      else (d2, HAL_ERROR)
    let r2 : Dev × HAL_StatusTypeDef :=
      if rx_length > 0 then (r1.1.call (HalCall.MasterReceive address rx_length op status), status)
      else r1
    (r2.1, r2.2 == HAL_OK)
  else if tx_length ≠ 0 ∧ rx_length ≠ 0 then
    if o.XferOperation = t.I2C_FIRST_AND_LAST_FRAME ∨ o.XferOperation = t.I2C_LAST_FRAME then
      (d1.call (HalCall.MasterTransmit address tx_length t.I2C_FIRST_FRAME status),
        status == HAL_OK)
    else if o.XferOperation = t.I2C_FIRST_FRAME ∨ o.XferOperation = t.I2C_NEXT_FRAME then
      (d1.call (HalCall.MasterTransmit address tx_length t.I2C_NEXT_FRAME status),
        status == HAL_OK)
    else (d1, false)
  else (d1, false)

/-! ## Error interrupt -/

/-- The `i2c_async_event_t` handed to the asynchronous handler;
`error_status` is `none` when the callback leaves it unassigned. -/
structure i2c_async_event_t where
  sent_bytes : Nat
  received_bytes : Nat
  error_status : Option Int
  error : Bool
  deriving DecidableEq

/-- One invocation `obj->handler(obj, &event, obj->ctx)`. -/
structure HandlerCall where
  handler : Nat
  ctx : Option Nat
  event : i2c_async_event_t
  deriving DecidableEq

/-- `i2c_slave_address`. -/
def i2c_slave_address (d : Dev) (address : Nat) : Dev :=
  let d1 := HAL_I2C_Init
    { d with obj := { d.obj with Init := { d.obj.Init with OwnAddress1 := address } } }
  HAL_I2C_EnableListen_IT (i2c_ev_err_enable d1)

/-- `HAL_I2C_ErrorCallback`: returns the device and the invocation of the
asynchronous handler, if one is stored. -/
def HAL_I2C_ErrorCallback (t : Target) (d : Dev) : Dev × Option HandlerCall :=
  let address : Nat := if d.obj.slave ≠ 0 then d.obj.Init.OwnAddress1 % 2 ^ 16 else 0
  let d1 := i2c_init t d d.obj.sda d.obj.scl (d.obj.slave != 0)
  let d2 : Dev :=
    if address ≠ 0 then i2c_slave_address { d1 with obj := { d1.obj with slave := 1 } } address
    else d1
  let d3 : Dev := { d2 with obj := { d2.obj with event := I2C_EVENT_ERROR } }
  match d3.obj.handler with
  | none => (d3, none)
  | some h =>
    let error_status : Option Int :=
      if d3.obj.ErrorCode &&& t.HAL_I2C_ERROR_ARLO ≠ 0 then some I2C_ERROR_ARBITRATION_LOST
      else none
    let event : i2c_async_event_t :=
      if d3.obj.tx_complete = 0 then
        ⟨sub32 d3.obj.tx_buff.length d3.obj.XferCount, 0, error_status, true⟩
      else
        ⟨d3.obj.tx_buff.length % 2 ^ 32, sub32 d3.obj.rx_buff.length d3.obj.XferCount,
          error_status, true⟩
    ({ d3 with obj := { d3.obj with handler := none, ctx := none } }, some ⟨h, d3.obj.ctx, event⟩)

/-- The device on which `HAL_I2C_ErrorCallback` tests the handler: after the
reinitialisation, the restored slave address and the ERROR event. -/
def error_reinit (t : Target) (d : Dev) : Dev :=
  let address : Nat := if d.obj.slave ≠ 0 then d.obj.Init.OwnAddress1 % 2 ^ 16 else 0
  let d1 := i2c_init t d d.obj.sda d.obj.scl (d.obj.slave != 0)
  let d2 : Dev :=
    if address ≠ 0 then i2c_slave_address { d1 with obj := { d1.obj with slave := 1 } } address
    else d1
  { d2 with obj := { d2.obj with event := I2C_EVENT_ERROR } }

/-! ## Completion and abort interrupts -/

/-- `HAL_I2C_MasterTxCpltCallback`; `status` is what the HAL answers to the
chained receive request, if one is made. -/
def HAL_I2C_MasterTxCpltCallback (t : Target) (status : HAL_StatusTypeDef) (d : Dev) :
    Dev × Option HandlerCall :=
  let d1 : Dev := { d with obj := { d.obj with tx_complete := 1 } }
  if d1.obj.tx_buff.length ≠ 0 ∧ d1.obj.rx_buff.length ≠ 0 then
    let op := if d1.obj.stop then t.I2C_LAST_FRAME else t.I2C_NEXT_FRAME
    let d2 : Dev := { d1 with obj := { d1.obj with XferOperation := op } }
    (d2.call (HalCall.MasterReceive d2.obj.address d2.obj.rx_buff.length op status), none)
  else
    let d2 : Dev := { d1 with obj := { d1.obj with event := I2C_EVENT_TRANSFER_COMPLETE } }
    match d2.obj.handler with
    | none => (d2, none)
    | some h =>
      let event : i2c_async_event_t :=
        ⟨sub32 d2.obj.tx_buff.length d2.obj.XferCount, 0, none, false⟩
      ({ d2 with obj := { d2.obj with handler := none, ctx := none } },
        some ⟨h, d2.obj.ctx, event⟩)

/-- `HAL_I2C_MasterRxCpltCallback`. -/
def HAL_I2C_MasterRxCpltCallback (d : Dev) : Dev × Option HandlerCall :=
  let d1 : Dev := { d with obj := { d.obj with event := I2C_EVENT_TRANSFER_COMPLETE } }
  match d1.obj.handler with
  | none => (d1, none)
  | some h =>
    let event : i2c_async_event_t :=
      ⟨d1.obj.tx_buff.length % 2 ^ 32, sub32 d1.obj.rx_buff.length d1.obj.XferCount, none, false⟩
    ({ d1 with obj := { d1.obj with handler := none, ctx := none } }, some ⟨h, d1.obj.ctx, event⟩)

/-- `HAL_I2C_AbortCpltCallback`. -/
def HAL_I2C_AbortCpltCallback (d : Dev) : Dev × Option HandlerCall :=
  let d1 := i2c_ev_err_disable d
  let d2 : Dev := { d1 with obj := { d1.obj with event := I2C_EVENT_ERROR } }
  match d2.obj.handler with
  | none => (d2, none)
  | some h =>
    let event : i2c_async_event_t :=
      if d2.obj.tx_complete = 0 then
        ⟨sub32 d2.obj.tx_buff.length d2.obj.XferCount, 0, none, true⟩
      else
        ⟨d2.obj.tx_buff.length % 2 ^ 32, sub32 d2.obj.rx_buff.length d2.obj.XferCount, none, true⟩
    ({ d2 with obj := { d2.obj with handler := none, ctx := none } }, some ⟨h, d2.obj.ctx, event⟩)

/-- `i2c_abort_async`. -/
def i2c_abort_async (d : Dev) : Dev :=
  d.call HalCall.MasterAbort

/-- An interrupt of a master transfer as the HAL reports it: the residual
counter (and for an error the error code) that the HAL has stored in the
handle, and for a transmit-complete the answer to the chained request. -/
inductive Irq where
  | MasterTxCplt (XferCount : Nat) (status : HAL_StatusTypeDef)
  | MasterRxCplt (XferCount : Nat)
  | Error (ErrorCode XferCount : Nat)
  | AbortCplt (XferCount : Nat)

/-- The HAL stores its counters in the handle and runs the callback of the
interrupt. -/
def Irq.deliver (t : Target) (irq : Irq) (d : Dev) : Dev × Option HandlerCall :=
  match irq with
  | Irq.MasterTxCplt count status =>
    HAL_I2C_MasterTxCpltCallback t status { d with obj := { d.obj with XferCount := count } }
  | Irq.MasterRxCplt count =>
    HAL_I2C_MasterRxCpltCallback { d with obj := { d.obj with XferCount := count } }
  | Irq.Error code count =>
    HAL_I2C_ErrorCallback t { d with obj := { d.obj with ErrorCode := code, XferCount := count } }
  | Irq.AbortCplt count =>
    HAL_I2C_AbortCpltCallback { d with obj := { d.obj with XferCount := count } }

/-- An interrupt that ends a transfer of `tx_length` and `rx_length` bytes:
every interrupt but the transmit-complete of a two-phase transfer, which
chains the receive phase. -/
def Irq.terminal (tx_length rx_length : Nat) : Irq → Bool
  | Irq.MasterTxCplt _ _ => !(tx_length != 0 && rx_length != 0)
  | _ => true

/-- A sequence of interrupts delivered in order; the invocations of the
asynchronous handler are collected in order. -/
def Irq.deliver_all (t : Target) : List Irq → Dev → Dev × List HandlerCall
  | [], d => (d, [])
  | irq :: rest, d =>
    let r := irq.deliver t d
    let r2 := Irq.deliver_all t rest r.1
    (r2.1, r.2.toList ++ r2.2)

/-! ## Slave addressing -/

/-- The `i2c_slave_status_t` of `hal/i2c_api.h`. -/
inductive i2c_slave_status_t where
  | Idle
  | ReadAddressed
  | WriteGeneral
  | WriteAddressed
  deriving DecidableEq

/-- Direction of a transfer as the HAL reports it to `HAL_I2C_AddrCallback`,
from the point of view of the master. -/
inductive TransferDirection where
  | I2C_DIRECTION_RECEIVE
  | I2C_DIRECTION_TRANSMIT
  deriving DecidableEq

/-- `HAL_I2C_AddrCallback`. -/
def HAL_I2C_AddrCallback (d : Dev) (dir : TransferDirection) : Dev :=
  let d1 : Dev :=
    if dir = TransferDirection.I2C_DIRECTION_RECEIVE then
      { d with obj := { d.obj with pending_slave_tx_master_rx := 1 } }
    else d
  if dir = TransferDirection.I2C_DIRECTION_TRANSMIT then
    { d1 with obj := { d1.obj with pending_slave_rx_maxter_tx := 1 } }
  else d1

/-- `HAL_I2C_SlaveTxCpltCallback`. -/
def HAL_I2C_SlaveTxCpltCallback (d : Dev) : Dev :=
  { d with obj := { d.obj with pending_slave_tx_master_rx := 0 } }

/-- `HAL_I2C_SlaveRxCpltCallback`. -/
def HAL_I2C_SlaveRxCpltCallback (d : Dev) : Dev :=
  { d with obj := { d.obj with pending_slave_rx_maxter_tx := 0 } }

/-- `i2c_slave_status`. -/
def i2c_slave_status (d : Dev) : i2c_slave_status_t :=
  let retValue := i2c_slave_status_t.Idle
  let retValue :=
    if d.obj.pending_slave_rx_maxter_tx ≠ 0 then i2c_slave_status_t.WriteAddressed else retValue
  let retValue :=
    if d.obj.pending_slave_tx_master_rx ≠ 0 then i2c_slave_status_t.ReadAddressed else retValue
  retValue

/-- An interrupt of a slave as the HAL reports it: an address match with its
direction, the end of a transmission, the end of a reception. -/
inductive SlaveIrq where
  | Addr (dir : TransferDirection)
  | SlaveTxCplt
  | SlaveRxCplt
  deriving DecidableEq

/-- The callback that the HAL runs for an interrupt of a slave. -/
def SlaveIrq.deliver (irq : SlaveIrq) (d : Dev) : Dev :=
  match irq with
  | SlaveIrq.Addr dir => HAL_I2C_AddrCallback d dir
  | SlaveIrq.SlaveTxCplt => HAL_I2C_SlaveTxCpltCallback d
  | SlaveIrq.SlaveRxCplt => HAL_I2C_SlaveRxCpltCallback d

/-- A sequence of interrupts of a slave, delivered in order. -/
def SlaveIrq.deliver_all : List SlaveIrq → Dev → Dev
  | [], d => d
  | irq :: rest, d => SlaveIrq.deliver_all rest (irq.deliver d)

/-- In the sequence `evs` the event `set` occurs with no event `clear` after
it. -/
def open_match (set clear : SlaveIrq) (evs : List SlaveIrq) : Prop :=
  ∃ pre post, evs = pre ++ set :: post ∧ clear ∉ post

/-! ## The driver class `mbed::I2C` -/

/-- Members of an `mbed::I2C` object, and as ghost state the numbers of
calls the object has made to `sleep_manager_lock_deep_sleep` and
`sleep_manager_unlock_deep_sleep`. -/
structure I2C where
  _i2c : i2c_t
  _hz : Nat
  _sda : Nat
  _scl : Nat
  _deep_sleep_locked : Bool
  _async_transfer_ongoing : Bool
  _callback : Option Nat
  sleep_locks : Nat
  sleep_unlocks : Nat

/-- The objects that share one peripheral, by address, with the static
member `I2C::_owner` (`none` is `NULL`) and the peripheral itself.  The
recursive mutex `I2C::_mutex` has no effect on a single thread of calls and
is left out. -/
structure Bus where
  _owner : Option Nat
  objs : Nat → I2C
  hw : Periph

/-- Store back the object at address `this` and the shared peripheral after
a HAL function has run on `b.dev this`. -/
def Bus.store (b : Bus) (this : Nat) (d : Dev) : Bus :=
  { b with objs := Function.update b.objs this { b.objs this with _i2c := d.obj }, hw := d.hw }

/-- The object at address `this`, attached to the shared peripheral. -/
def Bus.dev (b : Bus) (this : Nat) : Dev := ⟨(b.objs this)._i2c, b.hw⟩

/-- `I2C::frequency`.  `MBED_ASSERT(_hz > 0)` reads the member before it is
assigned; a failed assertion is `none`. -/
def I2C.frequency (t : Target) (b : Bus) (this : Nat) (hz : Int) : Option Bus :=
  if (b.objs this)._hz > 0 then
    let hz32 : Nat := (hz % 2 ^ 32).toNat
    let b1 : Bus := { b with objs := Function.update b.objs this { b.objs this with _hz := hz32 } }
    let b2 := b1.store this (i2c_frequency t (b1.dev this) (b1.objs this)._hz).1
    some { b2 with _owner := some this }
  else none

/-- `I2C::timeout`. -/
def I2C.timeout (b : Bus) (this : Nat) (timeout : Nat) : Bus :=
  b.store this (i2c_timeout (b.dev this) timeout)

/-- `I2C::aquire`. -/
def I2C.aquire (t : Target) (b : Bus) (this : Nat) : Bus :=
  if b._owner ≠ some this then
    let b1 := b.store this (i2c_frequency t (b.dev this) (b.objs this)._hz).1
    { b1 with _owner := some this }
  else b

/-! ## Blocking transfers of the driver -/

/-- Conversion of an `int` argument to `uint32_t`. -/
def uint32 (x : Int) : Nat := (x % 2 ^ 32).toNat

/-- Conversion of an `int` argument to `uint16_t`. -/
def uint16 (x : Int) : Nat := (x % 2 ^ 16).toNat

/-- `I2C::write(int address, const char *data, int length, bool repeated)`:
returns the bus and `length != written`. -/
def I2C.write (t : Target) (env : Nat → Dev → Dev) (status : HAL_StatusTypeDef) (b : Bus)
    (this : Nat) (address length : Int) (repeated : Bool) : Bus × Int :=
  let b1 := I2C.aquire t b this
  let stop : Bool := !repeated
  let r := i2c_write t env status (b1.dev this) (uint16 address) (uint32 length) stop
  (b1.store this r.dev, if length ≠ r.ret then 1 else 0)

/-- `I2C::read(int address, char *data, int length, bool repeated)`: returns
the bus and `length != read`. -/
def I2C.read (t : Target) (env : Nat → Dev → Dev) (status : HAL_StatusTypeDef) (b : Bus)
    (this : Nat) (address length : Int) (repeated : Bool) : Bus × Int :=
  let b1 := I2C.aquire t b this
  let stop : Bool := !repeated
  let r := i2c_read t env status (b1.dev this) (uint16 address) (uint32 length) stop
  (b1.store this r.dev, if length ≠ r.ret then 1 else 0)

/-! ## Asynchronous transfers of the driver -/

/-- `I2C::lock_deep_sleep`. -/
def I2C.lock_deep_sleep (self : I2C) : I2C :=
  if self._deep_sleep_locked = false then
    { self with sleep_locks := self.sleep_locks + 1, _deep_sleep_locked := true }
  else self

/-- `I2C::unlock_deep_sleep`. -/
def I2C.unlock_deep_sleep (self : I2C) : I2C :=
  if self._deep_sleep_locked = true then
    { self with sleep_unlocks := self.sleep_unlocks + 1, _deep_sleep_locked := false }
  else self

/-- The handler that `I2C::transfer` registers, `&I2C::irq_handler_asynch`. -/
def irq_handler_asynch_ptr : Nat := 1

/-- `I2C::transfer` on an idle object, up to the call of the HAL: deep sleep
is locked, the bus acquired, the callback stored and the transfer marked as
ongoing. -/
def I2C.transfer_armed (t : Target) (b : Bus) (this : Nat) (callback : Option Nat) : Bus :=
  let b1 : Bus := { b with objs := Function.update b.objs this (b.objs this).lock_deep_sleep }
  let b2 := I2C.aquire t b1 this
  { b2 with
    objs := Function.update b2.objs this
      { b2.objs this with _callback := callback, _async_transfer_ongoing := true } }

/-- The call of `i2c_transfer_async` that `I2C::transfer` makes on an idle
object: the device it leaves and the `bool` it returns. -/
def I2C.transfer_request (t : Target) (status : HAL_StatusTypeDef) (b : Bus) (this : Nat)
    (address tx_length rx_length : Int) (callback : Option Nat) (repeated : Bool) : Dev × Bool :=
  i2c_transfer_async t status ((I2C.transfer_armed t b this callback).dev this)
    (uint32 tx_length) (uint32 rx_length) (uint16 address) (!repeated)
    (some irq_handler_asynch_ptr) (some this)

/-- `I2C::transfer`: returns the bus and the `int` result.  `callback` is
`none` for an empty callback; the argument `event` is not used by the
function.  `status` is what the HAL answers to the request, if one is made. -/
def I2C.transfer (t : Target) (status : HAL_StatusTypeDef) (b : Bus) (this : Nat)
    (address tx_length rx_length : Int) (callback : Option Nat) (repeated : Bool) : Bus × Int :=
  if (b.objs this)._async_transfer_ongoing then (b, -1)
  else
    ((I2C.transfer_armed t b this callback).store this
      (I2C.transfer_request t status b this address tx_length rx_length callback repeated).1, 0)

/-- `I2C::abort_transfer`. -/
def I2C.abort_transfer (b : Bus) (this : Nat) : Bus :=
  let b1 := b.store this (i2c_abort_async (b.dev this))
  { b1 with
    objs := Function.update b1.objs this
      ({ b1.objs this with _async_transfer_ongoing := false } : I2C).unlock_deep_sleep }

/-- `I2C::irq_handler_asynch(obj, event, ctx)` with `self = ctx`: returns the
bus and, if the user callback is not empty, the callback with the event mask
it is called with. -/
def I2C.irq_handler_asynch (b : Bus) (event : i2c_async_event_t) (ctx : Nat) :
    Bus × Option (Nat × Nat) :=
  let self := b.objs ctx
  let user : Option (Nat × Nat) :=
    self._callback.map
      (fun cb => (cb, if event.error then I2C_EVENT_ERROR else I2C_EVENT_TRANSFER_COMPLETE))
  ({ b with
      objs := Function.update b.objs ctx
        ({ self with _async_transfer_ongoing := false } : I2C).unlock_deep_sleep },
    user)

/-- An interrupt of the peripheral served on the HAL object of `this`: the
HAL callback runs, and the handler it invokes, if any, is
`I2C::irq_handler_asynch` with the stored context. -/
def I2C.interrupt (t : Target) (b : Bus) (this : Nat) (irq : Irq) : Bus × Option (Nat × Nat) :=
  let r := irq.deliver t (b.dev this)
  let b1 := b.store this r.1
  match r.2 with
  | none => (b1, none)
  | some call =>
    match call.ctx with
    | none => (b1, none)
    | some ctx => I2C.irq_handler_asynch b1 call.event ctx

/-! ## Sequences of HAL calls with interrupts -/

/-- `HAL_I2C_ListenCpltCallback`: listening is started again. -/
def HAL_I2C_ListenCpltCallback (d : Dev) : Dev :=
  HAL_I2C_EnableListen_IT d

/-- Any interrupt for which the file has a callback. -/
inductive AnyIrq where
  | master (irq : Irq)
  | slave (irq : SlaveIrq)
  | ListenCplt

/-- The callback of an interrupt runs on the device. -/
def AnyIrq.deliver (t : Target) (irq : AnyIrq) (d : Dev) : Dev :=
  match irq with
  | AnyIrq.master i => (i.deliver t d).1
  | AnyIrq.slave i => i.deliver d
  | AnyIrq.ListenCplt => HAL_I2C_ListenCpltCallback d

/-- Interrupt context given by a schedule: before the `k`-th evaluation of a
polling condition the interrupts `sched k` are served in order. -/
def irq_env (t : Target) (sched : Nat → List AnyIrq) : Nat → Dev → Dev :=
  fun k d => (sched k).foldl (fun d1 irq => irq.deliver t d1) d

/-- A call into the HAL layer on one object, or an interrupt between two
calls; the blocking transfers carry the schedule of the interrupts that
arrive while they poll and the status that the HAL answers to the request. -/
inductive HalOp where
  | init (sda scl : Nat) (is_slave : Bool)
  | frequency (hz : Nat)
  | timeout (timeout : Nat)
  | read (sched : Nat → List AnyIrq) (status : HAL_StatusTypeDef) (address length : Nat)
      (stop : Bool)
  | write (sched : Nat → List AnyIrq) (status : HAL_StatusTypeDef) (address length : Nat)
      (stop : Bool)
  | irq (i : AnyIrq)

/-- The device after one operation. -/
def HalOp.run (t : Target) (d : Dev) : HalOp → Dev
  | HalOp.init sda scl is_slave => i2c_init t d sda scl is_slave
  | HalOp.frequency hz => (i2c_frequency t d hz).1
  | HalOp.timeout x => i2c_timeout d x
  | HalOp.read sched status address length stop =>
    (i2c_read t (irq_env t sched) status d address length stop).dev
  | HalOp.write sched status address length stop =>
    (i2c_write t (irq_env t sched) status d address length stop).dev
  | HalOp.irq i => i.deliver t d

/-- The device after a sequence of operations. -/
def HalOp.run_all (t : Target) (d : Dev) (ops : List HalOp) : Dev :=
  ops.foldl (HalOp.run t) d

/-- A frequency call asks for a positive frequency. -/
def HalOp.positive : HalOp → Prop
  | HalOp.frequency hz => 0 < hz
  | _ => True

/-! ## Sequences of master segments -/

/-- One segment of a master transaction: the request of a blocking read
(`write = false`) or write with its stop flag. -/
structure Segment where
  write : Bool
  address : Nat
  length : Nat
  stop : Bool

/-- The request of one segment, accepted by the HAL. -/
def Segment.request (t : Target) (d : Dev) (s : Segment) : Dev :=
  if s.write then i2c_write_request t HAL_OK d s.address s.length s.stop
  else i2c_read_request t HAL_OK d s.address s.length s.stop

/-- The requests of successive segments with no reinitialisation between
them: the device after the last one, and the frame option stored by each
request, in order. -/
def issue_segments (t : Target) : Dev → List Segment → Dev × List Nat
  | d, [] => (d, [])
  | d, s :: rest =>
    ((issue_segments t (s.request t d) rest).1,
      (s.request t d).obj.XferOperation :: (issue_segments t (s.request t d) rest).2)

/-- The table of the specification: the frame option of a segment by the
stop flag of the segment before it and its own. -/
def spec_tag (t : Target) : Bool → Bool → Nat
  | true, true => t.I2C_FIRST_AND_LAST_FRAME
  | true, false => t.I2C_FIRST_FRAME
  | false, true => t.I2C_LAST_FRAME
  | false, false => t.I2C_NEXT_FRAME

/-- The table of the specification applied along a sequence of stop flags,
`prev` being the flag before the first one. -/
def spec_tags (t : Target) : Bool → List Bool → List Nat
  | _, [] => []
  | prev, s :: rest => spec_tag t prev s :: spec_tags t s rest

/-! ## The driver class `mbed::I2CSlave` -/

/-- `I2CSlave::address`: `int addr = (address & 0xFF) | 1;` is handed to
`i2c_slave_address`, whose parameter is a `uint16_t`. -/
def I2CSlave.address (d : Dev) (address : Int) : Dev :=
  i2c_slave_address d (uint16 (Int.lor (Int.land address 0xFF) 1))

/-! ## Alignment helpers of `features/storage/internal/utils.cpp` -/

/-- `align_up`: `(((val - 1) / size) + 1) * size` in 64-bit unsigned
arithmetic, converted to the `uint32_t` result. -/
def align_up (val size : Nat) : Nat :=
  ((((val % 2 ^ 64 + 2 ^ 64 - 1) % 2 ^ 64 / (size % 2 ^ 64) + 1) % 2 ^ 64 * (size % 2 ^ 64)) %
    2 ^ 64) % 2 ^ 32

/-- `align_down`: `(val / size) * size` in 64-bit unsigned arithmetic,
converted to the `uint32_t` result. -/
def align_down (val size : Nat) : Nat :=
  (((val % 2 ^ 64) / (size % 2 ^ 64) * (size % 2 ^ 64)) % 2 ^ 64) % 2 ^ 32

/-! ## Bus recovery -/

/-- The two lines of the bus. -/
inductive Line where
  | SDA
  | SCL
  deriving DecidableEq

/-- Pull modes used by `I2C::recover`. -/
inductive PinMode where
  | PullNone
  | PullUp
  deriving DecidableEq

/-- What `I2C::recover` does to the two `DigitalInOut` pins, and the waits
between: construction as input, a read with the value it returned, a change
of pull mode, a switch to output or input, a write, a wait in
microseconds. -/
inductive PinOp where
  | init (l : Line) (mode : PinMode) (value : Nat)
  | read (l : Line) (value : Bool)
  | mode (l : Line) (m : PinMode)
  | output (l : Line)
  | input (l : Line)
  | write (l : Line) (value : Nat)
  | wait_us (n : Nat)
  deriving DecidableEq

/-- A line is driven by a switch to output or by a write. -/
def PinOp.drives : PinOp → Bool
  | PinOp.output _ => true
  | PinOp.write _ _ => true
  | _ => false

/-- Body of the loop of `I2C::recover`: one clock pulse on SCL. -/
def clock_pulse : List PinOp :=
  [PinOp.mode Line.SCL PinMode.PullNone, PinOp.write Line.SCL 0, PinOp.wait_us 5,
    PinOp.mode Line.SCL PinMode.PullUp, PinOp.write Line.SCL 1, PinOp.wait_us 5]

/-- The loop `for (int count = 0; count < 10; count++)` of `I2C::recover`,
entered with `count`; `fuel` bounds the rounds. -/
def clock_pulses : Nat → Nat → List PinOp
  | 0, _ => []
  | fuel + 1, count => if count < 10 then clock_pulse ++ clock_pulses fuel (count + 1) else []

/-- The STOP that `I2C::recover` sends after the pulses. -/
def stop_sequence : List PinOp :=
  [PinOp.output Line.SDA, PinOp.write Line.SDA 0, PinOp.wait_us 5, PinOp.write Line.SCL 1,
    PinOp.wait_us 5, PinOp.write Line.SDA 1, PinOp.wait_us 5]

/-- `I2C::recover`.  `sda_read n` and `scl_read n` are the levels that the
`n`-th read of the line returns (`true` is high), counted from 1.  Returns
the result and what was done to the pins, in order. -/
def I2C.recover (sda_read scl_read : Nat → Bool) : Int × List PinOp :=
  let tr0 : List PinOp :=
    [PinOp.init Line.SDA PinMode.PullNone 1, PinOp.init Line.SCL PinMode.PullNone 1,
      PinOp.read Line.SCL (scl_read 1)]
  if scl_read 1 = false then (I2C_ERROR_BUS_BUSY, tr0)
  else
    let tr1 := tr0 ++ [PinOp.read Line.SDA (sda_read 1)]
    if sda_read 1 = true then (0, tr1)
    else
      let tr2 := tr1 ++ [PinOp.mode Line.SCL PinMode.PullNone, PinOp.output Line.SCL] ++
        clock_pulses 10 0 ++ stop_sequence ++
        [PinOp.input Line.SDA, PinOp.input Line.SCL, PinOp.read Line.SCL (scl_read 2)]
      if scl_read 2 = false then (I2C_ERROR_BUS_BUSY, tr2)
      else
        let tr3 := tr2 ++ [PinOp.read Line.SDA (sda_read 2)]
        if sda_read 2 = false then (I2C_ERROR_BUS_BUSY, tr3) else (0, tr3)

/-- A read of the line `l`. -/
def PinOp.reads (l : Line) : PinOp → Bool
  | PinOp.read l2 _ => decide (l2 = l)
  | _ => false

/-- Clock pulses in a trace: the number of times SCL is written low. -/
def scl_pulses (tr : List PinOp) : Nat := tr.count (PinOp.write Line.SCL 0)

/-- A line that reads low on its reads 1 to 9 and high from read 10 on. -/
def sda_high_from_10 : Nat → Bool := fun n => decide (10 ≤ n)

/-- A line that reads high every time. -/
def always_high : Nat → Bool := fun _ => true

/-! ## Construction and sequences of calls -/

/-- The constructor `I2C::I2C(sda, scl)`.  `recover(sda, scl)` acts on the
pins only and its result is not used. -/
def I2C.construct (t : Target) (b : Bus) (this sda scl : Nat) : Option Bus :=
  let self : I2C :=
    { _deep_sleep_locked := false
      _async_transfer_ongoing := false
      _i2c := i2c_t.zero
      _hz := 100000
      _sda := sda
      _scl := scl
      _callback := none
      sleep_locks := 0
      sleep_unlocks := 0 }
  let b1 : Bus := { b with objs := Function.update b.objs this self }
  let b2 := b1.store this (i2c_init t (b1.dev this) sda scl false)
  (I2C.frequency t b2 this ((b2.objs this)._hz : Int)).map
    (fun b3 => { b3 with _owner := some this })

/-- A call of a member function of the object at address `this`, or an
interrupt served on its HAL object. -/
inductive BusOp where
  | construct (this sda scl : Nat)
  | frequency (this : Nat) (hz : Int)
  | aquire (this : Nat)
  | write (this : Nat) (env : Nat → Dev → Dev) (status : HAL_StatusTypeDef)
      (address length : Int) (repeated : Bool)
  | read (this : Nat) (env : Nat → Dev → Dev) (status : HAL_StatusTypeDef)
      (address length : Int) (repeated : Bool)
  | transfer (this : Nat) (status : HAL_StatusTypeDef) (address tx_length rx_length : Int)
      (callback : Option Nat) (repeated : Bool)
  | abort_transfer (this : Nat)
  | interrupt (this : Nat) (irq : Irq)

/-- The bus after one operation; `none` when an assertion fails. -/
def Bus.step (t : Target) (b : Bus) : BusOp → Option Bus
  | BusOp.construct this sda scl => I2C.construct t b this sda scl
  | BusOp.frequency this hz => I2C.frequency t b this hz
  | BusOp.aquire this => some (I2C.aquire t b this)
  | BusOp.write this env status address length repeated =>
    some (I2C.write t env status b this address length repeated).1
  | BusOp.read this env status address length repeated =>
    some (I2C.read t env status b this address length repeated).1
  | BusOp.transfer this status address tx_length rx_length callback repeated =>
    some (I2C.transfer t status b this address tx_length rx_length callback repeated).1
  | BusOp.abort_transfer this => some (I2C.abort_transfer b this)
  | BusOp.interrupt this irq => some (I2C.interrupt t b this irq).1

/-- The bus after a sequence of operations. -/
def Bus.run (t : Target) : Bus → List BusOp → Option Bus
  | b, [] => some b
  | b, op :: ops => (Bus.step t b op).bind (fun b1 => Bus.run t b1 ops)

/-- The configuration `cfg` carries the timing of the frequency `hz`: the
timing word of the table on the V2 IP, the clock speed on the V1 IP. -/
def timing_of (t : Target) (cfg : I2C_InitTypeDef) (hz : Nat) : Prop :=
  if t.I2C_IP_VERSION_V2 then cfg.Timing = t.get_i2c_timing hz else cfg.ClockSpeed = hz

instance (t : Target) (cfg : I2C_InitTypeDef) (hz : Nat) : Decidable (timing_of t cfg hz) := by
  unfold timing_of; infer_instance

/-- The peripheral is programmed for the frequency stored in the object. -/
def Dev.tuned (t : Target) (d : Dev) : Prop := timing_of t d.hw.Init d.obj.hz

/-- Interrupt context that keeps the peripheral programmed for the frequency
stored in the object, and keeps a stored frequency that is not zero. -/
def EnvKeeps (t : Target) (env : Nat → Dev → Dev) : Prop :=
  ∀ k d, d.tuned t → (env k d).tuned t ∧ (d.obj.hz ≠ 0 → (env k d).obj.hz = d.obj.hz)

/-- The condition of the ownership invariant on one operation in state `b`.
A blocking call has an interrupt context that satisfies `EnvKeeps`, and an
error interrupt is served on the object that owns the bus.  The code does not
ensure the second: the interrupt routine serves the handle of the last
request, and `frequency` and the constructor of another handle take the
ownership without making a request.  Every other call, and every other
interrupt on any handle, is admitted as it is. -/
def BusOp.admitted (t : Target) (b : Bus) : BusOp → Prop
  | BusOp.write _ env _ _ _ _ => EnvKeeps t env
  | BusOp.read _ env _ _ _ _ => EnvKeeps t env
  | BusOp.interrupt this (Irq.Error _ _) => b._owner = some this
  | _ => True

/-- Every operation of the sequence is admitted in the state it starts
from. -/
def Bus.admits (t : Target) : Bus → List BusOp → Prop
  | _, [] => True
  | b, op :: ops => op.admitted t b ∧ ∀ b1, Bus.step t b op = some b1 → Bus.admits t b1 ops

/-- The peripheral is programmed for the frequency stored in the HAL object
of the owner, and that is the frequency of the owner unless this is 0. -/
def Bus.owner_tuned (t : Target) (b : Bus) : Prop :=
  ∀ X, b._owner = some X →
    (b.dev X).tuned t ∧ ((b.objs X)._hz ≠ 0 → (b.objs X)._i2c.hz = (b.objs X)._hz)

/-- The operations of the asynchronous life of one object: its constructor,
`transfer`, `abort_transfer`, and the interrupts served on it. -/
def BusOp.is_async (this : Nat) : BusOp → Prop
  | BusOp.construct x _ _ => x = this
  | BusOp.transfer x _ _ _ _ _ _ => x = this
  | BusOp.abort_transfer x => x = this
  | BusOp.interrupt x _ => x = this
  | _ => False

/-- Invariant of the asynchronous life of the object at `this`: the
inhibitor flag equals the ongoing flag, the calls to the sleep manager are
balanced up to the one lock held while the flag is set, an ongoing transfer
has a handler stored in the HAL object, and a stored handler has the object
as its context. -/
def Bus.async_inv (b : Bus) (this : Nat) : Prop :=
  (b.objs this)._deep_sleep_locked = (b.objs this)._async_transfer_ongoing ∧
  (b.objs this).sleep_locks =
    (b.objs this).sleep_unlocks + (if (b.objs this)._deep_sleep_locked then 1 else 0) ∧
  ((b.objs this)._async_transfer_ongoing = true → (b.objs this)._i2c.handler ≠ none) ∧
  ((b.objs this)._i2c.handler ≠ none → (b.objs this)._i2c.ctx = some this)

/-! ## Sample states -/

/-- A master device right after `i2c_init` on a zero-filled object. -/
def dev_init (t : Target) : Dev := i2c_init t ⟨i2c_t.zero, Periph.reset⟩ 0 1 false

/-- Interrupt context that posts `event` with residual counter `count`
before every evaluation of the polling condition. -/
def env_post (event count : Nat) : Nat → Dev → Dev :=
  fun _ d => { d with obj := { d.obj with event := event, XferCount := count } }

/-- A master that has completed a one-byte write with stop: its event mask
is TRANSFER_COMPLETE and its interrupts are disabled. -/
def dev_done (t : Target) : Dev :=
  (i2c_write t (env_post I2C_EVENT_TRANSFER_COMPLETE 0) HAL_OK (dev_init t) 80 1 true).dev

/-- Interrupt context of a lost arbitration: before the first evaluation of
the polling condition the HAL sets the arbitration-lost bit of the error
code and runs `HAL_I2C_ErrorCallback`; nothing fires afterwards. -/
def env_arbitration_lost (t : Target) : Nat → Dev → Dev :=
  fun k d =>
    if k = 0 then
      (HAL_I2C_ErrorCallback t
        { d with obj := { d.obj with ErrorCode := t.HAL_I2C_ERROR_ARLO } }).1
    else d

/-- Interrupt context in which no interrupt ever fires. -/
def env_idle : Nat → Dev → Dev := fun _ d => d

/-- Members of an `mbed::I2C` object after its constructor has run on a
healthy bus at 100 kHz. -/
def I2C.fresh (t : Target) : I2C where
  _i2c := (dev_init t).obj
  _hz := 100000
  _sda := 0
  _scl := 1
  _deep_sleep_locked := false
  _async_transfer_ongoing := false
  _callback := none
  sleep_locks := 0
  sleep_unlocks := 0

/-- A bus whose objects are all fresh and whose owner is the object at
address 1. -/
def bus_fresh (t : Target) : Bus where
  _owner := some 1
  objs := fun _ => I2C.fresh t
  hw := (dev_init t).hw

/-- A bus before any object has been constructed: `_owner` is `NULL`. -/
def bus_unowned (t : Target) : Bus := { bus_fresh t with _owner := none }

/-- Handle 1 is constructed and set to 0 Hz; its asynchronous write of two
bytes is accepted and then answered by an error interrupt. -/
def ops_zero_hz : List BusOp :=
  [BusOp.construct 1 0 1, BusOp.frequency 1 0, BusOp.transfer 1 HAL_OK 80 2 0 (some 7) false,
    BusOp.interrupt 1 (Irq.Error 0 2)]

/-- The bus after `ops_zero_hz`. -/
def bus_zero_hz (t : Target) : Bus :=
  (Bus.run t (bus_unowned t) ops_zero_hz).getD (bus_unowned t)

/-- A bus on which the object at address 1 has been constructed; `bus_fresh`
when the constructor fails. -/
def bus_constructed (t : Target) : Bus :=
  (I2C.construct t (bus_fresh t) 1 0 1).getD (bus_fresh t)

/-- A bus on which the object at address 1 has an accepted asynchronous
write of two bytes outstanding. -/
def bus_ongoing (t : Target) : Bus :=
  (I2C.transfer t HAL_OK (bus_fresh t) 1 80 2 0 (some 7) false).1

/-- A master that has completed a one-byte write without stop: the
transaction is open and the stored frame option is FIRST. -/
def dev_open (t : Target) : Dev :=
  (i2c_write t (env_post I2C_EVENT_TRANSFER_COMPLETE 0) HAL_OK (dev_init t) 80 1 false).dev

/-- A slave with own address 0x51 programmed. -/
def dev_slave_addressed (t : Target) : Dev :=
  I2CSlave.address (i2c_init t ⟨i2c_t.zero, Periph.reset⟩ 0 1 true) 0x50

/-- A slave device right after `i2c_init`. -/
def dev_slave (t : Target) : Dev := i2c_init t ⟨i2c_t.zero, Periph.reset⟩ 0 1 true

/-- A slave that a master has addressed for a write: the flag of a pending
reception is set. -/
def dev_slave_rx (t : Target) : Dev :=
  HAL_I2C_AddrCallback (dev_slave t) TransferDirection.I2C_DIRECTION_TRANSMIT

/-- A master with an accepted two-phase transfer (2 bytes out, 4 bytes in,
with stop) whose transmit phase has completed and whose receive phase has
been chained. -/
def dev_receiving (t : Target) : Dev :=
  ((Irq.MasterTxCplt 0 HAL_OK).deliver t
    (i2c_transfer_async t HAL_OK (dev_init t) 2 4 80 true (some irq_handler_asynch_ptr)
      (some 1)).1).1

/-! ## Properties of the polling loop -/

theorem dec32_dec32 (timeout : Nat) (h : dec32 timeout ≠ 0) :
    dec32 (dec32 timeout) + 1 = dec32 timeout := by
  unfold dec32 at h ⊢; omega

theorem dec32_pos (timeout : Nat) (h1 : 0 < timeout) (h2 : timeout < 2 ^ 32) :
    dec32 timeout = timeout - 1 := by
  unfold dec32; omega

/-- The loop equation: one evaluation of the condition, then either the exit
or the rest of the loop with the decremented counter. -/
theorem wait_while_eq (pending : i2c_t → Bool) (env : Nat → Dev → Dev) (d : Dev)
    (timeout k waits : Nat) :
    wait_while pending env d timeout k waits =
      if pending (env k d).obj then
        if dec32 timeout = 0 then ⟨env k d, 0, waits⟩
        else wait_while pending env (env k d) (dec32 timeout) (k + 1) (waits + 1)
      else ⟨env k d, timeout, waits⟩ := by
  unfold wait_while
  rw [wait_rounds]
  by_cases hp : pending (env k d).obj = true
  · by_cases h0 : dec32 timeout = 0
    · simp [hp, h0]
    · simp only [hp, h0, if_true, if_false]
      rw [dec32_dec32 timeout h0]
  · simp [hp]

/-- The loop is left at once when the condition is false at its first
evaluation. -/
theorem wait_while_stop (pending : i2c_t → Bool) (env : Nat → Dev → Dev) (d : Dev)
    (timeout k waits : Nat) (h : pending (env k d).obj = false) :
    wait_while pending env d timeout k waits = ⟨env k d, timeout, waits⟩ := by
  rw [wait_while_eq]; simp [h]

/-- When the condition stays true, the loop ends with the counter at zero
after `dec32 timeout` waits. -/
theorem wait_while_never (pending : i2c_t → Bool) (env : Nat → Dev → Dev) (P : Dev → Prop)
    (hP : ∀ k d, P d → P (env k d)) (hc : ∀ d, P d → pending d.obj = true) :
    ∀ (n : Nat) (d : Dev) (timeout k waits : Nat), dec32 timeout = n → P d →
      (wait_while pending env d timeout k waits).timeout = 0 ∧
      (wait_while pending env d timeout k waits).waits = waits + n ∧
      P (wait_while pending env d timeout k waits).dev := by
  intro n
  induction n using Nat.strong_induction_on with
  | _ n ih =>
    intro d timeout k waits hn hd
    have h1 : P (env k d) := hP k d hd
    have h2 := hc _ h1
    rw [wait_while_eq]
    simp only [h2, if_true]
    by_cases h0 : dec32 timeout = 0
    · simp only [h0, if_true]
      exact ⟨trivial, by omega, h1⟩
    · simp only [h0, if_false]
      have hd2 := dec32_dec32 timeout h0
      have := ih (dec32 timeout - 1) (by omega) (env k d)
        (dec32 timeout) (k + 1) (waits + 1) (by omega) h1
      refine ⟨this.1, ?_, this.2.2⟩
      rw [this.2.1]; omega

/-- A loop entered with a non-zero counter and left because the condition
became false has a non-zero counter at its end. -/
theorem wait_while_counter (pending : i2c_t → Bool) (env : Nat → Dev → Dev) :
    ∀ (n : Nat) (d : Dev) (timeout k waits : Nat), dec32 timeout = n →
      timeout ≠ 0 → pending (wait_while pending env d timeout k waits).dev.obj = false →
      (wait_while pending env d timeout k waits).timeout ≠ 0 := by
  intro n
  induction n using Nat.strong_induction_on with
  | _ n ih =>
    intro d timeout k waits hn ht
    rw [wait_while_eq]
    by_cases hp : pending (env k d).obj = true
    · simp only [hp, if_true]
      by_cases h0 : dec32 timeout = 0
      · simp [h0, hp]
      · simp only [h0, if_false]
        have hd2 := dec32_dec32 timeout h0
        exact ih (dec32 timeout - 1) (by omega) (env k d)
          (dec32 timeout) (k + 1) (waits + 1) (by omega) h0
    · simp only [hp]
      intro _; exact ht

/-! ## Frame sequencer -/

theorem next_XferOperation_open (t : Target) (prev : Nat) (stop : Bool)
    (h : prev = t.I2C_FIRST_AND_LAST_FRAME ∨ prev = t.I2C_LAST_FRAME) :
    next_XferOperation t prev stop =
      if stop then t.I2C_FIRST_AND_LAST_FRAME else t.I2C_FIRST_FRAME := by
  unfold next_XferOperation; rw [if_pos h]

theorem next_XferOperation_continue (t : Target) (hsep : t.separated) (prev : Nat) (stop : Bool)
    (h : prev = t.I2C_FIRST_FRAME ∨ prev = t.I2C_NEXT_FRAME) :
    next_XferOperation t prev stop =
      if stop then t.I2C_LAST_FRAME else t.I2C_NEXT_FRAME := by
  have hn : ¬ (prev = t.I2C_FIRST_AND_LAST_FRAME ∨ prev = t.I2C_LAST_FRAME) := by
    obtain ⟨h1, h2, h3, h4⟩ := hsep
    rcases h with h | h <;> subst h <;> simp [h1, h2, h3, h4]
  unfold next_XferOperation; rw [if_neg hn, if_pos h]

theorem i2c_read_request_tag (t : Target) (status : HAL_StatusTypeDef) (d : Dev)
    (address length : Nat) (stop : Bool) :
    (i2c_read_request t status d address length stop).obj.XferOperation =
        next_XferOperation t d.obj.XferOperation stop ∧
      (i2c_read_request t status d address length stop).hw.calls =
        HalCall.MasterReceive address length (next_XferOperation t d.obj.XferOperation stop) status
          :: d.hw.calls := by
  simp [i2c_read_request, i2c_ev_err_enable, Dev.call]

theorem i2c_write_request_tag (t : Target) (status : HAL_StatusTypeDef) (d : Dev)
    (address length : Nat) (stop : Bool) :
    (i2c_write_request t status d address length stop).obj.XferOperation =
        next_XferOperation t d.obj.XferOperation stop ∧
      (i2c_write_request t status d address length stop).hw.calls =
        HalCall.MasterTransmit address length (next_XferOperation t d.obj.XferOperation stop) status
          :: d.hw.calls := by
  simp [i2c_write_request, i2c_ev_err_enable, Dev.call]

theorem i2c_transfer_async_single_tag (t : Target) (status : HAL_StatusTypeDef) (d : Dev)
    (tx_length rx_length address : Nat) (stop : Bool) (handler ctx : Option Nat)
    (hdir : (tx_length ≠ 0 ∧ rx_length = 0) ∨ (tx_length = 0 ∧ rx_length ≠ 0)) :
    (i2c_transfer_async t status d tx_length rx_length address stop handler ctx).1.obj.XferOperation =
        next_XferOperation t d.obj.XferOperation stop ∧
      (i2c_transfer_async t status d tx_length rx_length address stop handler ctx).1.hw.calls =
        (if tx_length ≠ 0 then
          HalCall.MasterTransmit address tx_length
            (next_XferOperation t d.obj.XferOperation stop) status
        else
          HalCall.MasterReceive address rx_length
            (next_XferOperation t d.obj.XferOperation stop) status) :: d.hw.calls := by
  unfold i2c_transfer_async
  rcases hdir with ⟨h1, h2⟩ | ⟨h1, h2⟩
  · have : tx_length > 0 := Nat.pos_of_ne_zero h1
    simp [h1, h2, this, i2c_ev_err_enable, Dev.call]
  · have : rx_length > 0 := Nat.pos_of_ne_zero h2
    simp [h1, h2, this, i2c_ev_err_enable, Dev.call]

/-- C1. Frame sequencer table.  Let `tag` be the entry of the table for the
previous frame option of the object and the stop flag: after
FIRST_AND_LAST or LAST it is FIRST_AND_LAST with stop and FIRST without,
after FIRST or NEXT it is LAST with stop and NEXT without.  Then blocking
read, blocking write and a single-direction asynchronous transfer each store
`tag` in the object and hand exactly one request to the HAL, with frame
option `tag`. -/
theorem frame_sequencer_table (t : Target) (hsep : t.separated) (d : Dev) (stop : Bool)
    (status : HAL_StatusTypeDef) (address length tx_length rx_length : Nat)
    (handler ctx : Option Nat)
    (hdir : (tx_length ≠ 0 ∧ rx_length = 0) ∨ (tx_length = 0 ∧ rx_length ≠ 0))
    (tag : Nat)
    (htag :
      ((d.obj.XferOperation = t.I2C_FIRST_AND_LAST_FRAME ∨
          d.obj.XferOperation = t.I2C_LAST_FRAME) ∧
        tag = if stop then t.I2C_FIRST_AND_LAST_FRAME else t.I2C_FIRST_FRAME) ∨
      ((d.obj.XferOperation = t.I2C_FIRST_FRAME ∨ d.obj.XferOperation = t.I2C_NEXT_FRAME) ∧
        tag = if stop then t.I2C_LAST_FRAME else t.I2C_NEXT_FRAME)) :
    ((i2c_read_request t status d address length stop).obj.XferOperation = tag ∧
      (i2c_read_request t status d address length stop).hw.calls =
        HalCall.MasterReceive address length tag status :: d.hw.calls) ∧
    ((i2c_write_request t status d address length stop).obj.XferOperation = tag ∧
      (i2c_write_request t status d address length stop).hw.calls =
        HalCall.MasterTransmit address length tag status :: d.hw.calls) ∧
    ((i2c_transfer_async t status d tx_length rx_length address stop handler
        ctx).1.obj.XferOperation = tag ∧
      (i2c_transfer_async t status d tx_length rx_length address stop handler ctx).1.hw.calls =
        (if tx_length ≠ 0 then HalCall.MasterTransmit address tx_length tag status
          else HalCall.MasterReceive address rx_length tag status) :: d.hw.calls) := by
  have hnext : next_XferOperation t d.obj.XferOperation stop = tag := by
    rcases htag with ⟨h, rfl⟩ | ⟨h, rfl⟩
    · exact next_XferOperation_open t _ stop h
    · exact next_XferOperation_continue t hsep _ stop h
  have hr := i2c_read_request_tag t status d address length stop
  have hw := i2c_write_request_tag t status d address length stop
  have ha := i2c_transfer_async_single_tag t status d tx_length rx_length address stop handler
    ctx hdir
  rw [hnext] at hr hw ha
  exact ⟨hr, hw, ha⟩

/-- Witness of `frame_sequencer_table`: a freshly initialised master, no
stop, a read of two bytes; the table gives FIRST. -/
theorem frame_sequencer_table_witness :
    stm32v2.separated ∧
      ((2 ≠ 0 ∧ 0 = 0) ∨ (2 = 0 ∧ 0 ≠ 0)) ∧
      (((dev_init stm32v2).obj.XferOperation = stm32v2.I2C_FIRST_AND_LAST_FRAME ∨
          (dev_init stm32v2).obj.XferOperation = stm32v2.I2C_LAST_FRAME) ∧
        1 = if false then stm32v2.I2C_FIRST_AND_LAST_FRAME else stm32v2.I2C_FIRST_FRAME) ∧
      (i2c_read_request stm32v2 HAL_OK (dev_init stm32v2) 80 2 false).obj.XferOperation = 1 :=
  ⟨by decide, by decide, by decide,
    (frame_sequencer_table stm32v2 (by decide) (dev_init stm32v2) false HAL_OK 80 2 2 0 none none
      (by decide) 1 (Or.inl (by decide))).1.1⟩

/-! ## Blocking master transfers: outcome classification -/

theorem i2c_init_obj (t : Target) (d : Dev) (sda scl : Nat) (is_slave : Bool) :
    (i2c_init t d sda scl is_slave).obj.XferOperation = t.I2C_FIRST_AND_LAST_FRAME ∧
    (i2c_init t d sda scl is_slave).obj.event = 0 ∧
    (i2c_init t d sda scl is_slave).obj.pending_slave_tx_master_rx = 0 ∧
    (i2c_init t d sda scl is_slave).obj.pending_slave_rx_maxter_tx = 0 ∧
    (i2c_init t d sda scl is_slave).obj.tx_complete = 0 ∧
    (i2c_init t d sda scl is_slave).obj.timeout = UINT32_MAX ∧
    (i2c_init t d sda scl is_slave).obj.slave = (if is_slave then 1 else 0) := by
  unfold i2c_init
  cases is_slave <;>
    simp [HAL_I2C_EnableListen_IT, HAL_I2C_DisableListen_IT]

theorem master_finish_failure (t : Target) (p : PollResult) (length : Nat)
    (h : p.timeout = 0 ∨ p.dev.obj.event ≠ I2C_EVENT_TRANSFER_COMPLETE) :
    master_finish t p length =
      ⟨i2c_init t (i2c_ev_err_disable p.dev) p.dev.obj.sda p.dev.obj.scl (p.dev.obj.slave != 0),
        I2C_ERROR_TIMEOUT, p.waits⟩ := by
  unfold master_finish
  have h2 : p.timeout = 0 ∨
      (i2c_ev_err_disable p.dev).obj.event ≠ I2C_EVENT_TRANSFER_COMPLETE := h
  simp only [if_pos h2]
  rfl

theorem master_finish_complete (t : Target) (p : PollResult) (length : Nat)
    (h1 : p.timeout ≠ 0) (h2 : p.dev.obj.event = I2C_EVENT_TRANSFER_COMPLETE) :
    master_finish t p length =
      ⟨i2c_ev_err_disable p.dev, toInt32 (sub32 length p.dev.obj.XferCount), p.waits⟩ := by
  unfold master_finish
  have h3 : ¬ (p.timeout = 0 ∨
      (i2c_ev_err_disable p.dev).obj.event ≠ I2C_EVENT_TRANSFER_COMPLETE) := by
    intro h; rcases h with h | h
    · exact h1 h
    · exact h h2
  have h4 : ¬ ((i2c_ev_err_disable p.dev).obj.event = I2C_EVENT_ARBITRATION_LOST) := by
    show ¬ (p.dev.obj.event = I2C_EVENT_ARBITRATION_LOST)
    rw [h2]; decide
  simp only [if_neg h3, if_neg h4]
  rfl

theorem i2c_read_master (t : Target) (env : Nat → Dev → Dev) (d : Dev)
    (address length : Nat) (stop : Bool) (hm : d.obj.slave ≠ 1) :
    i2c_read t env HAL_OK d address length stop =
      master_finish t (i2c_read_poll t env d address length stop) length := by
  unfold i2c_read i2c_read_poll; simp [hm]

theorem i2c_write_master (t : Target) (env : Nat → Dev → Dev) (d : Dev)
    (address length : Nat) (stop : Bool) (hm : d.obj.slave ≠ 1) :
    i2c_write t env HAL_OK d address length stop =
      master_finish t (i2c_write_poll t env d address length stop) length := by
  unfold i2c_write i2c_write_poll; simp [hm]

theorem i2c_read_request_budget (t : Target) (status : HAL_StatusTypeDef) (d : Dev)
    (address length : Nat) (stop : Bool) (n : Nat) :
    master_timeout (i2c_read_request t status d address length stop).obj n =
      master_timeout d.obj n := by
  simp [i2c_read_request, i2c_ev_err_enable, Dev.call, master_timeout, BYTE_TIMEOUT_US]

theorem i2c_write_request_budget (t : Target) (status : HAL_StatusTypeDef) (d : Dev)
    (address length : Nat) (stop : Bool) (n : Nat) :
    master_timeout (i2c_write_request t status d address length stop).obj n =
      master_timeout d.obj n := by
  simp [i2c_write_request, i2c_ev_err_enable, Dev.call, master_timeout, BYTE_TIMEOUT_US]

theorem no_event_complete (o : i2c_t) (h : o.event = I2C_EVENT_TRANSFER_COMPLETE) :
    no_event o = false := by
  unfold no_event; rw [h]; decide

/-- A master poll entered with a non-zero budget and left with the event mask
TRANSFER_COMPLETE has a non-zero counter. -/
theorem master_poll_counter (env : Nat → Dev → Dev) (d1 : Dev) (length : Nat)
    (hb : master_timeout d1.obj length ≠ 0)
    (he : (master_poll env d1 length).dev.obj.event = I2C_EVENT_TRANSFER_COMPLETE) :
    (master_poll env d1 length).timeout ≠ 0 :=
  wait_while_counter no_event env _ d1 _ 0 0 rfl hb (no_event_complete _ he)

theorem toInt32_count (length count : Nat) (h1 : length < 2 ^ 31) (h2 : count ≤ length) :
    toInt32 (sub32 length count) = (length : Int) - (count : Int) := by
  unfold toInt32 sub32
  have h3 : (length % 2 ^ 32 + 2 ^ 32 - count % 2 ^ 32) % 2 ^ 32 = length - count := by omega
  rw [h3]
  have h4 : (length - count) % 2 ^ 32 = length - count := by omega
  rw [h4, if_pos (by omega)]
  omega

/-- C2. Arbitration loss seen by a blocking transfer.  On a master whose
timeout was set to 1000, a 4-byte read (and write) without stop is polling.
First case: the event mask ARBITRATION_LOST is posted; it is the event
observed when polling stops, yet the call returns `I2C_ERROR_TIMEOUT` (-3),
not `I2C_ERROR_ARBITRATION_LOST` (-4), and the object has been
reinitialised: its timeout is back to `UINT32_MAX` and its frame option,
FIRST during polling, back to FIRST_AND_LAST.  Second case: the error
interrupt of a lost arbitration runs `HAL_I2C_ErrorCallback`; the event mask
it leaves is ERROR, and the call returns -3 as well. -/
theorem arbitration_lost_returns_timeout :
    (i2c_timeout (dev_init stm32v2) 1000).obj.timeout = 1000 ∧
    (i2c_read_poll stm32v2 (env_post I2C_EVENT_ARBITRATION_LOST 0)
        (i2c_timeout (dev_init stm32v2) 1000) 80 4 false).dev.obj.event =
      I2C_EVENT_ARBITRATION_LOST ∧
    (i2c_read_poll stm32v2 (env_post I2C_EVENT_ARBITRATION_LOST 0)
        (i2c_timeout (dev_init stm32v2) 1000) 80 4 false).dev.obj.XferOperation =
      stm32v2.I2C_FIRST_FRAME ∧
    (i2c_read stm32v2 (env_post I2C_EVENT_ARBITRATION_LOST 0) HAL_OK
        (i2c_timeout (dev_init stm32v2) 1000) 80 4 false).ret = I2C_ERROR_TIMEOUT ∧
    (i2c_read stm32v2 (env_post I2C_EVENT_ARBITRATION_LOST 0) HAL_OK
        (i2c_timeout (dev_init stm32v2) 1000) 80 4 false).ret ≠ I2C_ERROR_ARBITRATION_LOST ∧
    (i2c_read stm32v2 (env_post I2C_EVENT_ARBITRATION_LOST 0) HAL_OK
        (i2c_timeout (dev_init stm32v2) 1000) 80 4 false).dev.obj.timeout = UINT32_MAX ∧
    (i2c_read stm32v2 (env_post I2C_EVENT_ARBITRATION_LOST 0) HAL_OK
        (i2c_timeout (dev_init stm32v2) 1000) 80 4 false).dev.obj.XferOperation =
      stm32v2.I2C_FIRST_AND_LAST_FRAME ∧
    (i2c_write_poll stm32v2 (env_post I2C_EVENT_ARBITRATION_LOST 0)
        (i2c_timeout (dev_init stm32v2) 1000) 80 4 false).dev.obj.event =
      I2C_EVENT_ARBITRATION_LOST ∧
    (i2c_write stm32v2 (env_post I2C_EVENT_ARBITRATION_LOST 0) HAL_OK
        (i2c_timeout (dev_init stm32v2) 1000) 80 4 false).ret = I2C_ERROR_TIMEOUT ∧
    (i2c_write stm32v2 (env_post I2C_EVENT_ARBITRATION_LOST 0) HAL_OK
        (i2c_timeout (dev_init stm32v2) 1000) 80 4 false).dev.obj.timeout = UINT32_MAX ∧
    (i2c_read_poll stm32v2 (env_arbitration_lost stm32v2)
        (i2c_timeout (dev_init stm32v2) 1000) 80 4 false).dev.obj.ErrorCode =
      stm32v2.HAL_I2C_ERROR_ARLO ∧
    (i2c_read_poll stm32v2 (env_arbitration_lost stm32v2)
        (i2c_timeout (dev_init stm32v2) 1000) 80 4 false).dev.obj.event = I2C_EVENT_ERROR ∧
    (i2c_read stm32v2 (env_arbitration_lost stm32v2) HAL_OK
        (i2c_timeout (dev_init stm32v2) 1000) 80 4 false).ret = I2C_ERROR_TIMEOUT ∧
    (i2c_write stm32v2 (env_arbitration_lost stm32v2) HAL_OK
        (i2c_timeout (dev_init stm32v2) 1000) 80 4 false).ret = I2C_ERROR_TIMEOUT := by
  decide

/-- C3, as stated, fails in two places.  With the timeout set to 0, a
4-byte read whose completion interrupt fires before the first evaluation of
the polling condition stops polling with the event mask exactly
TRANSFER_COMPLETE and residual 0, and returns -3 instead of 4.  With the
default budget, a completed read of `2 ^ 31` bytes with residual 0 returns
`-2 ^ 31`, which is neither the length nor in `[0, length]`. -/
theorem sync_complete_count_counterexample :
    ((i2c_read_poll stm32v2 (env_post I2C_EVENT_TRANSFER_COMPLETE 0)
          (i2c_timeout (dev_init stm32v2) 0) 80 4 true).dev.obj.event =
        I2C_EVENT_TRANSFER_COMPLETE ∧
      (i2c_read_poll stm32v2 (env_post I2C_EVENT_TRANSFER_COMPLETE 0)
          (i2c_timeout (dev_init stm32v2) 0) 80 4 true).dev.obj.XferCount = 0 ∧
      (i2c_read stm32v2 (env_post I2C_EVENT_TRANSFER_COMPLETE 0) HAL_OK
          (i2c_timeout (dev_init stm32v2) 0) 80 4 true).ret = -3) ∧
    ((i2c_read_poll stm32v2 (env_post I2C_EVENT_TRANSFER_COMPLETE 0)
          (dev_init stm32v2) 80 (2 ^ 31) true).dev.obj.event = I2C_EVENT_TRANSFER_COMPLETE ∧
      (i2c_read_poll stm32v2 (env_post I2C_EVENT_TRANSFER_COMPLETE 0)
          (dev_init stm32v2) 80 (2 ^ 31) true).dev.obj.XferCount = 0 ∧
      (i2c_read stm32v2 (env_post I2C_EVENT_TRANSFER_COMPLETE 0) HAL_OK
          (dev_init stm32v2) 80 (2 ^ 31) true).ret = -(2 ^ 31)) := by
  decide

/-- C3, amended.  For a master and every non-zero timeout budget: if the
event mask observed when polling stops is exactly TRANSFER_COMPLETE, the
call returns length minus the residual counter, computed on 32 bits and read
as `int32_t`, and only disables the interrupts (no reinitialisation).  For a
length below `2 ^ 31` and a residual not above the length this is the integer
`length - residual`, a value in `[0, length]`, and it is the length when the
residual is 0.  Holds for `i2c_read` and `i2c_write`. -/
theorem sync_complete_returns_count (t : Target) (env : Nat → Dev → Dev) (d : Dev)
    (address length : Nat) (stop : Bool) (hm : d.obj.slave ≠ 1)
    (hb : master_timeout d.obj length ≠ 0) :
    ((i2c_read_poll t env d address length stop).dev.obj.event = I2C_EVENT_TRANSFER_COMPLETE →
      (i2c_read t env HAL_OK d address length stop).ret =
          toInt32 (sub32 length (i2c_read_poll t env d address length stop).dev.obj.XferCount) ∧
        (i2c_read t env HAL_OK d address length stop).dev =
          i2c_ev_err_disable (i2c_read_poll t env d address length stop).dev ∧
        (length < 2 ^ 31 →
          (i2c_read_poll t env d address length stop).dev.obj.XferCount ≤ length →
          (i2c_read t env HAL_OK d address length stop).ret =
              (length : Int) - ((i2c_read_poll t env d address length stop).dev.obj.XferCount : Int) ∧
            0 ≤ (i2c_read t env HAL_OK d address length stop).ret ∧
            (i2c_read t env HAL_OK d address length stop).ret ≤ (length : Int)) ∧
        (length < 2 ^ 31 →
          (i2c_read_poll t env d address length stop).dev.obj.XferCount = 0 →
          (i2c_read t env HAL_OK d address length stop).ret = (length : Int))) ∧
    ((i2c_write_poll t env d address length stop).dev.obj.event = I2C_EVENT_TRANSFER_COMPLETE →
      (i2c_write t env HAL_OK d address length stop).ret =
          toInt32 (sub32 length (i2c_write_poll t env d address length stop).dev.obj.XferCount) ∧
        (i2c_write t env HAL_OK d address length stop).dev =
          i2c_ev_err_disable (i2c_write_poll t env d address length stop).dev ∧
        (length < 2 ^ 31 →
          (i2c_write_poll t env d address length stop).dev.obj.XferCount ≤ length →
          (i2c_write t env HAL_OK d address length stop).ret =
              (length : Int) - ((i2c_write_poll t env d address length stop).dev.obj.XferCount : Int) ∧
            0 ≤ (i2c_write t env HAL_OK d address length stop).ret ∧
            (i2c_write t env HAL_OK d address length stop).ret ≤ (length : Int)) ∧
        (length < 2 ^ 31 →
          (i2c_write_poll t env d address length stop).dev.obj.XferCount = 0 →
          (i2c_write t env HAL_OK d address length stop).ret = (length : Int))) := by
  constructor
  · intro he
    have hb1 : master_timeout (i2c_read_request t HAL_OK d address length stop).obj length ≠ 0 := by
      rw [i2c_read_request_budget]; exact hb
    have hc := master_poll_counter env _ length hb1 he
    have hf := master_finish_complete t (i2c_read_poll t env d address length stop) length hc he
    rw [i2c_read_master t env d address length stop hm, hf]
    refine ⟨rfl, rfl, ?_, ?_⟩
    · intro h1 h2
      have h3 := toInt32_count length _ h1 h2
      dsimp only
      rw [h3]
      omega
    · intro h1 h2
      have h3 := toInt32_count length 0 h1 (Nat.zero_le _)
      dsimp only
      rw [h2, h3]
      simp
  · intro he
    have hb1 : master_timeout (i2c_write_request t HAL_OK d address length stop).obj length ≠ 0 := by
      rw [i2c_write_request_budget]; exact hb
    have hc := master_poll_counter env _ length hb1 he
    have hf := master_finish_complete t (i2c_write_poll t env d address length stop) length hc he
    rw [i2c_write_master t env d address length stop hm, hf]
    refine ⟨rfl, rfl, ?_, ?_⟩
    · intro h1 h2
      have h3 := toInt32_count length _ h1 h2
      dsimp only
      rw [h3]
      omega
    · intro h1 h2
      have h3 := toInt32_count length 0 h1 (Nat.zero_le _)
      dsimp only
      rw [h2, h3]
      simp

/-- Witness of `sync_complete_returns_count`: a fresh master with the default
budget, a 4-byte read completed with residual 1 returns 3. -/
theorem sync_complete_returns_count_witness :
    (dev_init stm32v2).obj.slave ≠ 1 ∧
      master_timeout (dev_init stm32v2).obj 4 ≠ 0 ∧
      (i2c_read_poll stm32v2 (env_post I2C_EVENT_TRANSFER_COMPLETE 1) (dev_init stm32v2) 80 4
          true).dev.obj.event = I2C_EVENT_TRANSFER_COMPLETE ∧
      (i2c_read stm32v2 (env_post I2C_EVENT_TRANSFER_COMPLETE 1) HAL_OK (dev_init stm32v2) 80 4
          true).ret =
        toInt32 (sub32 4 (i2c_read_poll stm32v2 (env_post I2C_EVENT_TRANSFER_COMPLETE 1)
          (dev_init stm32v2) 80 4 true).dev.obj.XferCount) :=
  ⟨by decide, by decide, by decide,
    ((sync_complete_returns_count stm32v2 (env_post I2C_EVENT_TRANSFER_COMPLETE 1)
      (dev_init stm32v2) 80 4 true (by decide) (by decide)).1 (by decide)).1⟩

/-- C4. Timeout or any event other than TRANSFER_COMPLETE.  For a master
whose request was accepted: if polling stops with the counter at zero or
with an event mask other than exactly TRANSFER_COMPLETE, `i2c_read` and
`i2c_write` return `I2C_ERROR_TIMEOUT` (-3), and the device is the one
`i2c_init` produces: frame option FIRST_AND_LAST, event mask 0, both slave
pending flags 0, timeout `UINT32_MAX` (so the next budget is the default
one). -/
theorem sync_failure_reinit (t : Target) (env : Nat → Dev → Dev) (d : Dev)
    (address length : Nat) (stop : Bool) (hm : d.obj.slave ≠ 1) :
    (((i2c_read_poll t env d address length stop).timeout = 0 ∨
        (i2c_read_poll t env d address length stop).dev.obj.event ≠
          I2C_EVENT_TRANSFER_COMPLETE) →
      (i2c_read t env HAL_OK d address length stop).ret = I2C_ERROR_TIMEOUT ∧
      (i2c_read t env HAL_OK d address length stop).dev =
        i2c_init t (i2c_ev_err_disable (i2c_read_poll t env d address length stop).dev)
          (i2c_read_poll t env d address length stop).dev.obj.sda
          (i2c_read_poll t env d address length stop).dev.obj.scl
          ((i2c_read_poll t env d address length stop).dev.obj.slave != 0) ∧
      (i2c_read t env HAL_OK d address length stop).dev.obj.XferOperation =
        t.I2C_FIRST_AND_LAST_FRAME ∧
      (i2c_read t env HAL_OK d address length stop).dev.obj.event = 0 ∧
      (i2c_read t env HAL_OK d address length stop).dev.obj.pending_slave_tx_master_rx = 0 ∧
      (i2c_read t env HAL_OK d address length stop).dev.obj.pending_slave_rx_maxter_tx = 0 ∧
      (i2c_read t env HAL_OK d address length stop).dev.obj.timeout = UINT32_MAX) ∧
    (((i2c_write_poll t env d address length stop).timeout = 0 ∨
        (i2c_write_poll t env d address length stop).dev.obj.event ≠
          I2C_EVENT_TRANSFER_COMPLETE) →
      (i2c_write t env HAL_OK d address length stop).ret = I2C_ERROR_TIMEOUT ∧
      (i2c_write t env HAL_OK d address length stop).dev =
        i2c_init t (i2c_ev_err_disable (i2c_write_poll t env d address length stop).dev)
          (i2c_write_poll t env d address length stop).dev.obj.sda
          (i2c_write_poll t env d address length stop).dev.obj.scl
          ((i2c_write_poll t env d address length stop).dev.obj.slave != 0) ∧
      (i2c_write t env HAL_OK d address length stop).dev.obj.XferOperation =
        t.I2C_FIRST_AND_LAST_FRAME ∧
      (i2c_write t env HAL_OK d address length stop).dev.obj.event = 0 ∧
      (i2c_write t env HAL_OK d address length stop).dev.obj.pending_slave_tx_master_rx = 0 ∧
      (i2c_write t env HAL_OK d address length stop).dev.obj.pending_slave_rx_maxter_tx = 0 ∧
      (i2c_write t env HAL_OK d address length stop).dev.obj.timeout = UINT32_MAX) := by
  constructor
  · intro h
    rw [i2c_read_master t env d address length stop hm, master_finish_failure t _ length h]
    have hi := i2c_init_obj t (i2c_ev_err_disable (i2c_read_poll t env d address length stop).dev)
      (i2c_read_poll t env d address length stop).dev.obj.sda
      (i2c_read_poll t env d address length stop).dev.obj.scl
      ((i2c_read_poll t env d address length stop).dev.obj.slave != 0)
    exact ⟨rfl, rfl, hi.1, hi.2.1, hi.2.2.1, hi.2.2.2.1, hi.2.2.2.2.2.1⟩
  · intro h
    rw [i2c_write_master t env d address length stop hm, master_finish_failure t _ length h]
    have hi := i2c_init_obj t (i2c_ev_err_disable (i2c_write_poll t env d address length stop).dev)
      (i2c_write_poll t env d address length stop).dev.obj.sda
      (i2c_write_poll t env d address length stop).dev.obj.scl
      ((i2c_write_poll t env d address length stop).dev.obj.slave != 0)
    exact ⟨rfl, rfl, hi.1, hi.2.1, hi.2.2.1, hi.2.2.2.1, hi.2.2.2.2.2.1⟩

/-- Witness of `sync_failure_reinit`: timeout 5 and no interrupt, so the
counter runs out; the explicit timeout is gone afterwards. -/
theorem sync_failure_reinit_witness :
    (i2c_timeout (dev_init stm32v2) 5).obj.slave ≠ 1 ∧
      (i2c_read_poll stm32v2 env_idle (i2c_timeout (dev_init stm32v2) 5) 80 4 false).timeout = 0 ∧
      (i2c_read stm32v2 env_idle HAL_OK (i2c_timeout (dev_init stm32v2) 5) 80 4 false).ret =
        I2C_ERROR_TIMEOUT ∧
      (i2c_read stm32v2 env_idle HAL_OK (i2c_timeout (dev_init stm32v2) 5) 80 4
        false).dev.obj.timeout = UINT32_MAX :=
  ⟨by decide, by decide,
    ((sync_failure_reinit stm32v2 env_idle (i2c_timeout (dev_init stm32v2) 5) 80 4 false
      (by decide)).1 (Or.inl (by decide))).1,
    ((sync_failure_reinit stm32v2 env_idle (i2c_timeout (dev_init stm32v2) 5) 80 4 false
      (by decide)).1 (Or.inl (by decide))).2.2.2.2.2.2⟩

/-- C5, as stated, fails.  A master that has completed a transfer (frame
option FIRST_AND_LAST, event mask TRANSFER_COMPLETE, interrupts disabled)
issues a read without stop that the HAL rejects.  The call returns -2, but
the object is not what it was: the frame option is FIRST, the event mask 0,
the interrupts are enabled.  The rejected attempt carried FIRST; the retry
carries NEXT. -/
theorem sync_rejected_counterexample :
    (dev_done stm32v2).obj.XferOperation = stm32v2.I2C_FIRST_AND_LAST_FRAME ∧
    (dev_done stm32v2).obj.event = I2C_EVENT_TRANSFER_COMPLETE ∧
    (dev_done stm32v2).hw.irq_enabled = false ∧
    (i2c_read stm32v2 env_idle HAL_BUSY (dev_done stm32v2) 80 4 false).ret = I2C_ERROR_BUS_BUSY ∧
    (i2c_read stm32v2 env_idle HAL_BUSY (dev_done stm32v2) 80 4 false).dev ≠ dev_done stm32v2 ∧
    (i2c_read stm32v2 env_idle HAL_BUSY (dev_done stm32v2) 80 4 false).dev.obj.XferOperation =
      stm32v2.I2C_FIRST_FRAME ∧
    (i2c_read stm32v2 env_idle HAL_BUSY (dev_done stm32v2) 80 4 false).dev.obj.event = 0 ∧
    (i2c_read stm32v2 env_idle HAL_BUSY (dev_done stm32v2) 80 4 false).dev.hw.irq_enabled = true ∧
    (i2c_read_request stm32v2 HAL_BUSY (dev_done stm32v2) 80 4 false).obj.XferOperation =
      stm32v2.I2C_FIRST_FRAME ∧
    (i2c_read_request stm32v2 HAL_OK
        (i2c_read stm32v2 env_idle HAL_BUSY (dev_done stm32v2) 80 4 false).dev 80 4
        false).obj.XferOperation = stm32v2.I2C_NEXT_FRAME ∧
    stm32v2.I2C_NEXT_FRAME ≠ stm32v2.I2C_FIRST_FRAME := by
  decide

/-- C5, amended.  If the HAL rejects the request of a master, `i2c_read`
and `i2c_write` return `I2C_ERROR_BUS_BUSY` (-2) at once, without polling
and without reinitialisation: timeout and frequency are as before, and the
only call made is the rejected request.  The object has nevertheless
changed: its frame option is the one the sequencer computed for the rejected
attempt, its event mask is 0 and the interrupts are enabled. -/
theorem sync_rejected_state (t : Target) (env : Nat → Dev → Dev) (status : HAL_StatusTypeDef)
    (d : Dev) (address length : Nat) (stop : Bool) (hm : d.obj.slave ≠ 1)
    (hs : status ≠ HAL_OK) :
    ((i2c_read t env status d address length stop).ret = I2C_ERROR_BUS_BUSY ∧
      (i2c_read t env status d address length stop).waits = 0 ∧
      (i2c_read t env status d address length stop).dev.obj =
        { d.obj with
          XferOperation := next_XferOperation t d.obj.XferOperation stop, event := 0 } ∧
      (i2c_read t env status d address length stop).dev.hw =
        { d.hw with
          irq_prio := if d.obj.slave ≠ 0 then 1 else 2
          irq_enabled := true
          calls := HalCall.MasterReceive address length
            (next_XferOperation t d.obj.XferOperation stop) status :: d.hw.calls } ∧
      (i2c_read t env status d address length stop).dev.obj.timeout = d.obj.timeout ∧
      (i2c_read t env status d address length stop).dev.obj.hz = d.obj.hz) ∧
    ((i2c_write t env status d address length stop).ret = I2C_ERROR_BUS_BUSY ∧
      (i2c_write t env status d address length stop).waits = 0 ∧
      (i2c_write t env status d address length stop).dev.obj =
        { d.obj with
          XferOperation := next_XferOperation t d.obj.XferOperation stop, event := 0 } ∧
      (i2c_write t env status d address length stop).dev.hw =
        { d.hw with
          irq_prio := if d.obj.slave ≠ 0 then 1 else 2
          irq_enabled := true
          calls := HalCall.MasterTransmit address length
            (next_XferOperation t d.obj.XferOperation stop) status :: d.hw.calls } ∧
      (i2c_write t env status d address length stop).dev.obj.timeout = d.obj.timeout ∧
      (i2c_write t env status d address length stop).dev.obj.hz = d.obj.hz) := by
  constructor
  · unfold i2c_read
    simp [hm, hs, i2c_read_request, i2c_ev_err_enable, Dev.call]
  · unfold i2c_write
    simp [hm, hs, i2c_write_request, i2c_ev_err_enable, Dev.call]

/-- Witness of `sync_rejected_state`: the rejected read of the
counterexample. -/
theorem sync_rejected_state_witness :
    (dev_done stm32v2).obj.slave ≠ 1 ∧ HAL_BUSY ≠ HAL_OK ∧
      (i2c_read stm32v2 env_idle HAL_BUSY (dev_done stm32v2) 80 4 false).ret =
        I2C_ERROR_BUS_BUSY ∧
      (i2c_read stm32v2 env_idle HAL_BUSY (dev_done stm32v2) 80 4 false).waits = 0 :=
  ⟨by decide, by decide,
    (sync_rejected_state stm32v2 env_idle HAL_BUSY (dev_done stm32v2) 80 4 false (by decide)
      (by decide)).1.1,
    (sync_rejected_state stm32v2 env_idle HAL_BUSY (dev_done stm32v2) 80 4 false (by decide)
      (by decide)).1.2.1⟩

/-! ## Timeout budget -/

theorem master_timeout_default (o : i2c_t) (n : Nat) (h : o.timeout = UINT32_MAX) :
    master_timeout o n = ((n + 1) * (30000000 / o.hz)) % 2 ^ 32 := by
  unfold master_timeout BYTE_TIMEOUT_US
  rw [if_neg (by simpa using h), ← Nat.mul_mod, Nat.mul_comm]

theorem i2c_timeout_obj (d : Dev) (tmo : Nat) :
    (i2c_timeout d tmo).obj.timeout = (if tmo = 2 ^ 32 - 1 then 2 ^ 32 - 2 else tmo) ∧
      (i2c_timeout d tmo).obj.hz = d.obj.hz := by
  unfold i2c_timeout UINT32_MAX
  by_cases h : tmo = 2 ^ 32 - 1 <;> simp [h]

/-- C6. Timeout budget of the blocking master transfers.  For every length
`n` and stored frequency `hz > 0`: while the timeout is the initial value
`UINT32_MAX` (which `i2c_init` stores) the budget is
`(n + 1) * (30000000 / hz)` modulo `2 ^ 32`, the per-byte value being 300 at
100 kHz, 75 at 400 kHz and 30 at 1 MHz; after `i2c_timeout(t)` the
stored value is `t`, except that `2 ^ 32 - 1` is stored as
`2 ^ 32 - 2`, it never equals the initial value, and the budget is that
stored value whatever the length and the frequency.  The budget is what the
polling loop of `i2c_read` and `i2c_write` starts from. -/
theorem timeout_budget (t : Target) (env : Nat → Dev → Dev) (d : Dev)
    (n tmo sda scl address : Nat) (is_slave stop : Bool)
    (_hhz : 0 < d.obj.hz) :
    (d.obj.timeout = UINT32_MAX →
      master_timeout d.obj n = ((n + 1) * (30000000 / d.obj.hz)) % 2 ^ 32) ∧
    (i2c_init t d sda scl is_slave).obj.timeout = UINT32_MAX ∧
    (d.obj.hz = 100000 → BYTE_TIMEOUT_US d.obj = 300) ∧
    (d.obj.hz = 400000 → BYTE_TIMEOUT_US d.obj = 75) ∧
    (d.obj.hz = 1000000 → BYTE_TIMEOUT_US d.obj = 30) ∧
    (i2c_timeout d tmo).obj.timeout = (if tmo = 2 ^ 32 - 1 then 2 ^ 32 - 2 else tmo) ∧
    (i2c_timeout d tmo).obj.timeout ≠ UINT32_MAX ∧
    master_timeout (i2c_timeout d tmo).obj n = (if tmo = 2 ^ 32 - 1 then 2 ^ 32 - 2 else tmo) ∧
    i2c_read_poll t env d address n stop =
      wait_while no_event env (i2c_read_request t HAL_OK d address n stop)
        (master_timeout d.obj n) 0 0 ∧
    i2c_write_poll t env d address n stop =
      wait_while no_event env (i2c_write_request t HAL_OK d address n stop)
        (master_timeout d.obj n) 0 0 := by
  have h1 := (i2c_timeout_obj d tmo).1
  have h2 : (i2c_timeout d tmo).obj.timeout ≠ UINT32_MAX := by
    rw [h1]; unfold UINT32_MAX
    by_cases h : tmo = 2 ^ 32 - 1
    · rw [if_pos h]; decide
    · rw [if_neg h]; exact h
  refine ⟨master_timeout_default d.obj n, (i2c_init_obj t d sda scl is_slave).2.2.2.2.2.1,
    ?_, ?_, ?_, h1, h2, ?_, ?_, ?_⟩
  · intro h; unfold BYTE_TIMEOUT_US; rw [h]
  · intro h; unfold BYTE_TIMEOUT_US; rw [h]
  · intro h; unfold BYTE_TIMEOUT_US; rw [h]
  · unfold master_timeout; rw [if_pos h2, h1]
  · unfold i2c_read_poll master_poll; rw [i2c_read_request_budget]
  · unfold i2c_write_poll master_poll; rw [i2c_write_request_budget]

/-- Witness of `timeout_budget`: a fresh master at 100 kHz, 4 bytes: the
default budget is 1500; after `i2c_timeout(2 ^ 32 - 1)` it is `2 ^ 32 - 2`. -/
theorem timeout_budget_witness :
    0 < (dev_init stm32v2).obj.hz ∧
      (dev_init stm32v2).obj.timeout = UINT32_MAX ∧
      master_timeout (dev_init stm32v2).obj 4 =
        ((4 + 1) * (30000000 / (dev_init stm32v2).obj.hz)) % 2 ^ 32 ∧
      master_timeout (dev_init stm32v2).obj 4 = 1500 ∧
      master_timeout (i2c_timeout (dev_init stm32v2) 4294967295).obj 4 =
        (if 4294967295 = 2 ^ 32 - 1 then 2 ^ 32 - 2 else 4294967295) :=
  ⟨by decide, by decide,
    (timeout_budget stm32v2 env_idle (dev_init stm32v2) 4 4294967295 0 1 80 false true
      (by decide)).1 (by decide),
    by decide,
    (timeout_budget stm32v2 env_idle (dev_init stm32v2) 4 4294967295 0 1 80 false true
      (by decide)).2.2.2.2.2.2.2.1⟩

/-! ## Polling without any event -/

theorem i2c_read_request_no_event (t : Target) (status : HAL_StatusTypeDef) (d : Dev)
    (address length : Nat) (stop : Bool) :
    no_event (i2c_read_request t status d address length stop).obj = true := by
  simp [i2c_read_request, i2c_ev_err_enable, Dev.call, no_event]

theorem i2c_write_request_no_event (t : Target) (status : HAL_StatusTypeDef) (d : Dev)
    (address length : Nat) (stop : Bool) :
    no_event (i2c_write_request t status d address length stop).obj = true := by
  simp [i2c_write_request, i2c_ev_err_enable, Dev.call, no_event]

/-- A master poll during which no event bit is ever posted ends with the
counter at zero after `dec32 budget` waits. -/
theorem master_poll_never (env : Nat → Dev → Dev) (d1 : Dev) (length : Nat)
    (henv : ∀ k d, no_event d.obj = true → no_event (env k d).obj = true)
    (h1 : no_event d1.obj = true) :
    (master_poll env d1 length).timeout = 0 ∧
      (master_poll env d1 length).waits = dec32 (master_timeout d1.obj length) := by
  have h := wait_while_never no_event env (fun d => no_event d.obj = true) henv
    (fun _ hd => hd) _ d1 (master_timeout d1.obj length) 0 0 rfl h1
  refine ⟨h.1, ?_⟩
  have h2 := h.2.1
  unfold master_poll
  omega

/-- C7, as stated, fails.  A fresh master at 100 kHz reads 0 bytes and no
interrupt ever fires.  The budget is `(0 + 1) * 300 = 300`; the call returns
-3 after 299 calls of the wait, fewer than the budget. -/
theorem sync_wait_units_counterexample :
    master_timeout (dev_init stm32v2).obj 0 = (0 + 1) * 300 ∧
    (i2c_read stm32v2 env_idle HAL_OK (dev_init stm32v2) 80 0 true).ret = I2C_ERROR_TIMEOUT ∧
    (i2c_read stm32v2 env_idle HAL_OK (dev_init stm32v2) 80 0 true).waits = 299 ∧
    ¬ ((0 + 1) * 300 ≤ (i2c_read stm32v2 env_idle HAL_OK (dev_init stm32v2) 80 0 true).waits) := by
  have hp := master_poll_never env_idle (i2c_read_request stm32v2 HAL_OK (dev_init stm32v2) 80 0
    true) 0 (fun _ _ h => h) (i2c_read_request_no_event stm32v2 HAL_OK (dev_init stm32v2) 80 0 true)
  have hb : master_timeout (i2c_read_request stm32v2 HAL_OK (dev_init stm32v2) 80 0 true).obj 0 =
      300 := by decide
  have hd : dec32 300 = 299 := by decide
  rw [hb, hd] at hp
  have hr := i2c_read_master stm32v2 env_idle (dev_init stm32v2) 80 0 true (by decide)
  unfold i2c_read_poll at hr
  have hf := master_finish_failure stm32v2 (master_poll env_idle
    (i2c_read_request stm32v2 HAL_OK (dev_init stm32v2) 80 0 true) 0) 0 (Or.inl hp.1)
  have hret : (i2c_read stm32v2 env_idle HAL_OK (dev_init stm32v2) 80 0 true).ret =
      I2C_ERROR_TIMEOUT := by simp only [hr, hf]
  have hwaits : (i2c_read stm32v2 env_idle HAL_OK (dev_init stm32v2) 80 0 true).waits = 299 := by
    simp only [hr, hf]; exact hp.2
  refine ⟨by decide, hret, hwaits, ?_⟩
  simp only [hwaits]; decide

/-- C7, amended.  If no event bit is ever posted, a blocking master read or
write whose request was accepted returns `I2C_ERROR_TIMEOUT` after
`dec32 B` calls of the wait, `B` being its budget (by default
`(n + 1) * (30000000 / hz)` modulo `2 ^ 32`).  For `B >= 1` that is exactly
`B - 1` calls, one fewer than the budget and never more. -/
theorem sync_wait_units (t : Target) (env : Nat → Dev → Dev) (d : Dev)
    (address n : Nat) (stop : Bool) (hm : d.obj.slave ≠ 1)
    (ht : d.obj.timeout < 2 ^ 32)
    (henv : ∀ k d, no_event d.obj = true → no_event (env k d).obj = true) :
    (d.obj.timeout = UINT32_MAX →
      master_timeout d.obj n = ((n + 1) * (30000000 / d.obj.hz)) % 2 ^ 32) ∧
    ((i2c_read t env HAL_OK d address n stop).ret = I2C_ERROR_TIMEOUT ∧
      (i2c_read t env HAL_OK d address n stop).waits = dec32 (master_timeout d.obj n) ∧
      (0 < master_timeout d.obj n →
        (i2c_read t env HAL_OK d address n stop).waits + 1 = master_timeout d.obj n)) ∧
    ((i2c_write t env HAL_OK d address n stop).ret = I2C_ERROR_TIMEOUT ∧
      (i2c_write t env HAL_OK d address n stop).waits = dec32 (master_timeout d.obj n) ∧
      (0 < master_timeout d.obj n →
        (i2c_write t env HAL_OK d address n stop).waits + 1 = master_timeout d.obj n)) := by
  have hB : master_timeout d.obj n < 2 ^ 32 := by
    unfold master_timeout
    by_cases h : d.obj.timeout ≠ UINT32_MAX
    · rw [if_pos h]; exact ht
    · rw [if_neg h]; exact Nat.mod_lt _ (by decide)
  refine ⟨master_timeout_default d.obj n, ?_, ?_⟩
  · have hp := master_poll_never env (i2c_read_request t HAL_OK d address n stop) n henv
      (i2c_read_request_no_event t HAL_OK d address n stop)
    rw [i2c_read_request_budget] at hp
    have hf := master_finish_failure t (i2c_read_poll t env d address n stop) n (Or.inl hp.1)
    rw [i2c_read_master t env d address n stop hm, hf]
    refine ⟨rfl, hp.2, ?_⟩
    intro h0
    show (i2c_read_poll t env d address n stop).waits + 1 = _
    have h3 : (i2c_read_poll t env d address n stop).waits = dec32 (master_timeout d.obj n) := hp.2
    rw [h3, dec32_pos _ h0 hB]; omega
  · have hp := master_poll_never env (i2c_write_request t HAL_OK d address n stop) n henv
      (i2c_write_request_no_event t HAL_OK d address n stop)
    rw [i2c_write_request_budget] at hp
    have hf := master_finish_failure t (i2c_write_poll t env d address n stop) n (Or.inl hp.1)
    rw [i2c_write_master t env d address n stop hm, hf]
    refine ⟨rfl, hp.2, ?_⟩
    intro h0
    show (i2c_write_poll t env d address n stop).waits + 1 = _
    have h3 : (i2c_write_poll t env d address n stop).waits = dec32 (master_timeout d.obj n) :=
      hp.2
    rw [h3, dec32_pos _ h0 hB]; omega

/-- Witness of `sync_wait_units`: a fresh master at 100 kHz, 4 bytes, no
interrupt. -/
theorem sync_wait_units_witness :
    (dev_init stm32v2).obj.slave ≠ 1 ∧ (dev_init stm32v2).obj.timeout < 2 ^ 32 ∧
      (∀ k d, no_event d.obj = true → no_event (env_idle k d).obj = true) ∧
      0 < master_timeout (dev_init stm32v2).obj 4 ∧
      (i2c_read stm32v2 env_idle HAL_OK (dev_init stm32v2) 80 4 true).ret = I2C_ERROR_TIMEOUT ∧
      (i2c_read stm32v2 env_idle HAL_OK (dev_init stm32v2) 80 4 true).waits + 1 =
        master_timeout (dev_init stm32v2).obj 4 :=
  ⟨by decide, by decide, fun _ _ h => h, by decide,
    (sync_wait_units stm32v2 env_idle (dev_init stm32v2) 80 4 true (by decide) (by decide)
      (fun _ _ h => h)).2.1.1,
    (sync_wait_units stm32v2 env_idle (dev_init stm32v2) 80 4 true (by decide) (by decide)
      (fun _ _ h => h)).2.1.2.2 (by decide)⟩

/-! ## Frequency selection -/

theorem abs32_le (x : Nat) : abs32 x ≤ 2 ^ 31 := by
  unfold abs32
  by_cases h : x % 2 ^ 32 < 2 ^ 31
  · rw [if_pos h]; omega
  · rw [if_neg h]; omega

theorem frequency_scan_step_keeps (frequency hz_i sel : Nat) :
    frequency_scan_step frequency (sel, UINT32_MAX) hz_i = (sel, UINT32_MAX) := by
  unfold frequency_scan_step
  have h := abs32_le (sub32 hz_i frequency)
  have h2 : abs32 (sub32 hz_i frequency) < UINT32_MAX := by
    unfold UINT32_MAX; omega
  simp only [if_pos h2]

/-- The scan never replaces the requested frequency: every distance is at
most `2 ^ 31`, below the initial `minimum_delta`, so every round takes the
`continue`. -/
theorem frequency_scan_keeps (frequency : Nat) :
    frequency_scan frequency = (frequency, UINT32_MAX) := by
  unfold frequency_scan supported_hz
  simp only [List.foldl, frequency_scan_step_keeps]

theorem selected_frequency_eq (t : Target) (frequency : Nat) :
    selected_frequency t frequency = frequency := by
  unfold selected_frequency
  by_cases h : t.I2C_IP_VERSION_V2 = true
  · rw [if_pos h, frequency_scan_keeps]
  · rw [if_neg h]

/-- C8. Frequency selection on the V2 IP, evaluated.  For the requests
250000 and 700000 `i2c_frequency` returns and stores the request itself,
which is not in the supported set, and programs the timing of the request;
the nearest members, 400000 and 1000000, are not selected. -/
theorem frequency_not_nearest :
    (i2c_frequency stm32v2 (dev_init stm32v2) 250000).2 = 250000 ∧
    (i2c_frequency stm32v2 (dev_init stm32v2) 250000).1.obj.hz = 250000 ∧
    (i2c_frequency stm32v2 (dev_init stm32v2) 250000).1.hw.Init.Timing =
      stm32v2.get_i2c_timing 250000 ∧
    (i2c_frequency stm32v2 (dev_init stm32v2) 250000).2 ∉ supported_hz ∧
    (i2c_frequency stm32v2 (dev_init stm32v2) 250000).2 ≠ 400000 ∧
    (i2c_frequency stm32v2 (dev_init stm32v2) 700000).2 = 700000 ∧
    (i2c_frequency stm32v2 (dev_init stm32v2) 700000).2 ∉ supported_hz ∧
    (i2c_frequency stm32v2 (dev_init stm32v2) 700000).2 ≠ 1000000 := by
  decide

/-! ## Frequency calls and bus ownership -/

theorem i2c_frequency_twice (t : Target) (d : Dev) (frequency : Nat) :
    (i2c_frequency t (i2c_frequency t d frequency).1 frequency).2 =
        (i2c_frequency t d frequency).2 ∧
      (i2c_frequency t (i2c_frequency t d frequency).1 frequency).1.obj =
        (i2c_frequency t d frequency).1.obj ∧
      (i2c_frequency t (i2c_frequency t d frequency).1 frequency).1.hw.Init =
        (i2c_frequency t d frequency).1.hw.Init := by
  unfold i2c_frequency
  by_cases h : t.I2C_IP_VERSION_V2 = true
  · by_cases h2 : selected_frequency t frequency = 1000000 <;>
      simp [h, h2, HAL_I2C_Init, Dev.call]
  · simp [h, HAL_I2C_Init, Dev.call]

theorem i2c_frequency_obj (t : Target) (d : Dev) (frequency : Nat) :
    (i2c_frequency t d frequency).2 = selected_frequency t frequency ∧
    (i2c_frequency t d frequency).1.obj.hz = selected_frequency t frequency ∧
    (i2c_frequency t d frequency).1.hw.Init = (i2c_frequency t d frequency).1.obj.Init ∧
    (i2c_frequency t d frequency).1.obj.Init.Timing =
      (if t.I2C_IP_VERSION_V2 then t.get_i2c_timing (selected_frequency t frequency)
        else d.obj.Init.Timing) ∧
    (i2c_frequency t d frequency).1.obj.Init.ClockSpeed =
      (if t.I2C_IP_VERSION_V2 then d.obj.Init.ClockSpeed else selected_frequency t frequency) ∧
    (∃ pre, (i2c_frequency t d frequency).1.hw.calls =
      HalCall.Init (i2c_frequency t d frequency).1.hw.Init :: pre ++ d.hw.calls) := by
  unfold i2c_frequency
  by_cases h : t.I2C_IP_VERSION_V2 = true
  · by_cases h2 : selected_frequency t frequency = 1000000
    · simp [h, h2, HAL_I2C_Init, Dev.call]
      exact ⟨[HalCall.EnableFastModePlus], rfl⟩
    · simp [h, h2, HAL_I2C_Init, Dev.call]
  · simp [h, HAL_I2C_Init, Dev.call]



theorem I2C_frequency_some (t : Target) (b : Bus) (this : Nat) (hz : Int)
    (h : 0 < (b.objs this)._hz) :
    I2C.frequency t b this hz =
      some
        { _owner := some this
          objs := Function.update b.objs this
            { b.objs this with
              _hz := (hz % 2 ^ 32).toNat
              _i2c := (i2c_frequency t (b.dev this) (hz % 2 ^ 32).toNat).1.obj }
          hw := (i2c_frequency t (b.dev this) (hz % 2 ^ 32).toNat).1.hw } := by
  unfold I2C.frequency
  simp [h, Bus.store, Bus.dev]

/-- C9, as stated, fails at `hz = 0`.  On a fresh object the first
`frequency(0)` is carried out and leaves `_hz = 0`; the second one fails the
assertion `_hz > 0`, so it has no result at all. -/
theorem frequency_twice_counterexample :
    ((bus_fresh stm32v2).objs 1)._hz = 100000 ∧
    (I2C.frequency stm32v2 (bus_fresh stm32v2) 1 0).isSome = true ∧
    ((I2C.frequency stm32v2 (bus_fresh stm32v2) 1 0).bind
      (fun b1 => I2C.frequency stm32v2 b1 1 0)).isSome = false := by
  decide

/-- C9, amended.  For every positive `hz` (an `int` below `2 ^ 31`), on an
object that passes the assertion of `frequency`: two calls of
`frequency(hz)` in a row both succeed; the peripheral configuration
programmed by the second equals that of the first, and so do the stored
frequency of the HAL object, the member `_hz`, every object of the bus and
the owner.  At the HAL, `i2c_frequency` called twice with one argument
returns the same value and leaves the same object and configuration. -/
theorem frequency_idempotent (t : Target) (b : Bus) (this : Nat) (hz : Int) (d : Dev)
    (frequency : Nat) (hpos : 0 < hz) (hint : hz < 2 ^ 31) (hassert : 0 < (b.objs this)._hz) :
    ((i2c_frequency t (i2c_frequency t d frequency).1 frequency).2 =
        (i2c_frequency t d frequency).2 ∧
      (i2c_frequency t (i2c_frequency t d frequency).1 frequency).1.obj =
        (i2c_frequency t d frequency).1.obj ∧
      (i2c_frequency t (i2c_frequency t d frequency).1 frequency).1.hw.Init =
        (i2c_frequency t d frequency).1.hw.Init) ∧
    ∃ b1 b2, I2C.frequency t b this hz = some b1 ∧ I2C.frequency t b1 this hz = some b2 ∧
      b2.hw.Init = b1.hw.Init ∧
      (b2.objs this)._i2c.hz = (b1.objs this)._i2c.hz ∧
      (b2.objs this)._hz = (b1.objs this)._hz ∧
      (b1.objs this)._hz = hz.toNat ∧
      b2.objs = b1.objs ∧
      b2._owner = b1._owner := by
  refine ⟨i2c_frequency_twice t d frequency, ?_⟩
  have h1 := I2C_frequency_some t b this hz hassert
  have hz32 : (hz % 2 ^ 32).toNat = hz.toNat := by omega
  rw [hz32] at h1
  refine ⟨_, _, h1, I2C_frequency_some t _ this hz ?_, ?_⟩
  · simp only [Function.update_same]; omega
  · have ht := i2c_frequency_twice t (b.dev this) hz.toNat
    simp only [Function.update_same, Bus.dev, hz32, Function.update_idem]
    refine ⟨ht.2.2, congrArg i2c_t.hz ht.2.1, trivial, trivial, ?_, trivial⟩
    exact congrArg (fun x => Function.update b.objs this
      { b.objs this with _hz := hz.toNat, _i2c := x }) ht.2.1

/-- Witness of `frequency_idempotent`: 400 kHz on a fresh object. -/
theorem frequency_idempotent_witness :
    (0 : Int) < 400000 ∧ (400000 : Int) < 2 ^ 31 ∧ 0 < ((bus_fresh stm32v2).objs 1)._hz ∧
      (i2c_frequency stm32v2 (i2c_frequency stm32v2 (dev_init stm32v2) 400000).1 400000).2 =
        (i2c_frequency stm32v2 (dev_init stm32v2) 400000).2 :=
  ⟨by decide, by decide, by decide,
    (frequency_idempotent stm32v2 (bus_fresh stm32v2) 1 400000 (dev_init stm32v2) 400000
      (by decide) (by decide) (by decide)).1.1⟩

theorem I2C_aquire_other (t : Target) (b : Bus) (this : Nat) (h : b._owner ≠ some this) :
    I2C.aquire t b this =
      { _owner := some this
        objs := Function.update b.objs this
          { b.objs this with
            _i2c := (i2c_frequency t (b.dev this) (b.objs this)._hz).1.obj }
        hw := (i2c_frequency t (b.dev this) (b.objs this)._hz).1.hw } := by
  unfold I2C.aquire
  simp [h, Bus.store]

/-- C10. `I2C::aquire`.  If the owner is not the calling object,
`i2c_frequency` is run on its HAL object with its member `_hz`: the
configuration of that frequency is programmed into the peripheral (the
newest call is that `HAL_I2C_Init`), the HAL object stores the selected
frequency, `_hz` and every other object are untouched, and the owner becomes
the calling object.  If the owner is the calling object, the bus is
unchanged: nothing is programmed.  In both cases the owner is the calling
object afterwards. -/
theorem aquire_owner (t : Target) (b : Bus) (this : Nat) :
    (b._owner ≠ some this →
      I2C.aquire t b this =
        { _owner := some this
          objs := Function.update b.objs this
            { b.objs this with
              _i2c := (i2c_frequency t (b.dev this) (b.objs this)._hz).1.obj }
          hw := (i2c_frequency t (b.dev this) (b.objs this)._hz).1.hw } ∧
      (I2C.aquire t b this).hw.Init.Timing =
        (if t.I2C_IP_VERSION_V2 then
          t.get_i2c_timing (selected_frequency t (b.objs this)._hz)
        else (b.objs this)._i2c.Init.Timing) ∧
      (I2C.aquire t b this).hw.Init.ClockSpeed =
        (if t.I2C_IP_VERSION_V2 then (b.objs this)._i2c.Init.ClockSpeed
        else selected_frequency t (b.objs this)._hz) ∧
      (∃ pre, (I2C.aquire t b this).hw.calls =
        HalCall.Init (I2C.aquire t b this).hw.Init :: pre ++ b.hw.calls) ∧
      ((I2C.aquire t b this).objs this)._i2c.hz = selected_frequency t (b.objs this)._hz ∧
      ((I2C.aquire t b this).objs this)._hz = (b.objs this)._hz ∧
      (∀ other, other ≠ this → (I2C.aquire t b this).objs other = b.objs other)) ∧
    (b._owner = some this → I2C.aquire t b this = b) ∧
    (I2C.aquire t b this)._owner = some this := by
  refine ⟨?_, ?_, ?_⟩
  · intro h
    have ha := I2C_aquire_other t b this h
    have hf := i2c_frequency_obj t (b.dev this) (b.objs this)._hz
    rw [ha]
    refine ⟨rfl, ?_, ?_, hf.2.2.2.2.2, ?_, ?_, ?_⟩
    · show (i2c_frequency t (b.dev this) (b.objs this)._hz).1.hw.Init.Timing = _
      rw [hf.2.2.1, hf.2.2.2.1]; rfl
    · show (i2c_frequency t (b.dev this) (b.objs this)._hz).1.hw.Init.ClockSpeed = _
      rw [hf.2.2.1, hf.2.2.2.2.1]; rfl
    · simp only [Function.update_same]
      exact hf.2.1
    · simp only [Function.update_same]
    · intro other ho
      simp only [Function.update_noteq ho]
  · intro h
    unfold I2C.aquire
    simp [h]
  · unfold I2C.aquire
    by_cases h : b._owner = some this <;> simp [h]

/-- Witness of `aquire_owner`: on a bus owned by object 1, object 2 acquires
and becomes the owner; object 1 acquires and nothing changes. -/
theorem aquire_owner_witness :
    (bus_fresh stm32v2)._owner ≠ some 2 ∧ (bus_fresh stm32v2)._owner = some 1 ∧
      ((I2C.aquire stm32v2 (bus_fresh stm32v2) 2).objs 2)._i2c.hz =
        selected_frequency stm32v2 ((bus_fresh stm32v2).objs 2)._hz ∧
      I2C.aquire stm32v2 (bus_fresh stm32v2) 1 = bus_fresh stm32v2 ∧
      (I2C.aquire stm32v2 (bus_fresh stm32v2) 2)._owner = some 2 :=
  ⟨by decide, by decide,
    ((aquire_owner stm32v2 (bus_fresh stm32v2) 2).1 (by decide)).2.2.2.2.1,
    (aquire_owner stm32v2 (bus_fresh stm32v2) 1).2.1 (by decide),
    (aquire_owner stm32v2 (bus_fresh stm32v2) 2).2.2⟩

/-! ## Asynchronous transfer of the driver: acceptance -/

/-- C12. `I2C::transfer` while a transfer is ongoing on the object: the
result is -1 (not zero) and the bus is returned as it was, so no request has
reached the HAL and nothing of the object has changed: ongoing flag,
deep-sleep flag and its lock count, stored callback, owner, frame option,
buffer descriptors, stored handler and the log of HAL calls. -/
theorem transfer_rejected_when_ongoing (t : Target) (status : HAL_StatusTypeDef) (b : Bus)
    (this : Nat) (address tx_length rx_length : Int) (callback : Option Nat) (repeated : Bool)
    (h : (b.objs this)._async_transfer_ongoing = true) :
    (I2C.transfer t status b this address tx_length rx_length callback repeated).2 = -1 ∧
    (I2C.transfer t status b this address tx_length rx_length callback repeated).2 ≠ 0 ∧
    (I2C.transfer t status b this address tx_length rx_length callback repeated).1 = b ∧
    (I2C.transfer t status b this address tx_length rx_length callback repeated).1.hw.calls =
      b.hw.calls ∧
    (I2C.transfer t status b this address tx_length rx_length callback repeated).1._owner =
      b._owner ∧
    ((I2C.transfer t status b this address tx_length rx_length callback repeated).1.objs
      this)._async_transfer_ongoing = true ∧
    ((I2C.transfer t status b this address tx_length rx_length callback repeated).1.objs
      this)._deep_sleep_locked = (b.objs this)._deep_sleep_locked ∧
    ((I2C.transfer t status b this address tx_length rx_length callback repeated).1.objs
      this).sleep_locks = (b.objs this).sleep_locks ∧
    ((I2C.transfer t status b this address tx_length rx_length callback repeated).1.objs
      this)._callback = (b.objs this)._callback ∧
    ((I2C.transfer t status b this address tx_length rx_length callback repeated).1.objs
      this)._i2c = (b.objs this)._i2c := by
  have hb : I2C.transfer t status b this address tx_length rx_length callback repeated =
      (b, -1) := by
    unfold I2C.transfer; rw [if_pos h]
  rw [hb]
  exact ⟨rfl, by simp, rfl, rfl, rfl, h, rfl, rfl, rfl, rfl⟩

/-- Witness of `transfer_rejected_when_ongoing`: a second transfer on the
object whose first one is outstanding. -/
theorem transfer_rejected_when_ongoing_witness :
    ((bus_ongoing stm32v2).objs 1)._async_transfer_ongoing = true ∧
      (I2C.transfer stm32v2 HAL_OK (bus_ongoing stm32v2) 1 80 0 3 (some 9) true).2 = -1 ∧
      (I2C.transfer stm32v2 HAL_OK (bus_ongoing stm32v2) 1 80 0 3 (some 9) true).1 =
        bus_ongoing stm32v2 :=
  ⟨by decide,
    (transfer_rejected_when_ongoing stm32v2 HAL_OK (bus_ongoing stm32v2) 1 80 0 3 (some 9) true
      (by decide)).1,
    (transfer_rejected_when_ongoing stm32v2 HAL_OK (bus_ongoing stm32v2) 1 80 0 3 (some 9) true
      (by decide)).2.2.1⟩

theorem i2c_transfer_async_true (t : Target) (status : HAL_StatusTypeDef) (d : Dev)
    (tx_length rx_length address : Nat) (stop : Bool) (handler ctx : Option Nat)
    (h : (i2c_transfer_async t status d tx_length rx_length address stop handler ctx).2 = true) :
    status = HAL_OK ∧ (tx_length ≠ 0 ∨ rx_length ≠ 0) := by
  unfold i2c_transfer_async at h
  by_cases h1 : tx_length = 0 <;> by_cases h2 : rx_length = 0
  · simp [h1, h2] at h
  · have : rx_length > 0 := Nat.pos_of_ne_zero h2
    simp [h1, h2, this] at h
    exact ⟨h, Or.inr h2⟩
  · have : tx_length > 0 := Nat.pos_of_ne_zero h1
    simp [h1, h2, this] at h
    exact ⟨h, Or.inl h1⟩
  · simp only [h1, h2, ne_eq, not_false_eq_true, not_true_eq_false, and_false, false_and, or_self,
      if_false, and_self, if_true] at h
    split at h
    · simp at h; exact ⟨h, Or.inl h1⟩
    · split at h
      · simp at h; exact ⟨h, Or.inl h1⟩
      · simp at h

theorem I2C_transfer_armed_obj (t : Target) (b : Bus) (this : Nat) (callback : Option Nat) :
    ((I2C.transfer_armed t b this callback).objs this)._async_transfer_ongoing = true ∧
    ((I2C.transfer_armed t b this callback).objs this)._callback = callback ∧
    ((I2C.transfer_armed t b this callback).objs this)._deep_sleep_locked = true ∧
    (I2C.transfer_armed t b this callback)._owner = some this := by
  unfold I2C.transfer_armed I2C.aquire I2C.lock_deep_sleep Bus.store
  by_cases h : b._owner = some this <;> by_cases h2 : (b.objs this)._deep_sleep_locked = true <;>
    simp [h, h2]

theorem I2C_transfer_idle (t : Target) (status : HAL_StatusTypeDef) (b : Bus)
    (this : Nat) (address tx_length rx_length : Int) (callback : Option Nat) (repeated : Bool)
    (h : (b.objs this)._async_transfer_ongoing = false) :
    I2C.transfer t status b this address tx_length rx_length callback repeated =
      ((I2C.transfer_armed t b this callback).store this
        (I2C.transfer_request t status b this address tx_length rx_length callback repeated).1,
        0) := by
  unfold I2C.transfer; simp [h]

theorem Bus_store_obj (b : Bus) (this : Nat) (d : Dev) :
    ((b.store this d).objs this)._async_transfer_ongoing =
        (b.objs this)._async_transfer_ongoing ∧
    ((b.store this d).objs this)._deep_sleep_locked = (b.objs this)._deep_sleep_locked ∧
    ((b.store this d).objs this)._callback = (b.objs this)._callback ∧
    ((b.store this d).objs this)._hz = (b.objs this)._hz ∧
    ((b.store this d).objs this).sleep_locks = (b.objs this).sleep_locks ∧
    ((b.store this d).objs this).sleep_unlocks = (b.objs this).sleep_unlocks ∧
    ((b.store this d).objs this)._i2c = d.obj ∧
    (b.store this d).hw = d.hw ∧
    (b.store this d)._owner = b._owner := by
  unfold Bus.store; simp

/-- C13, as stated, fails.  On an idle object the HAL rejects the request of
a two-byte write: `i2c_transfer_async` returns `false`, yet `I2C::transfer`
returns 0, and the object is left marked as ongoing with deep sleep locked.
The same holds when both lengths are 0 and no request is made at all. -/
theorem transfer_result_counterexample :
    ((bus_fresh stm32v2).objs 1)._async_transfer_ongoing = false ∧
    (I2C.transfer_request stm32v2 HAL_BUSY (bus_fresh stm32v2) 1 80 2 0 (some 7) false).2 =
      false ∧
    (I2C.transfer stm32v2 HAL_BUSY (bus_fresh stm32v2) 1 80 2 0 (some 7) false).2 = 0 ∧
    ((I2C.transfer stm32v2 HAL_BUSY (bus_fresh stm32v2) 1 80 2 0 (some 7) false).1.objs
      1)._async_transfer_ongoing = true ∧
    ((I2C.transfer stm32v2 HAL_BUSY (bus_fresh stm32v2) 1 80 2 0 (some 7) false).1.objs
      1)._deep_sleep_locked = true ∧
    (I2C.transfer_request stm32v2 HAL_OK (bus_fresh stm32v2) 1 80 0 0 (some 7) false).2 =
      false ∧
    (I2C.transfer_request stm32v2 HAL_OK (bus_fresh stm32v2) 1 80 0 0 (some 7) false).1.hw.calls =
      (bus_fresh stm32v2).hw.calls ∧
    (I2C.transfer stm32v2 HAL_OK (bus_fresh stm32v2) 1 80 0 0 (some 7) false).2 = 0 := by
  decide

/-- C13, amended.  On an idle object `I2C::transfer` returns 0 whatever the
HAL answered: the `bool` of `i2c_transfer_async`, which is `true` only for a
request that was made and accepted, is not used.  Afterwards the object is
marked as ongoing, deep sleep is locked, the callback is stored and the
object owns the bus.  The only failure reported is -1, for an object with a
transfer ongoing. -/
theorem transfer_result (t : Target) (status : HAL_StatusTypeDef) (b : Bus)
    (this : Nat) (address tx_length rx_length : Int) (callback : Option Nat) (repeated : Bool) :
    ((b.objs this)._async_transfer_ongoing = false →
      (I2C.transfer t status b this address tx_length rx_length callback repeated).2 = 0 ∧
      ((I2C.transfer_request t status b this address tx_length rx_length callback repeated).2 =
          true →
        status = HAL_OK ∧ (uint32 tx_length ≠ 0 ∨ uint32 rx_length ≠ 0)) ∧
      ((I2C.transfer t status b this address tx_length rx_length callback repeated).1.objs
        this)._async_transfer_ongoing = true ∧
      ((I2C.transfer t status b this address tx_length rx_length callback repeated).1.objs
        this)._deep_sleep_locked = true ∧
      ((I2C.transfer t status b this address tx_length rx_length callback repeated).1.objs
        this)._callback = callback ∧
      (I2C.transfer t status b this address tx_length rx_length callback repeated).1._owner =
        some this) ∧
    ((b.objs this)._async_transfer_ongoing = true →
      (I2C.transfer t status b this address tx_length rx_length callback repeated).2 = -1) := by
  constructor
  · intro h
    have ha := I2C_transfer_armed_obj t b this callback
    have hs := Bus_store_obj (I2C.transfer_armed t b this callback) this
      (I2C.transfer_request t status b this address tx_length rx_length callback repeated).1
    rw [I2C_transfer_idle t status b this address tx_length rx_length callback repeated h]
    refine ⟨rfl, ?_, ?_, ?_, ?_, ?_⟩
    · intro hr
      exact i2c_transfer_async_true t status _ _ _ _ _ _ _ hr
    · exact hs.1.trans ha.1
    · exact hs.2.1.trans ha.2.2.1
    · exact hs.2.2.1.trans ha.2.1
    · exact hs.2.2.2.2.2.2.2.2.trans ha.2.2.2
  · intro h
    unfold I2C.transfer; rw [if_pos h]

/-- Witness of `transfer_result`: the rejected request of the
counterexample, and a second call on the object it leaves. -/
theorem transfer_result_witness :
    ((bus_fresh stm32v2).objs 1)._async_transfer_ongoing = false ∧
      ((bus_ongoing stm32v2).objs 1)._async_transfer_ongoing = true ∧
      (I2C.transfer stm32v2 HAL_BUSY (bus_fresh stm32v2) 1 80 2 0 (some 7) false).2 = 0 ∧
      (I2C.transfer stm32v2 HAL_OK (bus_ongoing stm32v2) 1 80 2 0 (some 7) false).2 = -1 :=
  ⟨by decide, by decide,
    ((transfer_result stm32v2 HAL_BUSY (bus_fresh stm32v2) 1 80 2 0 (some 7) false).1
      (by decide)).1,
    (transfer_result stm32v2 HAL_OK (bus_ongoing stm32v2) 1 80 2 0 (some 7) false).2
      (by decide)⟩

/-! ## Asynchronous completion and error events -/

theorem sub32_exact (a b : Nat) (h1 : a < 2 ^ 32) (h2 : b ≤ a) : sub32 a b = a - b := by
  unfold sub32; omega

/-- C16.  A transmit-complete interrupt with no receive pending hands the
stored handler the event {sent_bytes = tx_len - residual, received_bytes = 0,
error = false}; a receive-complete interrupt hands it {sent_bytes = tx_len,
received_bytes = rx_len - residual, error = false}.  The subtraction is the
32-bit unsigned one and is exact for a residual that does not exceed the
length.  In both cases the event mask of the object becomes
TRANSFER_COMPLETE and the handler reference is cleared. -/
theorem async_complete_event (t : Target) (status : HAL_StatusTypeDef) (d : Dev) (h : Nat)
    (hh : d.obj.handler = some h)
    (htx : d.obj.tx_buff.length < 2 ^ 32) (hrx : d.obj.rx_buff.length < 2 ^ 32) :
    (¬ (d.obj.tx_buff.length ≠ 0 ∧ d.obj.rx_buff.length ≠ 0) →
      (HAL_I2C_MasterTxCpltCallback t status d).2 =
          some ⟨h, d.obj.ctx,
            ⟨sub32 d.obj.tx_buff.length d.obj.XferCount, 0, none, false⟩⟩ ∧
        (d.obj.XferCount ≤ d.obj.tx_buff.length →
          (HAL_I2C_MasterTxCpltCallback t status d).2 =
            some ⟨h, d.obj.ctx, ⟨d.obj.tx_buff.length - d.obj.XferCount, 0, none, false⟩⟩) ∧
        (HAL_I2C_MasterTxCpltCallback t status d).1.obj.event = I2C_EVENT_TRANSFER_COMPLETE ∧
        (HAL_I2C_MasterTxCpltCallback t status d).1.obj.handler = none) ∧
    ((HAL_I2C_MasterRxCpltCallback d).2 =
        some ⟨h, d.obj.ctx,
          ⟨d.obj.tx_buff.length, sub32 d.obj.rx_buff.length d.obj.XferCount, none, false⟩⟩ ∧
      (d.obj.XferCount ≤ d.obj.rx_buff.length →
        (HAL_I2C_MasterRxCpltCallback d).2 =
          some ⟨h, d.obj.ctx,
            ⟨d.obj.tx_buff.length, d.obj.rx_buff.length - d.obj.XferCount, none, false⟩⟩) ∧
      (HAL_I2C_MasterRxCpltCallback d).1.obj.event = I2C_EVENT_TRANSFER_COMPLETE ∧
      (HAL_I2C_MasterRxCpltCallback d).1.obj.handler = none) := by
  constructor
  · intro hp
    have e : (HAL_I2C_MasterTxCpltCallback t status d).2 =
        some ⟨h, d.obj.ctx,
          ⟨sub32 d.obj.tx_buff.length d.obj.XferCount, 0, none, false⟩⟩ := by
      unfold HAL_I2C_MasterTxCpltCallback
      simp only [hp, if_false, hh]
    refine ⟨e, ?_, ?_, ?_⟩
    · intro hc
      rw [e, sub32_exact _ _ htx hc]
    · unfold HAL_I2C_MasterTxCpltCallback
      simp only [hp, if_false, hh]
    · unfold HAL_I2C_MasterTxCpltCallback
      simp only [hp, if_false, hh]
  · have e : (HAL_I2C_MasterRxCpltCallback d).2 =
        some ⟨h, d.obj.ctx,
          ⟨d.obj.tx_buff.length, sub32 d.obj.rx_buff.length d.obj.XferCount, none, false⟩⟩ := by
      unfold HAL_I2C_MasterRxCpltCallback
      simp only [hh, Nat.mod_eq_of_lt htx]
    refine ⟨e, ?_, ?_, ?_⟩
    · intro hc
      rw [e, sub32_exact _ _ hrx hc]
    · unfold HAL_I2C_MasterRxCpltCallback
      simp only [hh]
    · unfold HAL_I2C_MasterRxCpltCallback
      simp only [hh]

/-- Witness of `async_complete_event`: a write of two bytes completed with
residual 0 reports 2 bytes sent. -/
theorem async_complete_event_witness :
    (HAL_I2C_MasterTxCpltCallback stm32v2 HAL_OK
        (i2c_transfer_async stm32v2 HAL_OK (dev_init stm32v2) 2 0 80 true (some 1) (some 1)).1).2 =
      some ⟨1, some 1, ⟨2, 0, none, false⟩⟩ :=
  ((async_complete_event stm32v2 HAL_OK
    (i2c_transfer_async stm32v2 HAL_OK (dev_init stm32v2) 2 0 80 true (some 1) (some 1)).1 1
    (by decide) (by decide) (by decide)).1 (by decide)).1

/-- C17 does not hold for a fault in the receive phase.  A two-phase
transfer of 2 bytes out and 4 bytes in has its transmit phase completed
(`tx_complete = 1`) when the error interrupt arrives with residual 3.
`HAL_I2C_ErrorCallback` runs `i2c_init` first, which sets `tx_complete` back
to 0, so the branch for the receive phase is never taken: the event carries
sent_bytes = 2 - 3 in 32-bit unsigned arithmetic and received_bytes = 0, not
sent_bytes = 2 and received_bytes = 1.  `HAL_I2C_AbortCpltCallback`, which has
the same text without the reinitialisation, reports 2 and 1. -/
theorem error_event_receive_phase :
    (dev_receiving stm32v2).obj.tx_complete = 1 ∧
    (dev_receiving stm32v2).obj.tx_buff.length = 2 ∧
    (dev_receiving stm32v2).obj.rx_buff.length = 4 ∧
    ((Irq.Error 0 3).deliver stm32v2 (dev_receiving stm32v2)).2 =
      some ⟨irq_handler_asynch_ptr, some 1, ⟨4294967295, 0, none, true⟩⟩ ∧
    ((Irq.Error 0 3).deliver stm32v2 (dev_receiving stm32v2)).2 ≠
      some ⟨irq_handler_asynch_ptr, some 1, ⟨2, 1, none, true⟩⟩ ∧
    ((Irq.AbortCplt 3).deliver stm32v2 (dev_receiving stm32v2)).2 =
      some ⟨irq_handler_asynch_ptr, some 1, ⟨2, 1, none, true⟩⟩ := by
  decide

/-! ## Slave status -/

/-- C20, as stated, fails.  A slave that has been addressed for a write and
then for a read has both pending flags set, and `i2c_slave_status` returns
ReadAddressed. -/
theorem slave_status_both_counterexample :
    (HAL_I2C_AddrCallback
        (HAL_I2C_AddrCallback (dev_slave stm32v2) TransferDirection.I2C_DIRECTION_TRANSMIT)
        TransferDirection.I2C_DIRECTION_RECEIVE).obj.pending_slave_tx_master_rx = 1 ∧
    (HAL_I2C_AddrCallback
        (HAL_I2C_AddrCallback (dev_slave stm32v2) TransferDirection.I2C_DIRECTION_TRANSMIT)
        TransferDirection.I2C_DIRECTION_RECEIVE).obj.pending_slave_rx_maxter_tx = 1 ∧
    i2c_slave_status
        (HAL_I2C_AddrCallback
          (HAL_I2C_AddrCallback (dev_slave stm32v2) TransferDirection.I2C_DIRECTION_TRANSMIT)
          TransferDirection.I2C_DIRECTION_RECEIVE) = i2c_slave_status_t.ReadAddressed ∧
    i2c_slave_status
        (HAL_I2C_AddrCallback
          (HAL_I2C_AddrCallback (dev_slave stm32v2) TransferDirection.I2C_DIRECTION_TRANSMIT)
          TransferDirection.I2C_DIRECTION_RECEIVE) ≠ i2c_slave_status_t.WriteAddressed := by
  decide

/-- C20, amended.  Whenever both slave pending flags are set,
`i2c_slave_status` returns ReadAddressed: the flag of a master that reads
from the slave is tested last and overrides.  WriteAddressed is what it
returns once the transmit-complete callback has cleared that flag, and in
general exactly when only the flag of a master that writes to the slave is
set. -/
theorem slave_status_both (d : Dev)
    (h1 : d.obj.pending_slave_tx_master_rx ≠ 0) (h2 : d.obj.pending_slave_rx_maxter_tx ≠ 0) :
    i2c_slave_status d = i2c_slave_status_t.ReadAddressed ∧
    i2c_slave_status (HAL_I2C_SlaveTxCpltCallback d) = i2c_slave_status_t.WriteAddressed ∧
    (∀ d2 : Dev, i2c_slave_status d2 = i2c_slave_status_t.WriteAddressed ↔
      d2.obj.pending_slave_rx_maxter_tx ≠ 0 ∧ d2.obj.pending_slave_tx_master_rx = 0) := by
  refine ⟨?_, ?_, ?_⟩
  · unfold i2c_slave_status
    simp [h1]
  · unfold i2c_slave_status HAL_I2C_SlaveTxCpltCallback
    simp [h2]
  · intro d2
    unfold i2c_slave_status
    by_cases a : d2.obj.pending_slave_rx_maxter_tx = 0 <;>
      by_cases c : d2.obj.pending_slave_tx_master_rx = 0 <;> simp [a, c]

/-- Witness of `slave_status_both`: the slave of the counterexample. -/
theorem slave_status_both_witness :
    i2c_slave_status
        (HAL_I2C_AddrCallback
          (HAL_I2C_AddrCallback (dev_slave stm32v2) TransferDirection.I2C_DIRECTION_TRANSMIT)
          TransferDirection.I2C_DIRECTION_RECEIVE) = i2c_slave_status_t.ReadAddressed :=
  (slave_status_both
    (HAL_I2C_AddrCallback
      (HAL_I2C_AddrCallback (dev_slave stm32v2) TransferDirection.I2C_DIRECTION_TRANSMIT)
      TransferDirection.I2C_DIRECTION_RECEIVE) (by decide) (by decide)).1

/-! ## Bus recovery -/

/-- C18.  `I2C::recover` returns BUS_BUSY (-2) when SCL reads low at first,
and 0 when SCL and SDA read high at first, and drives no line in either
case.  Otherwise it sends the clock pulses and the STOP, reads both lines
again, and returns BUS_BUSY if SCL or SDA reads low then and 0 if both read
high.  It returns no other value. -/
theorem recover_result (sda_read scl_read : Nat → Bool) :
    (scl_read 1 = false →
      (I2C.recover sda_read scl_read).1 = -2 ∧
      ∀ op ∈ (I2C.recover sda_read scl_read).2, op.drives = false) ∧
    (scl_read 1 = true → sda_read 1 = true →
      (I2C.recover sda_read scl_read).1 = 0 ∧
      ∀ op ∈ (I2C.recover sda_read scl_read).2, op.drives = false) ∧
    (scl_read 1 = true → sda_read 1 = false →
      (∃ pre post, (I2C.recover sda_read scl_read).2 =
        pre ++ clock_pulses 10 0 ++ stop_sequence ++ post ∧
        scl_pulses pre = 0 ∧ (∀ op ∈ post, op.drives = false) ∧
        PinOp.read Line.SCL (scl_read 2) ∈ post) ∧
      (scl_read 2 = false ∨ sda_read 2 = false → (I2C.recover sda_read scl_read).1 = -2) ∧
      (scl_read 2 = true → sda_read 2 = true → (I2C.recover sda_read scl_read).1 = 0)) ∧
    ((I2C.recover sda_read scl_read).1 = -2 ∨ (I2C.recover sda_read scl_read).1 = 0) ∧
    I2C_ERROR_BUS_BUSY = -2 := by
  refine ⟨?_, ?_, ?_, ?_, rfl⟩
  · intro h1
    simp [I2C.recover, h1, I2C_ERROR_BUS_BUSY, PinOp.drives]
  · intro h1 h2
    simp [I2C.recover, h1, h2, PinOp.drives]
  · intro h1 h2
    refine ⟨?_, ?_, ?_⟩
    · cases h3 : scl_read 2
      · refine ⟨[PinOp.init Line.SDA PinMode.PullNone 1, PinOp.init Line.SCL PinMode.PullNone 1,
            PinOp.read Line.SCL true, PinOp.read Line.SDA false,
            PinOp.mode Line.SCL PinMode.PullNone, PinOp.output Line.SCL],
          [PinOp.input Line.SDA, PinOp.input Line.SCL, PinOp.read Line.SCL false], ?_, ?_, ?_, ?_⟩
        · simp [I2C.recover, h1, h2, h3]
        · decide
        · decide
        · decide
      · cases h4 : sda_read 2
        · refine ⟨[PinOp.init Line.SDA PinMode.PullNone 1,
              PinOp.init Line.SCL PinMode.PullNone 1,
              PinOp.read Line.SCL true, PinOp.read Line.SDA false,
              PinOp.mode Line.SCL PinMode.PullNone, PinOp.output Line.SCL],
            [PinOp.input Line.SDA, PinOp.input Line.SCL, PinOp.read Line.SCL true,
              PinOp.read Line.SDA false], ?_, ?_, ?_, ?_⟩
          · simp [I2C.recover, h1, h2, h3, h4]
          · decide
          · decide
          · decide
        · refine ⟨[PinOp.init Line.SDA PinMode.PullNone 1,
              PinOp.init Line.SCL PinMode.PullNone 1,
              PinOp.read Line.SCL true, PinOp.read Line.SDA false,
              PinOp.mode Line.SCL PinMode.PullNone, PinOp.output Line.SCL],
            [PinOp.input Line.SDA, PinOp.input Line.SCL, PinOp.read Line.SCL true,
              PinOp.read Line.SDA true], ?_, ?_, ?_, ?_⟩
          · simp [I2C.recover, h1, h2, h3, h4]
          · decide
          · decide
          · decide
    · intro h
      cases h3 : scl_read 2
      · simp [I2C.recover, h1, h2, h3, I2C_ERROR_BUS_BUSY]
      · have h4 : sda_read 2 = false := by
          rcases h with h | h
          · rw [h3] at h; exact absurd h (by decide)
          · exact h
        simp [I2C.recover, h1, h2, h3, h4, I2C_ERROR_BUS_BUSY]
    · intro h3 h4
      simp [I2C.recover, h1, h2, h3, h4]
  · cases h1 : scl_read 1 <;> cases h2 : sda_read 1 <;> cases h3 : scl_read 2 <;>
      cases h4 : sda_read 2 <;> simp [I2C.recover, h1, h2, h3, h4, I2C_ERROR_BUS_BUSY]

/-- Witness of `recover_result`: a bus whose SCL is held low. -/
theorem recover_result_witness :
    (I2C.recover always_high (fun _ => false)).1 = -2 :=
  ((recover_result always_high (fun _ => false)).1 rfl).1

/-- C19, as stated, fails.  With SCL high on every read and SDA low on its
reads 1 to 9, `I2C::recover` sends 10 clock pulses and the STOP, but it reads
SDA only twice: once before the pulses and once after the STOP.  The second
read is low, and the result is BUS_BUSY (-2), not 0. -/
theorem recover_scenario_counterexample :
    scl_pulses (I2C.recover sda_high_from_10 always_high).2 = 10 ∧
    ((I2C.recover sda_high_from_10 always_high).2.filter (PinOp.reads Line.SDA)).length = 2 ∧
    (I2C.recover sda_high_from_10 always_high).1 = -2 ∧
    (I2C.recover sda_high_from_10 always_high).1 ≠ 0 := by
  decide

/-- C19, amended.  When SCL reads high and SDA reads low at first,
`I2C::recover` issues exactly 10 clock pulses on SCL and then the STOP
sequence, whatever the lines do meanwhile.  It reads SDA twice in all, so the
levels that a third or later read would return play no part, and it reports
success exactly when the second reads of SCL and of SDA are both high; with
SDA still low on its second read it returns BUS_BUSY (-2). -/
theorem recover_pulses (sda_read scl_read : Nat → Bool)
    (h1 : scl_read 1 = true) (h2 : sda_read 1 = false) :
    (∃ post, (I2C.recover sda_read scl_read).2 =
      [PinOp.init Line.SDA PinMode.PullNone 1, PinOp.init Line.SCL PinMode.PullNone 1,
        PinOp.read Line.SCL true, PinOp.read Line.SDA false,
        PinOp.mode Line.SCL PinMode.PullNone, PinOp.output Line.SCL] ++
      (List.replicate 10 clock_pulse).flatten ++ stop_sequence ++ post ∧
      scl_pulses post = 0) ∧
    scl_pulses (I2C.recover sda_read scl_read).2 = 10 ∧
    ((I2C.recover sda_read scl_read).2.filter (PinOp.reads Line.SDA)).length ≤ 2 ∧
    ((I2C.recover sda_read scl_read).1 = 0 ↔ scl_read 2 = true ∧ sda_read 2 = true) ∧
    (sda_read 2 = false → (I2C.recover sda_read scl_read).1 = -2) ∧
    (∀ sda_other : Nat → Bool, sda_other 1 = sda_read 1 → sda_other 2 = sda_read 2 →
      I2C.recover sda_other scl_read = I2C.recover sda_read scl_read) := by
  refine ⟨?_, ?_, ?_, ?_, ?_, ?_⟩
  · cases h3 : scl_read 2
    · exact ⟨[PinOp.input Line.SDA, PinOp.input Line.SCL, PinOp.read Line.SCL false],
        by simp [I2C.recover, h1, h2, h3]; decide, by decide⟩
    · cases h4 : sda_read 2
      · exact ⟨[PinOp.input Line.SDA, PinOp.input Line.SCL, PinOp.read Line.SCL true,
            PinOp.read Line.SDA false],
          by simp [I2C.recover, h1, h2, h3, h4]; decide, by decide⟩
      · exact ⟨[PinOp.input Line.SDA, PinOp.input Line.SCL, PinOp.read Line.SCL true,
            PinOp.read Line.SDA true],
          by simp [I2C.recover, h1, h2, h3, h4]; decide, by decide⟩
  · cases h3 : scl_read 2 <;> cases h4 : sda_read 2 <;>
      simp [I2C.recover, h1, h2, h3, h4] <;> decide
  · cases h3 : scl_read 2 <;> cases h4 : sda_read 2 <;>
      simp [I2C.recover, h1, h2, h3, h4] <;> decide
  · cases h3 : scl_read 2 <;> cases h4 : sda_read 2 <;>
      simp [I2C.recover, h1, h2, h3, h4, I2C_ERROR_BUS_BUSY]
  · intro h4
    cases h3 : scl_read 2 <;> simp [I2C.recover, h1, h2, h3, h4, I2C_ERROR_BUS_BUSY]
  · intro o e1 e2
    unfold I2C.recover
    rw [e1, e2]

/-- Witness of `recover_pulses`: the scenario of C19. -/
theorem recover_pulses_witness :
    scl_pulses (I2C.recover sda_high_from_10 always_high).2 = 10 ∧
    (I2C.recover sda_high_from_10 always_high).1 = -2 :=
  ⟨(recover_pulses sda_high_from_10 always_high rfl rfl).2.1,
    (recover_pulses sda_high_from_10 always_high rfl rfl).2.2.2.2.1 rfl⟩

/-! ## Delivery of interrupts to the stored handler -/

theorem i2c_frequency_async (t : Target) (d : Dev) (frequency : Nat) :
    (i2c_frequency t d frequency).1.obj.handler = d.obj.handler ∧
    (i2c_frequency t d frequency).1.obj.ctx = d.obj.ctx ∧
    (i2c_frequency t d frequency).1.obj.tx_buff = d.obj.tx_buff ∧
    (i2c_frequency t d frequency).1.obj.rx_buff = d.obj.rx_buff := by
  unfold i2c_frequency
  by_cases h : t.I2C_IP_VERSION_V2 = true
  · by_cases h2 : selected_frequency t frequency = 1000000 <;>
      simp [h, h2, HAL_I2C_Init, Dev.call]
  · simp [h, HAL_I2C_Init, Dev.call]

theorem i2c_init_async (t : Target) (d : Dev) (sda scl : Nat) (is_slave : Bool) :
    (i2c_init t d sda scl is_slave).obj.handler = d.obj.handler ∧
    (i2c_init t d sda scl is_slave).obj.ctx = d.obj.ctx ∧
    (i2c_init t d sda scl is_slave).obj.tx_buff = d.obj.tx_buff ∧
    (i2c_init t d sda scl is_slave).obj.rx_buff = d.obj.rx_buff := by
  unfold i2c_init
  have h := i2c_frequency_async t
  cases is_slave <;> by_cases hz : d.obj.hz = 0 <;>
    simp [HAL_I2C_EnableListen_IT, HAL_I2C_DisableListen_IT, h, hz, i2c_hw_reset, Dev.call]

theorem i2c_slave_address_async (d : Dev) (address : Nat) :
    (i2c_slave_address d address).obj.handler = d.obj.handler ∧
    (i2c_slave_address d address).obj.ctx = d.obj.ctx ∧
    (i2c_slave_address d address).obj.tx_buff = d.obj.tx_buff ∧
    (i2c_slave_address d address).obj.rx_buff = d.obj.rx_buff := by
  simp [i2c_slave_address, HAL_I2C_EnableListen_IT, i2c_ev_err_enable, HAL_I2C_Init]

theorem error_reinit_async (t : Target) (d : Dev) :
    (error_reinit t d).obj.handler = d.obj.handler ∧
    (error_reinit t d).obj.ctx = d.obj.ctx ∧
    (error_reinit t d).obj.tx_buff = d.obj.tx_buff ∧
    (error_reinit t d).obj.rx_buff = d.obj.rx_buff := by
  have hi := i2c_init_async t d d.obj.sda d.obj.scl (d.obj.slave != 0)
  simp only [error_reinit]
  split_ifs <;> exact hi

theorem HAL_I2C_ErrorCallback_eq (t : Target) (d : Dev) :
    HAL_I2C_ErrorCallback t d =
      match (error_reinit t d).obj.handler with
      | none => (error_reinit t d, none)
      | some h =>
        ({ error_reinit t d with
            obj := { (error_reinit t d).obj with handler := none, ctx := none } },
          some ⟨h, (error_reinit t d).obj.ctx,
            if (error_reinit t d).obj.tx_complete = 0 then
              ⟨sub32 (error_reinit t d).obj.tx_buff.length (error_reinit t d).obj.XferCount, 0,
                if (error_reinit t d).obj.ErrorCode &&& t.HAL_I2C_ERROR_ARLO ≠ 0 then
                  some I2C_ERROR_ARBITRATION_LOST
                else none, true⟩
            else
              ⟨(error_reinit t d).obj.tx_buff.length % 2 ^ 32,
                sub32 (error_reinit t d).obj.rx_buff.length (error_reinit t d).obj.XferCount,
                if (error_reinit t d).obj.ErrorCode &&& t.HAL_I2C_ERROR_ARLO ≠ 0 then
                  some I2C_ERROR_ARBITRATION_LOST
                else none, true⟩⟩) := rfl

/-- What `HAL_I2C_ErrorCallback` does with the stored handler. -/
theorem HAL_I2C_ErrorCallback_cases (t : Target) (d : Dev) :
    (d.obj.handler = none →
      (HAL_I2C_ErrorCallback t d).2 = none ∧ (HAL_I2C_ErrorCallback t d).1.obj.handler = none) ∧
    (∀ h, d.obj.handler = some h →
      (∃ event, (HAL_I2C_ErrorCallback t d).2 = some ⟨h, d.obj.ctx, event⟩) ∧
      (HAL_I2C_ErrorCallback t d).1.obj.handler = none) := by
  have hr := error_reinit_async t d
  rw [HAL_I2C_ErrorCallback_eq]
  constructor
  · intro hn
    have e : (error_reinit t d).obj.handler = none := hr.1.trans hn
    simp only [e]
    exact ⟨trivial, trivial⟩
  · intro h hh
    have e : (error_reinit t d).obj.handler = some h := hr.1.trans hh
    simp only [e, hr.2.1]
    exact ⟨⟨_, rfl⟩, trivial⟩

theorem Irq_deliver_none (t : Target) (irq : Irq) (d : Dev) (hn : d.obj.handler = none) :
    (irq.deliver t d).2 = none ∧ (irq.deliver t d).1.obj.handler = none := by
  cases irq with
  | MasterTxCplt count status =>
    unfold Irq.deliver HAL_I2C_MasterTxCpltCallback
    by_cases hp : d.obj.tx_buff.length ≠ 0 ∧ d.obj.rx_buff.length ≠ 0
    · simp [hp, hn, Dev.call]
    · simp [hp, hn]
  | MasterRxCplt count => simp [Irq.deliver, HAL_I2C_MasterRxCpltCallback, hn]
  | Error code count =>
    exact (HAL_I2C_ErrorCallback_cases t
      { d with obj := { d.obj with ErrorCode := code, XferCount := count } }).1 hn
  | AbortCplt count => simp [Irq.deliver, HAL_I2C_AbortCpltCallback, i2c_ev_err_disable, hn]

theorem Irq_deliver_pending (t : Target) (irq : Irq) (d : Dev)
    (ht : irq.terminal d.obj.tx_buff.length d.obj.rx_buff.length = false) :
    (irq.deliver t d).2 = none ∧
    (irq.deliver t d).1.obj.handler = d.obj.handler ∧
    (irq.deliver t d).1.obj.ctx = d.obj.ctx ∧
    (irq.deliver t d).1.obj.tx_buff = d.obj.tx_buff ∧
    (irq.deliver t d).1.obj.rx_buff = d.obj.rx_buff := by
  cases irq with
  | MasterTxCplt count status =>
    have hp : d.obj.tx_buff.length ≠ 0 ∧ d.obj.rx_buff.length ≠ 0 := by
      simpa [Irq.terminal] using ht
    unfold Irq.deliver HAL_I2C_MasterTxCpltCallback
    simp [hp, Dev.call]
  | MasterRxCplt count => simp [Irq.terminal] at ht
  | Error code count => simp [Irq.terminal] at ht
  | AbortCplt count => simp [Irq.terminal] at ht

theorem Irq_deliver_terminal (t : Target) (irq : Irq) (d : Dev) (h : Nat)
    (hh : d.obj.handler = some h)
    (ht : irq.terminal d.obj.tx_buff.length d.obj.rx_buff.length = true) :
    (∃ event, (irq.deliver t d).2 = some ⟨h, d.obj.ctx, event⟩) ∧
    (irq.deliver t d).1.obj.handler = none := by
  cases irq with
  | MasterTxCplt count status =>
    have hp : ¬ (d.obj.tx_buff.length ≠ 0 ∧ d.obj.rx_buff.length ≠ 0) := by
      intro hc
      simp [Irq.terminal, hc.1, hc.2] at ht
    unfold Irq.deliver HAL_I2C_MasterTxCpltCallback
    simp [hp, hh]
  | MasterRxCplt count => simp [Irq.deliver, HAL_I2C_MasterRxCpltCallback, hh]
  | Error code count =>
    exact (HAL_I2C_ErrorCallback_cases t
      { d with obj := { d.obj with ErrorCode := code, XferCount := count } }).2 h hh
  | AbortCplt count =>
    by_cases hc : d.obj.tx_complete = 0 <;>
      simp [Irq.deliver, HAL_I2C_AbortCpltCallback, i2c_ev_err_disable, hh, hc]

theorem Irq_deliver_all_none (t : Target) (irqs : List Irq) :
    ∀ d : Dev, d.obj.handler = none →
      (Irq.deliver_all t irqs d).2 = [] ∧ (Irq.deliver_all t irqs d).1.obj.handler = none := by
  induction irqs with
  | nil => intro d hn; exact ⟨rfl, hn⟩
  | cons irq rest ih =>
    intro d hn
    have h1 := Irq_deliver_none t irq d hn
    have h2 := ih (irq.deliver t d).1 h1.2
    simp only [Irq.deliver_all, h1.1, h2.1]
    exact ⟨rfl, h2.2⟩

theorem Irq_deliver_all_pending (t : Target) (tx rx : Nat) (pre : List Irq) :
    ∀ d : Dev, (∀ i ∈ pre, i.terminal tx rx = false) →
      d.obj.tx_buff.length = tx → d.obj.rx_buff.length = rx →
      (Irq.deliver_all t pre d).2 = [] ∧
      (Irq.deliver_all t pre d).1.obj.handler = d.obj.handler ∧
      (Irq.deliver_all t pre d).1.obj.ctx = d.obj.ctx ∧
      (Irq.deliver_all t pre d).1.obj.tx_buff.length = tx ∧
      (Irq.deliver_all t pre d).1.obj.rx_buff.length = rx := by
  induction pre with
  | nil => intro d _ h1 h2; exact ⟨rfl, rfl, rfl, h1, h2⟩
  | cons irq rest ih =>
    intro d hp h1 h2
    have ht : irq.terminal d.obj.tx_buff.length d.obj.rx_buff.length = false := by
      rw [h1, h2]; exact hp irq (List.mem_cons_self _ _)
    have hd := Irq_deliver_pending t irq d ht
    have hr := ih (irq.deliver t d).1 (fun i hi => hp i (List.mem_cons_of_mem _ hi))
      (by rw [hd.2.2.2.1]; exact h1) (by rw [hd.2.2.2.2]; exact h2)
    simp only [Irq.deliver_all, hd.1, hr.1]
    exact ⟨rfl, hr.2.1.trans hd.2.1, hr.2.2.1.trans hd.2.2.1, hr.2.2.2.1, hr.2.2.2.2⟩

theorem Irq_deliver_all_append (t : Target) (pre rest : List Irq) :
    ∀ d : Dev, Irq.deliver_all t (pre ++ rest) d =
      ((Irq.deliver_all t rest (Irq.deliver_all t pre d).1).1,
        (Irq.deliver_all t pre d).2 ++ (Irq.deliver_all t rest (Irq.deliver_all t pre d).1).2) := by
  induction pre with
  | nil => intro d; simp [Irq.deliver_all]
  | cons irq pre ih =>
    intro d
    have e : Irq.deliver_all t (pre.append rest) (irq.deliver t d).1 = _ :=
      ih (irq.deliver t d).1
    simp only [List.cons_append, Irq.deliver_all, List.append_assoc]
    rw [e]

theorem i2c_transfer_async_stored (t : Target) (status : HAL_StatusTypeDef) (d : Dev)
    (tx_length rx_length address : Nat) (stop : Bool) (handler ctx : Option Nat) :
    (i2c_transfer_async t status d tx_length rx_length address stop handler ctx).1.obj.handler =
      handler ∧
    (i2c_transfer_async t status d tx_length rx_length address stop handler ctx).1.obj.ctx =
      ctx ∧
    (i2c_transfer_async t status d tx_length rx_length address stop handler
      ctx).1.obj.tx_buff.length = tx_length ∧
    (i2c_transfer_async t status d tx_length rx_length address stop handler
      ctx).1.obj.rx_buff.length = rx_length := by
  unfold i2c_transfer_async
  simp only []
  split_ifs <;> simp [i2c_ev_err_enable, Dev.call]

/-- C14.  After an asynchronous request with handler `h` and context `ctx`,
let interrupts arrive in any order and number.  The transmit-complete
interrupts of a two-phase transfer that precede the first terminal interrupt
invoke nothing.  The first terminal interrupt (transmit-complete with no
receive pending, receive-complete, error or abort-complete) invokes `h` with
`ctx`, and the handler reference is cleared by it.  Every later interrupt
invokes nothing: over the whole sequence the handler is invoked exactly
once.  This holds whether or not the HAL accepted the request. -/
theorem handler_invoked_once (t : Target) (status : HAL_StatusTypeDef) (d0 : Dev)
    (tx_length rx_length address : Nat) (stop : Bool) (h : Nat) (ctx : Option Nat)
    (pre : List Irq) (irq : Irq) (rest : List Irq)
    (hpre : ∀ i ∈ pre, i.terminal tx_length rx_length = false)
    (hterm : irq.terminal tx_length rx_length = true) :
    ∃ event,
      (Irq.deliver_all t pre
        (i2c_transfer_async t status d0 tx_length rx_length address stop (some h) ctx).1).2 =
          [] ∧
      (irq.deliver t (Irq.deliver_all t pre
        (i2c_transfer_async t status d0 tx_length rx_length address stop (some h) ctx).1).1).2 =
          some ⟨h, ctx, event⟩ ∧
      (irq.deliver t (Irq.deliver_all t pre
        (i2c_transfer_async t status d0 tx_length rx_length address stop (some h)
          ctx).1).1).1.obj.handler = none ∧
      (Irq.deliver_all t rest (irq.deliver t (Irq.deliver_all t pre
        (i2c_transfer_async t status d0 tx_length rx_length address stop (some h)
          ctx).1).1).1).2 = [] ∧
      (Irq.deliver_all t (pre ++ irq :: rest)
        (i2c_transfer_async t status d0 tx_length rx_length address stop (some h) ctx).1).2 =
          [⟨h, ctx, event⟩] ∧
      (Irq.deliver_all t (pre ++ irq :: rest)
        (i2c_transfer_async t status d0 tx_length rx_length address stop (some h)
          ctx).1).1.obj.handler = none := by
  have hs := i2c_transfer_async_stored t status d0 tx_length rx_length address stop (some h) ctx
  have hp := Irq_deliver_all_pending t tx_length rx_length pre _ hpre hs.2.2.1 hs.2.2.2
  have ht := Irq_deliver_terminal t irq
    (Irq.deliver_all t pre
      (i2c_transfer_async t status d0 tx_length rx_length address stop (some h) ctx).1).1 h
    (hp.2.1.trans hs.1) (by rw [hp.2.2.2.1, hp.2.2.2.2]; exact hterm)
  obtain ⟨event, he⟩ := ht.1
  have hn := Irq_deliver_all_none t rest _ ht.2
  rw [hp.2.2.1, hs.2.1] at he
  refine ⟨event, hp.1, he, ht.2, hn.1, ?_, ?_⟩
  · rw [Irq_deliver_all_append]
    simp only [Irq.deliver_all, hp.1, he, hn.1]
    rfl
  · rw [Irq_deliver_all_append]
    exact hn.2

/-- Witness of `handler_invoked_once`: a transfer of 2 bytes out and 4 bytes
in; the transmit-complete interrupt chains the receive phase, the
receive-complete interrupt invokes the handler, and the error and
receive-complete interrupts that follow invoke nothing. -/
theorem handler_invoked_once_witness :
    (Irq.deliver_all stm32v2
      ([Irq.MasterTxCplt 0 HAL_OK] ++ Irq.MasterRxCplt 0 :: [Irq.Error 0 0, Irq.MasterRxCplt 0])
      (i2c_transfer_async stm32v2 HAL_OK (dev_init stm32v2) 2 4 80 true (some 1)
        (some 1)).1).2.length = 1 := by
  obtain ⟨event, _, _, _, _, e, _⟩ := handler_invoked_once stm32v2 HAL_OK (dev_init stm32v2)
    2 4 80 true 1 (some 1) [Irq.MasterTxCplt 0 HAL_OK] (Irq.MasterRxCplt 0)
    [Irq.Error 0 0, Irq.MasterRxCplt 0] (by decide) (by decide)
  rw [e]
  rfl

/-! ## Deep-sleep inhibitor -/

theorem unlock_released (s : I2C)
    (h : s.sleep_locks = s.sleep_unlocks + (if s._deep_sleep_locked then 1 else 0)) :
    (({ s with _async_transfer_ongoing := false } : I2C).unlock_deep_sleep)._deep_sleep_locked =
      false ∧
    (({ s with _async_transfer_ongoing := false } : I2C).unlock_deep_sleep)._async_transfer_ongoing =
      false ∧
    (({ s with _async_transfer_ongoing := false } : I2C).unlock_deep_sleep).sleep_locks =
      (({ s with _async_transfer_ongoing := false } : I2C).unlock_deep_sleep).sleep_unlocks ∧
    (({ s with _async_transfer_ongoing := false } : I2C).unlock_deep_sleep)._i2c = s._i2c ∧
    (({ s with _async_transfer_ongoing := false } : I2C).unlock_deep_sleep)._hz = s._hz := by
  unfold I2C.unlock_deep_sleep
  cases hl : s._deep_sleep_locked <;> simp [hl] at h ⊢ <;> omega

theorem released_async_inv (b : Bus) (this : Nat)
    (h1 : (b.objs this)._deep_sleep_locked = false)
    (h2 : (b.objs this)._async_transfer_ongoing = false)
    (h3 : (b.objs this).sleep_locks = (b.objs this).sleep_unlocks)
    (h4 : (b.objs this)._i2c.handler ≠ none → (b.objs this)._i2c.ctx = some this) :
    b.async_inv this := by
  refine ⟨h1.trans h2.symm, ?_, ?_, h4⟩
  · rw [h1, h3]; rfl
  · intro h; rw [h2] at h; exact absurd h (by decide)

theorem I2C_construct_obj (t : Target) (b b1 : Bus) (this sda scl : Nat)
    (h : I2C.construct t b this sda scl = some b1) :
    (b1.objs this)._deep_sleep_locked = false ∧
    (b1.objs this)._async_transfer_ongoing = false ∧
    (b1.objs this).sleep_locks = 0 ∧
    (b1.objs this).sleep_unlocks = 0 ∧
    (b1.objs this)._i2c.handler = none := by
  unfold I2C.construct I2C.frequency at h
  simp [Bus.store, Bus.dev] at h
  subst h
  simp [(i2c_frequency_async t _ _).1, (i2c_init_async t _ _ _ _).1, i2c_t.zero]

theorem I2C_transfer_armed_counts (t : Target) (b : Bus) (this : Nat) (callback : Option Nat) :
    ((I2C.transfer_armed t b this callback).objs this).sleep_locks =
      (b.objs this).sleep_locks + (if (b.objs this)._deep_sleep_locked then 0 else 1) ∧
    ((I2C.transfer_armed t b this callback).objs this).sleep_unlocks =
      (b.objs this).sleep_unlocks := by
  unfold I2C.transfer_armed I2C.aquire I2C.lock_deep_sleep Bus.store
  by_cases h : b._owner = some this <;> cases h2 : (b.objs this)._deep_sleep_locked <;>
    simp [h, h2]

theorem I2C_transfer_async_inv (t : Target) (status : HAL_StatusTypeDef) (b : Bus)
    (this : Nat) (address tx_length rx_length : Int) (callback : Option Nat) (repeated : Bool)
    (h : b.async_inv this) :
    (I2C.transfer t status b this address tx_length rx_length callback repeated).1.async_inv
      this := by
  cases ho : (b.objs this)._async_transfer_ongoing
  · rw [I2C_transfer_idle t status b this address tx_length rx_length callback repeated ho]
    have ha := I2C_transfer_armed_obj t b this callback
    have hc := I2C_transfer_armed_counts t b this callback
    have hs := Bus_store_obj (I2C.transfer_armed t b this callback) this
      (I2C.transfer_request t status b this address tx_length rx_length callback repeated).1
    have hr := i2c_transfer_async_stored t status
      ((I2C.transfer_armed t b this callback).dev this) (uint32 tx_length) (uint32 rx_length)
      (uint16 address) (!repeated) (some irq_handler_asynch_ptr) (some this)
    have hl : (b.objs this)._deep_sleep_locked = false := h.1.trans ho
    unfold Bus.async_inv
    simp only []
    rw [hs.1, hs.2.1, hs.2.2.2.2.1, hs.2.2.2.2.2.1, hs.2.2.2.2.2.2.1, ha.1, ha.2.2.1, hc.1,
      hc.2, hl]
    refine ⟨rfl, ?_, ?_, ?_⟩
    · have := h.2.1
      rw [hl] at this
      simpa using this
    · intro _
      unfold I2C.transfer_request
      rw [hr.1]; simp
    · intro _
      unfold I2C.transfer_request
      rw [hr.2.1]
  · unfold I2C.transfer
    simp only [ho, if_true]
    exact h

theorem I2C_abort_released (b : Bus) (this : Nat) (h : b.async_inv this) :
    ((I2C.abort_transfer b this).objs this)._deep_sleep_locked = false ∧
    ((I2C.abort_transfer b this).objs this)._async_transfer_ongoing = false ∧
    ((I2C.abort_transfer b this).objs this).sleep_locks =
      ((I2C.abort_transfer b this).objs this).sleep_unlocks ∧
    (I2C.abort_transfer b this).async_inv this := by
  have hu := unlock_released { b.objs this with _i2c := (i2c_abort_async (b.dev this)).obj }
    h.2.1
  have e : (I2C.abort_transfer b this).objs this =
      ({ ({ b.objs this with _i2c := (i2c_abort_async (b.dev this)).obj } : I2C) with
        _async_transfer_ongoing := false } : I2C).unlock_deep_sleep := by
    simp [I2C.abort_transfer, Bus.store]
  refine ⟨by rw [e]; exact hu.1, by rw [e]; exact hu.2.1, by rw [e]; exact hu.2.2.1, ?_⟩
  apply released_async_inv
  · rw [e]; exact hu.1
  · rw [e]; exact hu.2.1
  · rw [e]; exact hu.2.2.1
  · rw [e, hu.2.2.2.1]
    exact h.2.2.2

theorem I2C_interrupt_quiet (t : Target) (b : Bus) (this : Nat) (irq : Irq)
    (h : (irq.deliver t (b.dev this)).2 = none) :
    I2C.interrupt t b this irq = (b.store this (irq.deliver t (b.dev this)).1, none) := by
  unfold I2C.interrupt
  simp only [h]

theorem I2C_interrupt_handled (t : Target) (b : Bus) (this : Nat) (irq : Irq) (hd ctx : Nat)
    (event : i2c_async_event_t)
    (h : (irq.deliver t (b.dev this)).2 = some ⟨hd, some ctx, event⟩) :
    I2C.interrupt t b this irq =
      I2C.irq_handler_asynch (b.store this (irq.deliver t (b.dev this)).1) event ctx := by
  unfold I2C.interrupt
  simp only [h]

theorem I2C_interrupt_async_inv (t : Target) (b : Bus) (this : Nat) (irq : Irq)
    (h : b.async_inv this) :
    (I2C.interrupt t b this irq).1.async_inv this ∧
    (irq.terminal (b.objs this)._i2c.tx_buff.length (b.objs this)._i2c.rx_buff.length = true →
      (b.objs this)._async_transfer_ongoing = true →
      ((I2C.interrupt t b this irq).1.objs this)._deep_sleep_locked = false ∧
      ((I2C.interrupt t b this irq).1.objs this)._async_transfer_ongoing = false ∧
      ((I2C.interrupt t b this irq).1.objs this).sleep_locks =
        ((I2C.interrupt t b this irq).1.objs this).sleep_unlocks) := by
  have hs := Bus_store_obj b this (irq.deliver t (b.dev this)).1
  cases hh : (b.objs this)._i2c.handler with
  | none =>
    have hn := Irq_deliver_none t irq (b.dev this) hh
    rw [I2C_interrupt_quiet t b this irq hn.1]
    constructor
    · unfold Bus.async_inv
      simp only []
      rw [hs.1, hs.2.1, hs.2.2.2.2.1, hs.2.2.2.2.2.1, hs.2.2.2.2.2.2.1]
      refine ⟨h.1, h.2.1, ?_, ?_⟩
      · intro ho; exact absurd hh (h.2.2.1 ho)
      · intro hc; exact absurd hn.2 hc
    · intro _ ho
      exact absurd hh (h.2.2.1 ho)
  | some hd =>
    have hctx : (b.objs this)._i2c.ctx = some this := h.2.2.2 (by rw [hh]; simp)
    cases ht : irq.terminal (b.objs this)._i2c.tx_buff.length
        (b.objs this)._i2c.rx_buff.length with
    | false =>
      have hp := Irq_deliver_pending t irq (b.dev this) ht
      rw [I2C_interrupt_quiet t b this irq hp.1]
      constructor
      · unfold Bus.async_inv
        simp only []
        rw [hs.1, hs.2.1, hs.2.2.2.2.1, hs.2.2.2.2.2.1, hs.2.2.2.2.2.2.1, hp.2.1, hp.2.2.1]
        exact h
      · intro hc; exact absurd hc (by decide)
    | true =>
      have hp := Irq_deliver_terminal t irq (b.dev this) hd hh ht
      obtain ⟨event, he⟩ := hp.1
      have he2 : (irq.deliver t (b.dev this)).2 = some ⟨hd, some this, event⟩ := by
        rw [he]
        exact congrArg (fun c => some (HandlerCall.mk hd c event)) hctx
      rw [I2C_interrupt_handled t b this irq hd this event he2]
      have hb : ((b.store this (irq.deliver t (b.dev this)).1).objs this).sleep_locks =
          ((b.store this (irq.deliver t (b.dev this)).1).objs this).sleep_unlocks +
            (if ((b.store this (irq.deliver t (b.dev this)).1).objs this)._deep_sleep_locked
              then 1 else 0) := by
        rw [hs.2.2.2.2.1, hs.2.2.2.2.2.1, hs.2.1]; exact h.2.1
      have hu := unlock_released ((b.store this (irq.deliver t (b.dev this)).1).objs this) hb
      have e : ((I2C.irq_handler_asynch (b.store this (irq.deliver t (b.dev this)).1) event
          this).1.objs this) =
          ({ (b.store this (irq.deliver t (b.dev this)).1).objs this with
            _async_transfer_ongoing := false } : I2C).unlock_deep_sleep := by
        simp [I2C.irq_handler_asynch]
      have hrel : ((I2C.irq_handler_asynch (b.store this (irq.deliver t (b.dev this)).1) event
            this).1.objs this)._deep_sleep_locked = false ∧
          ((I2C.irq_handler_asynch (b.store this (irq.deliver t (b.dev this)).1) event
            this).1.objs this)._async_transfer_ongoing = false ∧
          ((I2C.irq_handler_asynch (b.store this (irq.deliver t (b.dev this)).1) event
            this).1.objs this).sleep_locks =
          ((I2C.irq_handler_asynch (b.store this (irq.deliver t (b.dev this)).1) event
            this).1.objs this).sleep_unlocks := by
        rw [e]; exact ⟨hu.1, hu.2.1, hu.2.2.1⟩
      refine ⟨released_async_inv _ this hrel.1 hrel.2.1 hrel.2.2 ?_, fun _ _ => hrel⟩
      intro hc
      rw [e, hu.2.2.2.1, hs.2.2.2.2.2.2.1] at hc
      exact absurd hp.2 hc

theorem Bus_run_async_inv (t : Target) (this : Nat) (ops : List BusOp) :
    ∀ b b1 : Bus, b.async_inv this → (∀ op ∈ ops, op.is_async this) →
      Bus.run t b ops = some b1 → b1.async_inv this := by
  induction ops with
  | nil =>
    intro b b1 h _ hr
    simp only [Bus.run, Option.some.injEq] at hr
    rw [← hr]; exact h
  | cons op ops ih =>
    intro b b1 h hops hr
    have hop := hops op (List.mem_cons_self _ _)
    have hrest : ∀ o ∈ ops, o.is_async this := fun o ho => hops o (List.mem_cons_of_mem _ ho)
    simp only [Bus.run] at hr
    cases hstep : Bus.step t b op with
    | none => rw [hstep] at hr; simp at hr
    | some b2 =>
      rw [hstep] at hr
      have hr2 : Bus.run t b2 ops = some b1 := hr
      refine ih b2 b1 ?_ hrest hr2
      cases op with
      | construct x sda scl =>
        have hx : x = this := hop
        subst hx
        have hc := I2C_construct_obj t b b2 x sda scl hstep
        exact released_async_inv b2 x hc.1 hc.2.1 (hc.2.2.1.trans hc.2.2.2.1.symm)
          (fun hne => absurd hc.2.2.2.2 hne)
      | frequency x hz => exact absurd hop (by simp [BusOp.is_async])
      | aquire x => exact absurd hop (by simp [BusOp.is_async])
      | write x env status address length repeated => exact absurd hop (by simp [BusOp.is_async])
      | read x env status address length repeated => exact absurd hop (by simp [BusOp.is_async])
      | transfer x status address tx_length rx_length callback repeated =>
        have hx : x = this := hop
        subst hx
        simp only [Bus.step, Option.some.injEq] at hstep
        rw [← hstep]
        exact I2C_transfer_async_inv t status b x address tx_length rx_length callback repeated h
      | abort_transfer x =>
        have hx : x = this := hop
        subst hx
        simp only [Bus.step, Option.some.injEq] at hstep
        rw [← hstep]
        exact (I2C_abort_released b x h).2.2.2
      | interrupt x irq =>
        have hx : x = this := hop
        subst hx
        simp only [Bus.step, Option.some.injEq] at hstep
        rw [← hstep]
        exact (I2C_interrupt_async_inv t b x irq h).1

/-- C15.  In every state that the object at `this` reaches from its
constructor through `transfer`, `abort_transfer` and the interrupts served
on it, the inhibitor flag equals the ongoing flag, and the locks the object
has issued to the sleep manager exceed its unlocks by 1 when the flag is set
and by 0 otherwise.  From every such state `abort_transfer` leaves both
flags clear and the calls balanced, and so does every terminal interrupt
(completion, error, abort-complete) that arrives while a transfer is
ongoing, through `irq_handler_asynch`. -/
theorem deep_sleep_inhibitor (t : Target) (b0 b : Bus) (this sda scl : Nat) (ops : List BusOp)
    (hops : ∀ op ∈ ops, op.is_async this)
    (hrun : Bus.run t b0 (BusOp.construct this sda scl :: ops) = some b) :
    (b.objs this)._deep_sleep_locked = (b.objs this)._async_transfer_ongoing ∧
    (b.objs this).sleep_locks =
      (b.objs this).sleep_unlocks + (if (b.objs this)._deep_sleep_locked then 1 else 0) ∧
    (((I2C.abort_transfer b this).objs this)._deep_sleep_locked = false ∧
      ((I2C.abort_transfer b this).objs this)._async_transfer_ongoing = false ∧
      ((I2C.abort_transfer b this).objs this).sleep_locks =
        ((I2C.abort_transfer b this).objs this).sleep_unlocks) ∧
    (∀ irq : Irq,
      irq.terminal (b.objs this)._i2c.tx_buff.length (b.objs this)._i2c.rx_buff.length = true →
      (b.objs this)._async_transfer_ongoing = true →
      ((I2C.interrupt t b this irq).1.objs this)._deep_sleep_locked = false ∧
      ((I2C.interrupt t b this irq).1.objs this)._async_transfer_ongoing = false ∧
      ((I2C.interrupt t b this irq).1.objs this).sleep_locks =
        ((I2C.interrupt t b this irq).1.objs this).sleep_unlocks) := by
  have hinv : b.async_inv this := by
    simp only [Bus.run] at hrun
    cases hstep : Bus.step t b0 (BusOp.construct this sda scl) with
    | none => rw [hstep] at hrun; simp at hrun
    | some b1 =>
      rw [hstep] at hrun
      have hrun2 : Bus.run t b1 ops = some b := hrun
      have hc := I2C_construct_obj t b0 b1 this sda scl hstep
      exact Bus_run_async_inv t this ops b1 b
        (released_async_inv b1 this hc.1 hc.2.1 (hc.2.2.1.trans hc.2.2.2.1.symm)
          (fun hne => absurd hc.2.2.2.2 hne)) hops hrun2
  have ha := I2C_abort_released b this hinv
  exact ⟨hinv.1, hinv.2.1, ⟨ha.1, ha.2.1, ha.2.2.1⟩,
    fun irq => (I2C_interrupt_async_inv t b this irq hinv).2⟩

/-- Witness of `deep_sleep_inhibitor`: after the constructor and one
`transfer` the object holds one lock. -/
theorem deep_sleep_inhibitor_witness :
    ((I2C.transfer stm32v2 HAL_OK (bus_constructed stm32v2) 1 80 2 0 (some 7) false).1.objs
      1).sleep_locks =
    ((I2C.transfer stm32v2 HAL_OK (bus_constructed stm32v2) 1 80 2 0 (some 7) false).1.objs
      1).sleep_unlocks +
      (if ((I2C.transfer stm32v2 HAL_OK (bus_constructed stm32v2) 1 80 2 0 (some 7)
        false).1.objs 1)._deep_sleep_locked then 1 else 0) :=
  (deep_sleep_inhibitor stm32v2 (bus_fresh stm32v2)
    (I2C.transfer stm32v2 HAL_OK (bus_constructed stm32v2) 1 80 2 0 (some 7) false).1 1 0 1
    [BusOp.transfer 1 HAL_OK 80 2 0 (some 7) false]
    (by intro op hop; simp at hop; subst hop; rfl) rfl).2.1

/-! ## Ownership of the shared peripheral -/

theorem timing_of_congr (t : Target) (cfg cfg2 : I2C_InitTypeDef) (hz : Nat)
    (h1 : cfg2.Timing = cfg.Timing) (h2 : cfg2.ClockSpeed = cfg.ClockSpeed)
    (h : timing_of t cfg hz) : timing_of t cfg2 hz := by
  unfold timing_of at h ⊢
  rw [h1, h2]; exact h

theorem Dev_tuned_congr (t : Target) (d d2 : Dev) (h1 : d2.hw.Init = d.hw.Init)
    (h2 : d2.obj.hz = d.obj.hz) (h : d.tuned t) : d2.tuned t := by
  unfold Dev.tuned at h ⊢
  rw [h1, h2]; exact h

theorem i2c_frequency_tuned (t : Target) (d : Dev) (frequency : Nat) :
    (i2c_frequency t d frequency).1.tuned t ∧
    (i2c_frequency t d frequency).1.obj.hz = frequency ∧
    (i2c_frequency t d frequency).1.hw.Init = (i2c_frequency t d frequency).1.obj.Init := by
  have h := i2c_frequency_obj t d frequency
  have hs := selected_frequency_eq t frequency
  refine ⟨?_, h.2.1.trans hs, h.2.2.1⟩
  unfold Dev.tuned timing_of
  rw [h.2.2.1, h.2.2.2.1, h.2.2.2.2.1, h.2.1]
  by_cases hv : t.I2C_IP_VERSION_V2 = true <;> simp [hv]

theorem i2c_init_tuned (t : Target) (d : Dev) (sda scl : Nat) (is_slave : Bool) :
    (i2c_init t d sda scl is_slave).tuned t ∧
    (d.obj.hz ≠ 0 → (i2c_init t d sda scl is_slave).obj.hz = d.obj.hz) ∧
    (i2c_init t d sda scl is_slave).hw.Init = (i2c_init t d sda scl is_slave).obj.Init := by
  have h1 : ∀ d f, (i2c_frequency t d f).1.obj.hz = f :=
    fun d f => (i2c_frequency_tuned t d f).2.1
  have h2 : ∀ d f, (i2c_frequency t d f).1.hw.Init = (i2c_frequency t d f).1.obj.Init :=
    fun d f => (i2c_frequency_tuned t d f).2.2
  have h3 : ∀ d f, timing_of t (i2c_frequency t d f).1.obj.Init f := by
    intro d f
    have h := (i2c_frequency_tuned t d f).1
    unfold Dev.tuned at h
    rw [h1, h2] at h
    exact h
  unfold i2c_init Dev.tuned
  cases is_slave <;> by_cases hz : d.obj.hz = 0 <;>
    simp [HAL_I2C_EnableListen_IT, HAL_I2C_DisableListen_IT, hz, i2c_hw_reset, Dev.call,
      h1, h2, h3]

theorem i2c_slave_address_tuned (t : Target) (d : Dev) (address : Nat)
    (h : d.tuned t) (hi : d.hw.Init = d.obj.Init) :
    (i2c_slave_address d address).tuned t ∧ (i2c_slave_address d address).obj.hz = d.obj.hz := by
  unfold Dev.tuned at h ⊢
  rw [hi] at h
  refine ⟨?_, by simp [i2c_slave_address, HAL_I2C_EnableListen_IT, i2c_ev_err_enable, HAL_I2C_Init]⟩
  refine timing_of_congr t d.obj.Init _ _ ?_ ?_ ?_
  · simp [i2c_slave_address, HAL_I2C_EnableListen_IT, i2c_ev_err_enable, HAL_I2C_Init]
  · simp [i2c_slave_address, HAL_I2C_EnableListen_IT, i2c_ev_err_enable, HAL_I2C_Init]
  · simpa [i2c_slave_address, HAL_I2C_EnableListen_IT, i2c_ev_err_enable, HAL_I2C_Init] using h

theorem error_reinit_tuned (t : Target) (d : Dev) :
    (error_reinit t d).tuned t ∧ (d.obj.hz ≠ 0 → (error_reinit t d).obj.hz = d.obj.hz) := by
  have hi := i2c_init_tuned t d d.obj.sda d.obj.scl (d.obj.slave != 0)
  have hs := i2c_slave_address_tuned t
    { i2c_init t d d.obj.sda d.obj.scl (d.obj.slave != 0) with
      obj := { (i2c_init t d d.obj.sda d.obj.scl (d.obj.slave != 0)).obj with slave := 1 } }
    (if d.obj.slave ≠ 0 then d.obj.Init.OwnAddress1 % 2 ^ 16 else 0)
    (Dev_tuned_congr t _ _ rfl rfl hi.1) hi.2.2
  by_cases ha : (if d.obj.slave ≠ 0 then d.obj.Init.OwnAddress1 % 2 ^ 16 else 0) ≠ 0
  · have e : error_reinit t d =
        { i2c_slave_address
            { i2c_init t d d.obj.sda d.obj.scl (d.obj.slave != 0) with
              obj := { (i2c_init t d d.obj.sda d.obj.scl (d.obj.slave != 0)).obj with
                slave := 1 } }
            (if d.obj.slave ≠ 0 then d.obj.Init.OwnAddress1 % 2 ^ 16 else 0) with
          obj := { (i2c_slave_address
            { i2c_init t d d.obj.sda d.obj.scl (d.obj.slave != 0) with
              obj := { (i2c_init t d d.obj.sda d.obj.scl (d.obj.slave != 0)).obj with
                slave := 1 } }
            (if d.obj.slave ≠ 0 then d.obj.Init.OwnAddress1 % 2 ^ 16 else 0)).obj with
            event := I2C_EVENT_ERROR } } := by
      unfold error_reinit
      simp only [if_pos ha]
    rw [e]
    exact ⟨Dev_tuned_congr t _ _ rfl rfl hs.1, fun hz => hs.2.trans (hi.2.1 hz)⟩
  · have e : error_reinit t d =
        { i2c_init t d d.obj.sda d.obj.scl (d.obj.slave != 0) with
          obj := { (i2c_init t d d.obj.sda d.obj.scl (d.obj.slave != 0)).obj with
            event := I2C_EVENT_ERROR } } := by
      unfold error_reinit
      simp only [if_neg ha]
    rw [e]
    exact ⟨Dev_tuned_congr t _ _ rfl rfl hi.1, hi.2.1⟩

/-- An interrupt leaves the peripheral programmed for the frequency stored
in the object it is served on, and keeps a stored frequency that is not 0. -/
theorem Irq_deliver_tuned (t : Target) (irq : Irq) (d : Dev) (h : d.tuned t) :
    (irq.deliver t d).1.tuned t ∧ (d.obj.hz ≠ 0 → (irq.deliver t d).1.obj.hz = d.obj.hz) := by
  cases irq with
  | MasterTxCplt count status =>
    have e : (Irq.deliver t (Irq.MasterTxCplt count status) d).1.hw.Init = d.hw.Init ∧
        (Irq.deliver t (Irq.MasterTxCplt count status) d).1.obj.hz = d.obj.hz := by
      unfold Irq.deliver HAL_I2C_MasterTxCpltCallback
      by_cases hp : d.obj.tx_buff.length ≠ 0 ∧ d.obj.rx_buff.length ≠ 0
      · simp [hp, Dev.call]
      · cases hh : d.obj.handler <;> simp [hp, hh]
    exact ⟨Dev_tuned_congr t d _ e.1 e.2 h, fun _ => e.2⟩
  | MasterRxCplt count =>
    have e : (Irq.deliver t (Irq.MasterRxCplt count) d).1.hw.Init = d.hw.Init ∧
        (Irq.deliver t (Irq.MasterRxCplt count) d).1.obj.hz = d.obj.hz := by
      unfold Irq.deliver HAL_I2C_MasterRxCpltCallback
      cases hh : d.obj.handler <;> simp [hh]
    exact ⟨Dev_tuned_congr t d _ e.1 e.2 h, fun _ => e.2⟩
  | Error code count =>
    have hr := error_reinit_tuned t
      { d with obj := { d.obj with ErrorCode := code, XferCount := count } }
    have e : (Irq.deliver t (Irq.Error code count) d).1.hw.Init =
          (error_reinit t
            { d with obj := { d.obj with ErrorCode := code, XferCount := count } }).hw.Init ∧
        (Irq.deliver t (Irq.Error code count) d).1.obj.hz =
          (error_reinit t
            { d with obj := { d.obj with ErrorCode := code, XferCount := count } }).obj.hz := by
      unfold Irq.deliver
      simp only []
      rw [HAL_I2C_ErrorCallback_eq]
      cases hh : (error_reinit t
        { d with obj := { d.obj with ErrorCode := code, XferCount := count } }).obj.handler <;>
        simp
    exact ⟨Dev_tuned_congr t _ _ e.1 e.2 hr.1, fun hz => e.2.trans (hr.2 hz)⟩
  | AbortCplt count =>
    have e : (Irq.deliver t (Irq.AbortCplt count) d).1.hw.Init = d.hw.Init ∧
        (Irq.deliver t (Irq.AbortCplt count) d).1.obj.hz = d.obj.hz := by
      unfold Irq.deliver HAL_I2C_AbortCpltCallback
      cases hh : d.obj.handler <;> simp [hh, i2c_ev_err_disable]
    exact ⟨Dev_tuned_congr t d _ e.1 e.2 h, fun _ => e.2⟩

theorem i2c_request_keeps (t : Target) (status : HAL_StatusTypeDef) (d : Dev)
    (address length : Nat) (stop : Bool) :
    (i2c_write_request t status d address length stop).hw.Init = d.hw.Init ∧
    (i2c_write_request t status d address length stop).obj.hz = d.obj.hz ∧
    (i2c_read_request t status d address length stop).hw.Init = d.hw.Init ∧
    (i2c_read_request t status d address length stop).obj.hz = d.obj.hz := by
  simp [i2c_write_request, i2c_read_request, i2c_ev_err_enable, Dev.call]

/-- A property of the device that the interrupt context keeps holds when the
polling loop is left. -/
theorem wait_rounds_keeps (pending : i2c_t → Bool) (env : Nat → Dev → Dev) (P : Dev → Prop)
    (hP : ∀ k d, P d → P (env k d)) :
    ∀ (fuel : Nat) (d : Dev) (timeout k waits : Nat), P d →
      P (wait_rounds pending env fuel d timeout k waits).dev := by
  intro fuel
  induction fuel with
  | zero => intro d timeout k waits h; exact h
  | succ n ih =>
    intro d timeout k waits h
    unfold wait_rounds
    simp only []
    split_ifs
    · exact hP k d h
    · exact ih _ _ _ _ (hP k d h)
    · exact hP k d h

theorem owner_tuned_of (t : Target) (b : Bus) (X : Nat) (ho : b._owner = some X)
    (ht : (b.dev X).tuned t)
    (hz : (b.objs X)._hz ≠ 0 → (b.objs X)._i2c.hz = (b.objs X)._hz) : b.owner_tuned t := by
  intro Y hY
  rw [ho] at hY
  have e : X = Y := Option.some.inj hY
  subst e
  exact ⟨ht, hz⟩

theorem I2C_frequency_tuned (t : Target) (b b1 : Bus) (X : Nat) (hz : Int)
    (h : I2C.frequency t b X hz = some b1) :
    b1.owner_tuned t ∧ b1._owner = some X := by
  unfold I2C.frequency at h
  split_ifs at h
  simp only [Option.some.injEq] at h
  subst h
  have hf := fun d f => i2c_frequency_tuned t d f
  refine ⟨owner_tuned_of t _ X rfl ?_ ?_, rfl⟩
  · simp only [Bus.dev, Bus.store, Function.update_same]
    exact Dev_tuned_congr t _ _ rfl rfl (hf _ _).1
  · intro _
    simp [Bus.store, Bus.dev, (hf _ _).2.1]

/-- The callbacks of the file, served in any order while a blocking call
polls, make an interrupt context that satisfies `EnvKeeps`. -/
theorem irq_env_keeps (t : Target) (sched : Nat → List AnyIrq) : EnvKeeps t (irq_env t sched) := by
  have hone : ∀ (i : AnyIrq) (d : Dev), d.tuned t →
      (i.deliver t d).tuned t ∧ (d.obj.hz ≠ 0 → (i.deliver t d).obj.hz = d.obj.hz) := by
    intro i d hd
    cases i with
    | master irq => exact Irq_deliver_tuned t irq d hd
    | slave irq =>
      have e : (AnyIrq.deliver t (AnyIrq.slave irq) d).hw.Init = d.hw.Init ∧
          (AnyIrq.deliver t (AnyIrq.slave irq) d).obj.hz = d.obj.hz := by
        cases irq with
        | Addr dir =>
          cases dir <;> simp [AnyIrq.deliver, SlaveIrq.deliver, HAL_I2C_AddrCallback]
        | SlaveTxCplt => simp [AnyIrq.deliver, SlaveIrq.deliver, HAL_I2C_SlaveTxCpltCallback]
        | SlaveRxCplt => simp [AnyIrq.deliver, SlaveIrq.deliver, HAL_I2C_SlaveRxCpltCallback]
      exact ⟨Dev_tuned_congr t d _ e.1 e.2 hd, fun _ => e.2⟩
    | ListenCplt =>
      have e : (AnyIrq.deliver t AnyIrq.ListenCplt d).hw.Init = d.hw.Init ∧
          (AnyIrq.deliver t AnyIrq.ListenCplt d).obj.hz = d.obj.hz := by
        simp [AnyIrq.deliver, HAL_I2C_ListenCpltCallback, HAL_I2C_EnableListen_IT]
      exact ⟨Dev_tuned_congr t d _ e.1 e.2 hd, fun _ => e.2⟩
  intro k
  unfold irq_env
  induction sched k with
  | nil => intro d hd; exact ⟨hd, fun _ => rfl⟩
  | cons i rest ih =>
    intro d hd
    have h1 := hone i d hd
    have h2 := ih (i.deliver t d) h1.1
    refine ⟨h2.1, fun hz => ?_⟩
    have e1 := h1.2 hz
    exact (h2.2 (by rw [e1]; exact hz)).trans e1

theorem I2C_transfer_owner (t : Target) (status : HAL_StatusTypeDef) (b : Bus) (X : Nat)
    (address tx_length rx_length : Int) (callback : Option Nat) (repeated : Bool)
    (h : b._owner = some X) :
    (I2C.transfer t status b X address tx_length rx_length callback repeated).1._owner =
      some X := by
  cases ho : (b.objs X)._async_transfer_ongoing
  · rw [I2C_transfer_idle t status b X address tx_length rx_length callback repeated ho]
    exact (Bus_store_obj _ X _).2.2.2.2.2.2.2.2.trans (I2C_transfer_armed_obj t b X callback).2.2.2
  · unfold I2C.transfer
    simp only [ho, if_true]
    exact h

/-- Why the ownership invariant speaks of a frequency that is not 0.  Handle
1 is constructed and `frequency(0)` is called on it, which the assertion of
`frequency` lets pass.  Its asynchronous write is accepted and answered by an
error interrupt, served on handle 1, the owner: `HAL_I2C_ErrorCallback` runs
`i2c_init`, which replaces the stored 0 Hz by 100 kHz and programs that.
Handle 1 still owns the bus, so its next `transfer` programs nothing: the
request is issued with the timing of 100 kHz, while the frequency of the
handle is 0. -/
theorem ownership_zero_hz :
    Bus.run stm32v2 (bus_unowned stm32v2) ops_zero_hz = some (bus_zero_hz stm32v2) ∧
    Bus.admits stm32v2 (bus_unowned stm32v2) ops_zero_hz ∧
    (bus_zero_hz stm32v2)._owner = some 1 ∧
    ((bus_zero_hz stm32v2).objs 1)._hz = 0 ∧
    ((bus_zero_hz stm32v2).objs 1)._async_transfer_ongoing = false ∧
    (I2C.transfer_armed stm32v2 (bus_zero_hz stm32v2) 1 (some 7))._owner = some 1 ∧
    (I2C.transfer_request stm32v2 HAL_OK (bus_zero_hz stm32v2) 1 80 2 0 (some 7) false).2 =
      true ∧
    (I2C.transfer_request stm32v2 HAL_OK (bus_zero_hz stm32v2) 1 80 2 0 (some 7)
      false).1.hw.Init.Timing = stm32v2.get_i2c_timing 100000 ∧
    stm32v2.get_i2c_timing 100000 ≠ stm32v2.get_i2c_timing 0 ∧
    ¬ timing_of stm32v2
      (I2C.transfer_request stm32v2 HAL_OK (bus_zero_hz stm32v2) 1 80 2 0 (some 7)
        false).1.hw.Init ((bus_zero_hz stm32v2).objs 1)._hz := by
  refine ⟨rfl, ?_, by decide, by decide, by decide, by decide, by decide, by decide, by decide,
    by decide⟩
  refine ⟨trivial, fun b1 _ => ⟨trivial, fun b2 h2 => ⟨trivial, fun b3 h3 =>
    ⟨?_, fun _ _ => trivial⟩⟩⟩⟩
  have ho := (I2C_frequency_tuned stm32v2 b1 b2 1 0 h2).2
  simp only [Bus.step, Option.some.injEq] at h3
  rw [← h3]
  exact I2C_transfer_owner stm32v2 HAL_OK b2 1 80 2 0 (some 7) false ho

theorem align_fit (val size : Nat) (hs : 1 ≤ size) (hv : 1 ≤ val)
    (hfit : ((val - 1) / size + 1) * size < 2 ^ 32) :
    size < 2 ^ 32 ∧ val < 2 ^ 32 ∧ (val - 1) / size + 1 < 2 ^ 32 ∧
    val ≤ ((val - 1) / size + 1) * size ∧
    ((val - 1) / size + 1) * size - val < size ∧
    val / size * size ≤ val ∧ val - val / size * size < size := by
  have h1 := Nat.div_add_mod (val - 1) size
  have h2 := Nat.mod_lt (val - 1) (show size > 0 by omega)
  have h3 := Nat.div_add_mod val size
  have h4 := Nat.mod_lt val (show size > 0 by omega)
  have e1 : ((val - 1) / size + 1) * size = size * ((val - 1) / size) + size := by ring
  have e2 : val / size * size = size * (val / size) := by ring
  have h5 : (val - 1) / size + 1 ≤ ((val - 1) / size + 1) * size :=
    Nat.le_mul_of_pos_right _ (by omega)
  rw [e1] at hfit h5 ⊢
  rw [e2]
  generalize size * ((val - 1) / size) = p at *
  generalize size * (val / size) = p2 at *
  omega

theorem align_up_eq (val size : Nat) (hs : 1 ≤ size) (hv : 1 ≤ val)
    (hfit : ((val - 1) / size + 1) * size < 2 ^ 32) :
    align_up val size = ((val - 1) / size + 1) * size := by
  have hf := align_fit val size hs hv hfit
  unfold align_up
  have a1 : val % 2 ^ 64 = val := Nat.mod_eq_of_lt (by omega)
  have a2 : size % 2 ^ 64 = size := Nat.mod_eq_of_lt (by omega)
  have a3 : (val + 2 ^ 64 - 1) % 2 ^ 64 = val - 1 := by omega
  rw [a1, a2, a3, Nat.mod_eq_of_lt (show (val - 1) / size + 1 < 2 ^ 64 by omega),
    Nat.mod_eq_of_lt (show ((val - 1) / size + 1) * size < 2 ^ 64 by omega),
    Nat.mod_eq_of_lt hfit]

theorem align_down_eq (val size : Nat) (hv : val < 2 ^ 32) (hs : size < 2 ^ 64) :
    align_down val size = val / size * size := by
  unfold align_down
  have h : val / size * size ≤ val := Nat.div_mul_le_self val size
  rw [Nat.mod_eq_of_lt (show val < 2 ^ 64 by omega), Nat.mod_eq_of_lt hs,
    Nat.mod_eq_of_lt (show val / size * size < 2 ^ 64 by omega),
    Nat.mod_eq_of_lt (show val / size * size < 2 ^ 32 by omega)]

theorem align_multiple (k size : Nat) (hs : 1 ≤ size) (hk : 1 ≤ k) :
    (k * size - 1) / size = k - 1 ∧ k * size / size = k := by
  constructor
  · have e : k * size - 1 = (size - 1) + size * (k - 1) := by
      have : k * size = size * (k - 1) + size := by
        obtain ⟨j, rfl⟩ : ∃ j, k = j + 1 := ⟨k - 1, by omega⟩
        simp; ring
      omega
    rw [e, Nat.add_mul_div_left _ _ (by omega : 0 < size), Nat.div_eq_of_lt (by omega)]
    omega
  · exact Nat.mul_div_cancel k (by omega)

/-- C30.  For `size >= 1` and `val >= 1` such that the rounded-up value
fits in 32 bits, the conversions in `align_up` and `align_down` lose nothing:
`align_up` is `((val - 1) / size + 1) * size` and `align_down` is
`(val / size) * size`.  They bracket `val`, both are multiples of `size`,
both are less than `size` away from `val`, both leave a multiple of `size`
as it is and so are idempotent, and their difference is 0 when `size`
divides `val` and `size` otherwise. -/
theorem align_bracket (val size : Nat) (hs : 1 ≤ size) (hv : 1 ≤ val)
    (hfit : ((val - 1) / size + 1) * size < 2 ^ 32) :
    align_down val size ≤ val ∧ val ≤ align_up val size ∧
    size ∣ align_down val size ∧ size ∣ align_up val size ∧
    val - align_down val size < size ∧ align_up val size - val < size ∧
    (size ∣ val → align_up val size = val ∧ align_down val size = val) ∧
    align_up (align_up val size) size = align_up val size ∧
    align_down (align_down val size) size = align_down val size ∧
    align_up val size - align_down val size = (if size ∣ val then 0 else size) := by
  have hf := align_fit val size hs hv hfit
  have hu := align_up_eq val size hs hv hfit
  have hd := align_down_eq val size hf.2.1 (by omega)
  have hmul : size ∣ val → align_up val size = val ∧ align_down val size = val := by
    intro hdvd
    obtain ⟨k, rfl⟩ := hdvd
    have hk : 1 ≤ k := by
      rcases Nat.eq_zero_or_pos k with h | h
      · subst h; simp at hv
      · exact h
    have hm := align_multiple k size hs hk
    rw [hu, hd, Nat.mul_comm size k, hm.1, hm.2]
    exact ⟨by rw [Nat.sub_add_cancel hk], rfl⟩
  refine ⟨?_, ?_, ?_, ?_, ?_, ?_, hmul, ?_, ?_, ?_⟩
  · rw [hd]; exact hf.2.2.2.2.2.1
  · rw [hu]; exact hf.2.2.2.1
  · rw [hd]; exact Dvd.intro_left _ rfl
  · rw [hu]; exact Dvd.intro_left _ rfl
  · rw [hd]; exact hf.2.2.2.2.2.2
  · rw [hu]; exact hf.2.2.2.2.1
  · have hpos : 1 ≤ (val - 1) / size + 1 := Nat.le_add_left 1 _
    have hm := align_multiple ((val - 1) / size + 1) size hs hpos
    rw [hu]
    have hfit2 : ((((val - 1) / size + 1) * size - 1) / size + 1) * size < 2 ^ 32 := by
      rw [hm.1, Nat.sub_add_cancel hpos]; exact hfit
    rw [align_up_eq _ size hs (by omega) hfit2, hm.1, Nat.sub_add_cancel hpos]
  · rw [hd]
    have hle : val / size * size ≤ val := Nat.div_mul_le_self val size
    rw [align_down_eq _ size (lt_of_le_of_lt hle hf.2.1) (by omega),
      Nat.mul_div_cancel _ (by omega : 0 < size)]
  · by_cases hdvd : size ∣ val
    · rw [if_pos hdvd, (hmul hdvd).1, (hmul hdvd).2]; omega
    · rw [if_neg hdvd, hu, hd]
      have h3 := Nat.div_add_mod val size
      have h4 := Nat.mod_lt val (show size > 0 by omega)
      have h5 : val % size ≠ 0 := fun h => hdvd (Nat.dvd_of_mod_eq_zero h)
      have e : (val - 1) / size = val / size := by
        have e1 : val - 1 = (val % size - 1) + size * (val / size) := by omega
        rw [e1, Nat.add_mul_div_left _ _ (by omega : 0 < size), Nat.div_eq_of_lt (by omega)]
        omega
      rw [e, Nat.add_mul, Nat.one_mul]
      omega

/-- Witness of `align_bracket`: 10 in blocks of 4 lies between 8 and 12. -/
theorem align_bracket_witness :
    align_down 10 4 ≤ 10 ∧ 10 ≤ align_up 10 4 ∧ align_down 10 4 = 8 ∧ align_up 10 4 = 12 :=
  ⟨(align_bracket 10 4 (by decide) (by decide) (by decide)).1,
    (align_bracket 10 4 (by decide) (by decide) (by decide)).2.1, by decide, by decide⟩

/-! ## Slave address -/

theorem or_one_mod (m : Nat) : (m ||| 1) % 2 = 1 := by
  simp

theorem or_one_eq (m : Nat) : m ||| 1 = m / 2 * 2 + 1 := by
  have h1 := or_one_mod m
  have h2 : (m ||| 1) / 2 = m / 2 := by
    rw [Nat.or_div_two]; simp
  omega

theorem xor_one_div (n : Nat) : (n ^^^ 1) / 2 = n / 2 := by
  rw [Nat.xor_div_two]; simp

theorem ldiff_255 (n : Nat) : Nat.ldiff 255 n = 255 - n % 256 := by
  apply Nat.eq_of_testBit_eq
  intro i
  have h := @Nat.testBit_two_pow_sub_succ (n % 256) 8 (Nat.mod_lt _ (by norm_num)) i
  have e : 2 ^ 8 - (n % 256 + 1) = 255 - n % 256 := by omega
  rw [e] at h
  rw [h, Nat.testBit_ldiff, show (256 : Nat) = 2 ^ 8 by norm_num, Nat.testBit_mod_two_pow,
    show (255 : Nat) = 2 ^ 8 - 1 by norm_num, Nat.testBit_two_pow_sub_one]
  cases decide (i < 8) <;> simp

theorem land_255 (a : Int) : Int.land a 255 = a % 256 := by
  cases a with
  | ofNat n =>
    show Int.ofNat (n &&& 255) = _
    have h := Nat.and_pow_two_sub_one_eq_mod n 8
    norm_num at h
    rw [h]
    simp only [Int.ofNat_eq_coe]
    omega
  | negSucc n =>
    show Int.ofNat (Nat.ldiff 255 n) = _
    rw [ldiff_255]
    have : n % 256 < 256 := Nat.mod_lt _ (by norm_num)
    rw [Int.negSucc_eq]
    simp only [Int.ofNat_eq_coe]
    omega

theorem lor_land (a : Int) : Int.lor (Int.land a 255) 1 = ((a % 256).toNat / 2 * 2 + 1 : Nat) := by
  rw [land_255]
  have h : 0 ≤ a % 256 := Int.emod_nonneg _ (by norm_num)
  obtain ⟨m, hm⟩ := Int.eq_ofNat_of_zero_le h
  rw [hm]
  show Int.ofNat (m ||| 1) = _
  rw [or_one_eq]
  simp

theorem xor_one_mod (a : Int) : ((Int.xor a 1) % 256).toNat / 2 = (a % 256).toNat / 2 := by
  cases a with
  | ofNat n =>
    show ((Int.ofNat (n ^^^ 1)) % 256).toNat / 2 = ((Int.ofNat n) % 256).toNat / 2
    have h := xor_one_div n
    simp only [Int.ofNat_eq_coe]
    omega
  | negSucc n =>
    show ((Int.negSucc (n ^^^ 1)) % 256).toNat / 2 = ((Int.negSucc n) % 256).toNat / 2
    have h := xor_one_div n
    rw [Int.negSucc_eq, Int.negSucc_eq]
    omega

/-- C23.  For every `int` address, `I2CSlave::address` programs the own
address `(address AND 0xFF) OR 1`, in the handle and in the peripheral.  The
value is `2 * ((address mod 256) / 2) + 1`: it is below 256, its bit 0 is 1
whatever bit 0 of the argument is, its bits 1 to 7 are those of the argument,
and `address(a XOR 1)` programs what `address(a)` programs. -/
theorem slave_address_marker (d : Dev) (address : Int) :
    (I2CSlave.address d address).hw.Init.OwnAddress1 =
      (Int.lor (Int.land address 255) 1).toNat ∧
    (I2CSlave.address d address).obj.Init.OwnAddress1 =
      (I2CSlave.address d address).hw.Init.OwnAddress1 ∧
    (I2CSlave.address d address).hw.Init.OwnAddress1 = (address % 256).toNat / 2 * 2 + 1 ∧
    (I2CSlave.address d address).hw.Init.OwnAddress1 < 256 ∧
    (I2CSlave.address d address).hw.Init.OwnAddress1.testBit 0 = true ∧
    (∀ i, 1 ≤ i → i ≤ 7 →
      (I2CSlave.address d address).hw.Init.OwnAddress1.testBit i = address.testBit i) ∧
    I2CSlave.address d (Int.xor address 1) = I2CSlave.address d address := by
  have hv := lor_land address
  have hm : (address % 256).toNat < 256 := by
    have h1 : 0 ≤ address % 256 := Int.emod_nonneg _ (by norm_num)
    have h2 : address % 256 < 256 := Int.emod_lt_of_pos _ (by norm_num)
    omega
  have hu : uint16 (Int.lor (Int.land address 255) 1) = (address % 256).toNat / 2 * 2 + 1 := by
    unfold uint16
    rw [hv]
    omega
  have e : (I2CSlave.address d address).hw.Init.OwnAddress1 =
      uint16 (Int.lor (Int.land address 255) 1) := by
    simp [I2CSlave.address, i2c_slave_address, HAL_I2C_EnableListen_IT, i2c_ev_err_enable,
      HAL_I2C_Init]
  have e2 : (I2CSlave.address d address).obj.Init.OwnAddress1 =
      uint16 (Int.lor (Int.land address 255) 1) := by
    simp [I2CSlave.address, i2c_slave_address, HAL_I2C_EnableListen_IT, i2c_ev_err_enable,
      HAL_I2C_Init]
  have e255 : ∀ i, 1 ≤ i → i ≤ 7 → Int.testBit 255 i = true ∧ Int.testBit 1 i = false := by
    intro i h1 h7
    interval_cases i <;> exact ⟨rfl, rfl⟩
  refine ⟨?_, e2.trans e.symm, e.trans hu, ?_, ?_, ?_, ?_⟩
  · rw [e, hu, hv]; rfl
  · rw [e, hu]; omega
  · rw [e, hu, Nat.testBit_zero]
    have h2 : ((address % 256).toNat / 2 * 2 + 1) % 2 = 1 := by omega
    simp [h2]
  · intro i h1 h7
    have hb : ((address % 256).toNat / 2 * 2 + 1).testBit i =
        (Int.lor (Int.land address 255) 1).testBit i := by
      rw [hv]; rfl
    rw [e, hu, hb, Int.testBit_lor, Int.testBit_land, (e255 i h1 h7).1, (e255 i h1 h7).2]
    simp
  · have hx : uint16 (Int.lor (Int.land (Int.xor address 1) 255) 1) =
        uint16 (Int.lor (Int.land address 255) 1) := by
      have hv2 := lor_land (Int.xor address 1)
      have hd := xor_one_mod address
      unfold uint16
      rw [hv, hv2, hd]
    unfold I2CSlave.address
    exact congrArg (i2c_slave_address d) hx

/-- Witness of `slave_address_marker`: `address(0x50)` programs 0x51. -/
theorem slave_address_marker_witness :
    (I2CSlave.address (dev_slave stm32v2) 0x50).hw.Init.OwnAddress1 < 256 ∧
    (I2CSlave.address (dev_slave stm32v2) 0x50).hw.Init.OwnAddress1 = 81 :=
  ⟨(slave_address_marker (dev_slave stm32v2) 0x50).2.2.2.1, by decide⟩

/-! ## Two-phase asynchronous transfers -/

/-- C24, as stated, fails when a transaction is open.  After a write without
stop the stored frame option is FIRST, and a two-phase transfer sends its
transmit phase with NEXT, not with FIRST. -/
theorem two_phase_tag_counterexample :
    (dev_open stm32v2).obj.XferOperation = stm32v2.I2C_FIRST_FRAME ∧
    (i2c_transfer_async stm32v2 HAL_OK (dev_open stm32v2) 2 4 80 true (some 1)
      (some 1)).1.hw.calls =
        HalCall.MasterTransmit 80 2 stm32v2.I2C_NEXT_FRAME HAL_OK ::
          (dev_open stm32v2).hw.calls ∧
    stm32v2.I2C_NEXT_FRAME ≠ stm32v2.I2C_FIRST_FRAME := by
  decide

/-- C24, amended.  A transfer with both lengths non-zero leaves the stored
frame option as it is and makes at most one request, a transmit of `tx_len`
bytes: with frame option FIRST when the stored option is FIRST_AND_LAST or
LAST, with NEXT when it is FIRST or NEXT (and neither of the former), and no
request at all for any other stored value, in which case it returns `false`.
No receive request is made. -/
theorem two_phase_transmit (t : Target) (status : HAL_StatusTypeDef) (d : Dev)
    (tx_length rx_length address : Nat) (stop : Bool) (handler ctx : Option Nat)
    (htx : tx_length ≠ 0) (hrx : rx_length ≠ 0) :
    (i2c_transfer_async t status d tx_length rx_length address stop handler
      ctx).1.obj.XferOperation = d.obj.XferOperation ∧
    (d.obj.XferOperation = t.I2C_FIRST_AND_LAST_FRAME ∨ d.obj.XferOperation = t.I2C_LAST_FRAME →
      (i2c_transfer_async t status d tx_length rx_length address stop handler ctx).1.hw.calls =
        HalCall.MasterTransmit address tx_length t.I2C_FIRST_FRAME status :: d.hw.calls ∧
      (i2c_transfer_async t status d tx_length rx_length address stop handler ctx).2 =
        (status == HAL_OK)) ∧
    (¬ (d.obj.XferOperation = t.I2C_FIRST_AND_LAST_FRAME ∨
        d.obj.XferOperation = t.I2C_LAST_FRAME) →
      (d.obj.XferOperation = t.I2C_FIRST_FRAME ∨ d.obj.XferOperation = t.I2C_NEXT_FRAME) →
      (i2c_transfer_async t status d tx_length rx_length address stop handler ctx).1.hw.calls =
        HalCall.MasterTransmit address tx_length t.I2C_NEXT_FRAME status :: d.hw.calls ∧
      (i2c_transfer_async t status d tx_length rx_length address stop handler ctx).2 =
        (status == HAL_OK)) ∧
    (¬ (d.obj.XferOperation = t.I2C_FIRST_AND_LAST_FRAME ∨
        d.obj.XferOperation = t.I2C_LAST_FRAME) →
      ¬ (d.obj.XferOperation = t.I2C_FIRST_FRAME ∨ d.obj.XferOperation = t.I2C_NEXT_FRAME) →
      (i2c_transfer_async t status d tx_length rx_length address stop handler ctx).1.hw.calls =
        d.hw.calls ∧
      (i2c_transfer_async t status d tx_length rx_length address stop handler ctx).2 =
        false) := by
  have h1 : ¬ ((tx_length ≠ 0 ∧ rx_length = 0) ∨ (tx_length = 0 ∧ rx_length ≠ 0)) := by
    intro h
    rcases h with h | h
    · exact hrx h.2
    · exact htx h.1
  have h2 : tx_length ≠ 0 ∧ rx_length ≠ 0 := ⟨htx, hrx⟩
  refine ⟨?_, ?_, ?_, ?_⟩
  · unfold i2c_transfer_async
    simp only [if_neg h1]
    split_ifs <;> simp [i2c_ev_err_enable, Dev.call]
  · intro ha
    unfold i2c_transfer_async
    simp [h1, h2, ha, i2c_ev_err_enable, Dev.call]
  · intro ha hb
    unfold i2c_transfer_async
    simp [h1, h2, ha, hb, i2c_ev_err_enable, Dev.call]
  · intro ha hb
    unfold i2c_transfer_async
    simp [h1, h2, ha, hb, i2c_ev_err_enable]

/-- Witness of `two_phase_transmit`: on a fresh master the transmit phase of
a two-phase transfer goes out with FIRST and the stored option stays
FIRST_AND_LAST. -/
theorem two_phase_transmit_witness :
    (i2c_transfer_async stm32v2 HAL_OK (dev_init stm32v2) 2 4 80 true (some 1)
      (some 1)).1.obj.XferOperation = (dev_init stm32v2).obj.XferOperation ∧
    (i2c_transfer_async stm32v2 HAL_OK (dev_init stm32v2) 2 4 80 true (some 1)
      (some 1)).1.hw.calls =
        HalCall.MasterTransmit 80 2 stm32v2.I2C_FIRST_FRAME HAL_OK ::
          (dev_init stm32v2).hw.calls :=
  ⟨(two_phase_transmit stm32v2 HAL_OK (dev_init stm32v2) 2 4 80 true (some 1) (some 1)
      (by decide) (by decide)).1,
    ((two_phase_transmit stm32v2 HAL_OK (dev_init stm32v2) 2 4 80 true (some 1) (some 1)
      (by decide) (by decide)).2.1 (by decide)).1⟩

theorem i2c_transfer_async_request (t : Target) (status : HAL_StatusTypeDef) (d : Dev)
    (tx_length rx_length address : Nat) (stop : Bool) (handler ctx : Option Nat) :
    (i2c_transfer_async t status d tx_length rx_length address stop handler ctx).1.obj.address =
      address ∧
    (i2c_transfer_async t status d tx_length rx_length address stop handler ctx).1.obj.stop =
      stop ∧
    (i2c_transfer_async t status d tx_length rx_length address stop handler ctx).1.obj.event =
      0 := by
  unfold i2c_transfer_async
  simp only []
  split_ifs <;> simp [i2c_ev_err_enable, Dev.call]

theorem MasterTxCplt_chain (t : Target) (status : HAL_StatusTypeDef) (d : Dev)
    (htx : d.obj.tx_buff.length ≠ 0) (hrx : d.obj.rx_buff.length ≠ 0) :
    (HAL_I2C_MasterTxCpltCallback t status d).1.hw.calls =
      HalCall.MasterReceive d.obj.address d.obj.rx_buff.length
        (if d.obj.stop then t.I2C_LAST_FRAME else t.I2C_NEXT_FRAME) status :: d.hw.calls ∧
    (HAL_I2C_MasterTxCpltCallback t status d).1.obj.XferOperation =
      (if d.obj.stop then t.I2C_LAST_FRAME else t.I2C_NEXT_FRAME) ∧
    (HAL_I2C_MasterTxCpltCallback t status d).1.obj.event = d.obj.event ∧
    (HAL_I2C_MasterTxCpltCallback t status d).2 = none ∧
    (HAL_I2C_MasterTxCpltCallback t status d).1.obj.handler = d.obj.handler ∧
    (HAL_I2C_MasterTxCpltCallback t status d).1.obj.tx_complete = 1 := by
  have hp : d.obj.tx_buff.length ≠ 0 ∧ d.obj.rx_buff.length ≠ 0 := ⟨htx, hrx⟩
  refine ⟨?_, ?_, ?_, ?_, ?_, ?_⟩ <;>
    (unfold HAL_I2C_MasterTxCpltCallback; simp [hp, Dev.call])

/-- C25.  On transmit-complete of a request with both lengths non-zero the
callback makes a receive request of `rx_len` bytes to the stored address,
with frame option LAST if stop was requested and NEXT otherwise, and stores
that option in the handle.  The event mask stays 0, as the request left it,
so it is not TRANSFER_COMPLETE; the handler is not invoked and stays
stored. -/
theorem chained_receive (t : Target) (st status : HAL_StatusTypeDef) (d0 : Dev)
    (tx_length rx_length address count : Nat) (stop : Bool) (handler ctx : Option Nat)
    (htx : tx_length ≠ 0) (hrx : rx_length ≠ 0) :
    ((Irq.MasterTxCplt count status).deliver t
      (i2c_transfer_async t st d0 tx_length rx_length address stop handler ctx).1).1.hw.calls =
        HalCall.MasterReceive address rx_length
          (if stop then t.I2C_LAST_FRAME else t.I2C_NEXT_FRAME) status ::
          (i2c_transfer_async t st d0 tx_length rx_length address stop handler ctx).1.hw.calls ∧
    ((Irq.MasterTxCplt count status).deliver t
      (i2c_transfer_async t st d0 tx_length rx_length address stop handler
        ctx).1).1.obj.XferOperation = (if stop then t.I2C_LAST_FRAME else t.I2C_NEXT_FRAME) ∧
    ((Irq.MasterTxCplt count status).deliver t
      (i2c_transfer_async t st d0 tx_length rx_length address stop handler
        ctx).1).1.obj.event = 0 ∧
    ((Irq.MasterTxCplt count status).deliver t
      (i2c_transfer_async t st d0 tx_length rx_length address stop handler
        ctx).1).1.obj.event ≠ I2C_EVENT_TRANSFER_COMPLETE ∧
    ((Irq.MasterTxCplt count status).deliver t
      (i2c_transfer_async t st d0 tx_length rx_length address stop handler ctx).1).2 = none ∧
    ((Irq.MasterTxCplt count status).deliver t
      (i2c_transfer_async t st d0 tx_length rx_length address stop handler
        ctx).1).1.obj.handler = handler := by
  have hs := i2c_transfer_async_stored t st d0 tx_length rx_length address stop handler ctx
  have hq := i2c_transfer_async_request t st d0 tx_length rx_length address stop handler ctx
  have hc := MasterTxCplt_chain t status
    { (i2c_transfer_async t st d0 tx_length rx_length address stop handler ctx).1 with
      obj := { (i2c_transfer_async t st d0 tx_length rx_length address stop handler ctx).1.obj
        with XferCount := count } }
    (by rw [show _ = tx_length from hs.2.2.1]; exact htx)
    (by rw [show _ = rx_length from hs.2.2.2]; exact hrx)
  have e0 : ((Irq.MasterTxCplt count status).deliver t
      (i2c_transfer_async t st d0 tx_length rx_length address stop handler ctx).1).1.obj.event =
      0 := hc.2.2.1.trans hq.2.2
  refine ⟨?_, ?_, e0, ?_, hc.2.2.2.1, hc.2.2.2.2.1.trans hs.1⟩
  · refine hc.1.trans ?_
    simp only []
    rw [hq.1, hq.2.1, hs.2.2.2]
  · refine hc.2.1.trans ?_
    simp only []
    rw [hq.2.1]
  · rw [e0]; decide

/-- Witness of `chained_receive`: 2 bytes out and 4 bytes in with stop; the
receive of 4 bytes is chained with LAST. -/
theorem chained_receive_witness :
    ((Irq.MasterTxCplt 0 HAL_OK).deliver stm32v2
      (i2c_transfer_async stm32v2 HAL_OK (dev_init stm32v2) 2 4 80 true (some 1)
        (some 1)).1).1.obj.XferOperation =
      (if true then stm32v2.I2C_LAST_FRAME else stm32v2.I2C_NEXT_FRAME) :=
  (chained_receive stm32v2 HAL_OK HAL_OK (dev_init stm32v2) 2 4 80 0 true (some 1) (some 1)
    (by decide) (by decide)).2.1

/-! ## Error recovery of a slave -/

theorem i2c_init_own_address (t : Target) (d : Dev) (sda scl : Nat) (is_slave : Bool) :
    (i2c_init t d sda scl is_slave).hw.Init.OwnAddress1 = 0 ∧
    (i2c_init t d sda scl is_slave).hw.listen = is_slave := by
  unfold i2c_init i2c_frequency
  cases is_slave <;> by_cases hz : d.obj.hz = 0 <;>
    simp [HAL_I2C_EnableListen_IT, HAL_I2C_DisableListen_IT, hz, i2c_hw_reset, Dev.call,
      HAL_I2C_Init]

theorem error_reinit_slave (t : Target) (d : Dev) (hs : d.obj.slave ≠ 0)
    (ha : d.obj.Init.OwnAddress1 % 2 ^ 16 ≠ 0) :
    error_reinit t d =
      { i2c_slave_address
          { i2c_init t d d.obj.sda d.obj.scl true with
            obj := { (i2c_init t d d.obj.sda d.obj.scl true).obj with slave := 1 } }
          (d.obj.Init.OwnAddress1 % 2 ^ 16) with
        obj := { (i2c_slave_address
          { i2c_init t d d.obj.sda d.obj.scl true with
            obj := { (i2c_init t d d.obj.sda d.obj.scl true).obj with slave := 1 } }
          (d.obj.Init.OwnAddress1 % 2 ^ 16)).obj with event := I2C_EVENT_ERROR } } := by
  have hb : (d.obj.slave != 0) = true := by simpa using hs
  unfold error_reinit
  simp only [hs, ha, hb, ne_eq, not_false_eq_true, if_true]

theorem error_reinit_master (t : Target) (d : Dev)
    (h : d.obj.slave = 0 ∨ d.obj.Init.OwnAddress1 % 2 ^ 16 = 0) :
    error_reinit t d =
      { i2c_init t d d.obj.sda d.obj.scl (d.obj.slave != 0) with
        obj := { (i2c_init t d d.obj.sda d.obj.scl (d.obj.slave != 0)).obj with
          event := I2C_EVENT_ERROR } } := by
  have ha : ¬ ((if d.obj.slave ≠ 0 then d.obj.Init.OwnAddress1 % 2 ^ 16 else 0) ≠ 0) := by
    rcases h with h | h
    · simp [h]
    · by_cases hs : d.obj.slave = 0
      · simp [hs]
      · rw [if_pos hs]; exact fun hn => hn h
  unfold error_reinit
  simp only [if_neg ha]

/-- The device that `HAL_I2C_ErrorCallback` leaves is `error_reinit`, up to
the handler reference it clears. -/
theorem HAL_I2C_ErrorCallback_dev (t : Target) (d : Dev) :
    (HAL_I2C_ErrorCallback t d).1.hw = (error_reinit t d).hw ∧
    (HAL_I2C_ErrorCallback t d).1.obj.Init = (error_reinit t d).obj.Init ∧
    (HAL_I2C_ErrorCallback t d).1.obj.slave = (error_reinit t d).obj.slave ∧
    (HAL_I2C_ErrorCallback t d).1.obj.event = (error_reinit t d).obj.event ∧
    (HAL_I2C_ErrorCallback t d).1.obj.XferOperation = (error_reinit t d).obj.XferOperation ∧
    (HAL_I2C_ErrorCallback t d).1.obj.timeout = (error_reinit t d).obj.timeout ∧
    (HAL_I2C_ErrorCallback t d).1.obj.hz = (error_reinit t d).obj.hz := by
  rw [HAL_I2C_ErrorCallback_eq]
  cases (error_reinit t d).obj.handler <;> simp

/-- C26.  `HAL_I2C_ErrorCallback` on a slave whose own address `a` is not 0:
the device has gone through `i2c_init`, after which the address is
programmed again, so the handle is in slave mode, the own address is `a` in
the handle and in the peripheral, the peripheral listens, and the event mask
is ERROR.  On a master, or with own address 0, the peripheral is as `i2c_init`
leaves it, with own address 0: no address is programmed. -/
theorem error_keeps_slave_address (t : Target) (d : Dev) :
    (d.obj.slave ≠ 0 → d.obj.Init.OwnAddress1 ≠ 0 → d.obj.Init.OwnAddress1 < 2 ^ 16 →
      (HAL_I2C_ErrorCallback t d).1.hw.Init.OwnAddress1 = d.obj.Init.OwnAddress1 ∧
      (HAL_I2C_ErrorCallback t d).1.obj.Init.OwnAddress1 = d.obj.Init.OwnAddress1 ∧
      (HAL_I2C_ErrorCallback t d).1.obj.slave = 1 ∧
      (HAL_I2C_ErrorCallback t d).1.hw.listen = true ∧
      (HAL_I2C_ErrorCallback t d).1.obj.event = I2C_EVENT_ERROR ∧
      (HAL_I2C_ErrorCallback t d).1.obj.XferOperation = t.I2C_FIRST_AND_LAST_FRAME ∧
      (HAL_I2C_ErrorCallback t d).1.obj.timeout = UINT32_MAX ∧
      (HAL_I2C_ErrorCallback t d).1.hw.calls =
        HalCall.EnableListen :: HalCall.Init (HAL_I2C_ErrorCallback t d).1.hw.Init ::
          (i2c_init t d d.obj.sda d.obj.scl true).hw.calls) ∧
    (d.obj.slave = 0 ∨ d.obj.Init.OwnAddress1 % 2 ^ 16 = 0 →
      (HAL_I2C_ErrorCallback t d).1.hw =
        (i2c_init t d d.obj.sda d.obj.scl (d.obj.slave != 0)).hw ∧
      (HAL_I2C_ErrorCallback t d).1.hw.Init.OwnAddress1 = 0 ∧
      (HAL_I2C_ErrorCallback t d).1.obj.slave = (if d.obj.slave ≠ 0 then 1 else 0) ∧
      (HAL_I2C_ErrorCallback t d).1.obj.event = I2C_EVENT_ERROR) := by
  have hd := HAL_I2C_ErrorCallback_dev t d
  constructor
  · intro hs h0 hlt
    have hmod : d.obj.Init.OwnAddress1 % 2 ^ 16 = d.obj.Init.OwnAddress1 :=
      Nat.mod_eq_of_lt hlt
    have e := error_reinit_slave t d hs (by rw [hmod]; exact h0)
    have hi := i2c_init_obj t d d.obj.sda d.obj.scl true
    rw [hd.1, hd.2.1, hd.2.2.1, hd.2.2.2.1, hd.2.2.2.2.1, hd.2.2.2.2.2.1, e, hmod]
    simp [i2c_slave_address, HAL_I2C_EnableListen_IT, i2c_ev_err_enable, HAL_I2C_Init, hi.1,
      hi.2.2.2.2.2.1]
  · intro h
    have e := error_reinit_master t d h
    have hi := i2c_init_obj t d d.obj.sda d.obj.scl (d.obj.slave != 0)
    have ho := i2c_init_own_address t d d.obj.sda d.obj.scl (d.obj.slave != 0)
    rw [hd.1, hd.2.2.1, hd.2.2.2.1, e]
    refine ⟨rfl, ho.1, ?_, rfl⟩
    simp only []
    rw [hi.2.2.2.2.2.2]
    by_cases hs : d.obj.slave = 0 <;> simp [hs]

/-- Witness of `error_keeps_slave_address`: a slave with own address 0x51. -/
theorem error_keeps_slave_address_witness :
    (dev_slave_addressed stm32v2).obj.Init.OwnAddress1 = 81 ∧
    (HAL_I2C_ErrorCallback stm32v2 (dev_slave_addressed stm32v2)).1.hw.Init.OwnAddress1 =
      (dev_slave_addressed stm32v2).obj.Init.OwnAddress1 :=
  ⟨by decide,
    ((error_keeps_slave_address stm32v2 (dev_slave_addressed stm32v2)).1 (by decide)
      (by decide) (by decide)).1⟩

/-! ## Bus recovery: the drive sequence -/

/-- C27.  When SCL reads high and SDA reads low at first, `I2C::recover`
switches SCL to output and drives 10 clock pulses, each of them SCL low, 5
microseconds, pull-up and SCL high, 5 microseconds; then the STOP: SDA low,
SCL high, SDA high in that order, each followed by 5 microseconds; then both
lines are switched back to input and read again, SCL first.  No other wait
than 5 microseconds occurs. -/
theorem recover_drive_sequence (sda_read scl_read : Nat → Bool)
    (h1 : scl_read 1 = true) (h2 : sda_read 1 = false) :
    (I2C.recover sda_read scl_read).2 =
      [PinOp.init Line.SDA PinMode.PullNone 1, PinOp.init Line.SCL PinMode.PullNone 1,
        PinOp.read Line.SCL true, PinOp.read Line.SDA false,
        PinOp.mode Line.SCL PinMode.PullNone, PinOp.output Line.SCL] ++
      (List.replicate 10
        [PinOp.mode Line.SCL PinMode.PullNone, PinOp.write Line.SCL 0, PinOp.wait_us 5,
          PinOp.mode Line.SCL PinMode.PullUp, PinOp.write Line.SCL 1, PinOp.wait_us 5]).flatten ++
      [PinOp.output Line.SDA, PinOp.write Line.SDA 0, PinOp.wait_us 5,
        PinOp.write Line.SCL 1, PinOp.wait_us 5, PinOp.write Line.SDA 1, PinOp.wait_us 5] ++
      [PinOp.input Line.SDA, PinOp.input Line.SCL, PinOp.read Line.SCL (scl_read 2)] ++
      (if scl_read 2 = true then [PinOp.read Line.SDA (sda_read 2)] else []) ∧
    scl_pulses (I2C.recover sda_read scl_read).2 ≤ 10 ∧
    (∀ n, PinOp.wait_us n ∈ (I2C.recover sda_read scl_read).2 → n = 5) := by
  refine ⟨?_, ?_, ?_⟩
  · cases h3 : scl_read 2 <;> cases h4 : sda_read 2 <;>
      simp [I2C.recover, h1, h2, h3, h4] <;> decide
  · cases h3 : scl_read 2 <;> cases h4 : sda_read 2 <;>
      simp [I2C.recover, h1, h2, h3, h4] <;> decide
  · intro n hn
    cases h3 : scl_read 2 <;> cases h4 : sda_read 2 <;>
      simp [I2C.recover, h1, h2, h3, h4, clock_pulses, clock_pulse, stop_sequence] at hn <;>
      exact hn

/-- Witness of `recover_drive_sequence`: SDA stuck low, SCL free. -/
theorem recover_drive_sequence_witness :
    scl_pulses (I2C.recover (fun _ => false) always_high).2 ≤ 10 :=
  (recover_drive_sequence (fun _ => false) always_high rfl rfl).2.1

/-! ## Sequencer along a sequence of segments -/

theorem Segment_request_tag (t : Target) (d : Dev) (s : Segment) :
    (s.request t d).obj.XferOperation = next_XferOperation t d.obj.XferOperation s.stop := by
  unfold Segment.request
  split_ifs
  · exact (i2c_write_request_tag t HAL_OK d s.address s.length s.stop).1
  · exact (i2c_read_request_tag t HAL_OK d s.address s.length s.stop).1

theorem issue_segments_tags (t : Target) (hsep : t.separated) (segs : List Segment) :
    ∀ (d : Dev) (prev : Bool),
      (prev = true → d.obj.XferOperation = t.I2C_FIRST_AND_LAST_FRAME ∨
        d.obj.XferOperation = t.I2C_LAST_FRAME) →
      (prev = false → d.obj.XferOperation = t.I2C_FIRST_FRAME ∨
        d.obj.XferOperation = t.I2C_NEXT_FRAME) →
      (issue_segments t d segs).2 = spec_tags t prev (segs.map (fun s => s.stop)) := by
  induction segs with
  | nil => intro d prev _ _; rfl
  | cons s rest ih =>
    intro d prev h1 h2
    have ht := Segment_request_tag t d s
    have e : (s.request t d).obj.XferOperation = spec_tag t prev s.stop := by
      rw [ht]
      cases prev
      · rw [next_XferOperation_continue t hsep _ _ (h2 rfl)]
        cases s.stop <;> rfl
      · rw [next_XferOperation_open t _ _ (h1 rfl)]
        cases s.stop <;> rfl
    have hr := ih (s.request t d) s.stop
      (by
        intro hs; rw [e, hs]
        cases prev
        · exact Or.inr rfl
        · exact Or.inl rfl)
      (by
        intro hs; rw [e, hs]
        cases prev
        · exact Or.inr rfl
        · exact Or.inl rfl)
    simp only [issue_segments, List.map_cons, spec_tags, e, hr]

theorem spec_tags_getD (t : Target) (stops : List Bool) :
    ∀ (prev : Bool) (k : Nat), k < stops.length →
      (spec_tags t prev stops).getD k 0 =
        spec_tag t ((prev :: stops).getD k true) (stops.getD k true) := by
  induction stops with
  | nil => intro prev k hk; simp at hk
  | cons s rest ih =>
    intro prev k hk
    cases k with
    | zero => simp [spec_tags]
    | succ k =>
      have h := ih s k (by simpa using hk)
      simpa [spec_tags] using h

/-- C28.  Let segments with stop flags `s_1 .. s_n` be requested one after
the other on a master whose stored frame option is FIRST_AND_LAST, as
`i2c_init` leaves it, with no reinitialisation between them, and let the
frame options that continue a transaction differ from those that open one.
Then the option of segment `k` is the entry of the table for `(s_(k-1), s_k)`
with `s_0 = true`.  So every option is one of the four values, an option that
emits a STOP (FIRST_AND_LAST or LAST) is used exactly when `s_k` is true, and,
when the four values are all different, FIRST_AND_LAST or FIRST is used
exactly when the segment before has emitted a STOP or there is none. -/
theorem sequencer_trace (t : Target) (hsep : t.separated) (d : Dev) (segs : List Segment)
    (h0 : d.obj.XferOperation = t.I2C_FIRST_AND_LAST_FRAME) :
    (issue_segments t d segs).2 = spec_tags t true (segs.map (fun s => s.stop)) ∧
    (∀ k, k < segs.length →
      (issue_segments t d segs).2.getD k 0 =
        spec_tag t ((true :: segs.map (fun s => s.stop)).getD k true)
          ((segs.map (fun s => s.stop)).getD k true)) ∧
    (∀ k, k < segs.length →
      (issue_segments t d segs).2.getD k 0 = t.I2C_FIRST_AND_LAST_FRAME ∨
      (issue_segments t d segs).2.getD k 0 = t.I2C_FIRST_FRAME ∨
      (issue_segments t d segs).2.getD k 0 = t.I2C_NEXT_FRAME ∨
      (issue_segments t d segs).2.getD k 0 = t.I2C_LAST_FRAME) ∧
    (∀ k, k < segs.length →
      (((issue_segments t d segs).2.getD k 0 = t.I2C_FIRST_AND_LAST_FRAME ∨
        (issue_segments t d segs).2.getD k 0 = t.I2C_LAST_FRAME) ↔
        (segs.map (fun s => s.stop)).getD k true = true)) ∧
    (t.I2C_FIRST_AND_LAST_FRAME ≠ t.I2C_LAST_FRAME → t.I2C_FIRST_FRAME ≠ t.I2C_NEXT_FRAME →
      ∀ k, k < segs.length →
        (((issue_segments t d segs).2.getD k 0 = t.I2C_FIRST_AND_LAST_FRAME ∨
          (issue_segments t d segs).2.getD k 0 = t.I2C_FIRST_FRAME) ↔
          (true :: segs.map (fun s => s.stop)).getD k true = true)) := by
  have he := issue_segments_tags t hsep segs d true (fun _ => Or.inl h0)
    (fun h => absurd h (by decide))
  have hk : ∀ k, k < segs.length →
      (issue_segments t d segs).2.getD k 0 =
        spec_tag t ((true :: segs.map (fun s => s.stop)).getD k true)
          ((segs.map (fun s => s.stop)).getD k true) := by
    intro k hk
    rw [he]
    exact spec_tags_getD t _ true k (by simpa using hk)
  obtain ⟨s1, s2, s3, s4⟩ := hsep
  refine ⟨he, hk, ?_, ?_, ?_⟩
  · intro k h
    rw [hk k h]
    cases (true :: segs.map (fun s => s.stop)).getD k true <;>
      cases (segs.map (fun s => s.stop)).getD k true <;> simp [spec_tag]
  · intro k h
    rw [hk k h]
    cases (true :: segs.map (fun s => s.stop)).getD k true <;>
      cases (segs.map (fun s => s.stop)).getD k true <;>
      simp [spec_tag, s1, s2, s3, s4]
  · intro d1 d2 k h
    rw [hk k h]
    cases (true :: segs.map (fun s => s.stop)).getD k true <;>
      cases (segs.map (fun s => s.stop)).getD k true <;>
      simp [spec_tag, s1, s2, s3, s4, d1, d2, Ne.symm d1, Ne.symm d2, Ne.symm s2, Ne.symm s3]

/-- Witness of `sequencer_trace`: write without stop, read without stop,
read with stop, write with stop give FIRST, NEXT, LAST, FIRST_AND_LAST. -/
theorem sequencer_trace_witness :
    (issue_segments stm32v2 (dev_init stm32v2)
      [⟨true, 80, 1, false⟩, ⟨false, 80, 2, false⟩, ⟨false, 80, 2, true⟩,
        ⟨true, 80, 1, true⟩]).2 =
      spec_tags stm32v2 true
        ([⟨true, 80, 1, false⟩, ⟨false, 80, 2, false⟩, ⟨false, 80, 2, true⟩,
          (⟨true, 80, 1, true⟩ : Segment)].map (fun s => s.stop)) ∧
    spec_tags stm32v2 true [false, false, true, true] = [1, 4, 32, 8] :=
  ⟨(sequencer_trace stm32v2 (by decide) (dev_init stm32v2)
      [⟨true, 80, 1, false⟩, ⟨false, 80, 2, false⟩, ⟨false, 80, 2, true⟩,
        ⟨true, 80, 1, true⟩] (by decide)).1, by decide⟩

/-! ## Slave status along a sequence of interrupts -/

theorem open_match_cons (set clear ev : SlaveIrq) (rest : List SlaveIrq) :
    open_match set clear (ev :: rest) ↔
      open_match set clear rest ∨ (ev = set ∧ clear ∉ rest) := by
  constructor
  · rintro ⟨pre, post, he, hc⟩
    cases pre with
    | nil =>
      simp only [List.nil_append, List.cons.injEq] at he
      right
      exact ⟨he.1, by rw [he.2]; exact hc⟩
    | cons p pre =>
      simp only [List.cons_append, List.cons.injEq] at he
      left
      exact ⟨pre, post, he.2, hc⟩
  · rintro (⟨pre, post, he, hc⟩ | ⟨he, hc⟩)
    · exact ⟨ev :: pre, post, by rw [he]; rfl, hc⟩
    · exact ⟨[], rest, by rw [he]; rfl, hc⟩

theorem SlaveIrq_deliver_flags (irq : SlaveIrq) (d : Dev) :
    ((irq.deliver d).obj.pending_slave_tx_master_rx ≠ 0 ↔
      irq = SlaveIrq.Addr TransferDirection.I2C_DIRECTION_RECEIVE ∨
        (d.obj.pending_slave_tx_master_rx ≠ 0 ∧ irq ≠ SlaveIrq.SlaveTxCplt)) ∧
    ((irq.deliver d).obj.pending_slave_rx_maxter_tx ≠ 0 ↔
      irq = SlaveIrq.Addr TransferDirection.I2C_DIRECTION_TRANSMIT ∨
        (d.obj.pending_slave_rx_maxter_tx ≠ 0 ∧ irq ≠ SlaveIrq.SlaveRxCplt)) := by
  cases irq with
  | Addr dir =>
    cases dir <;> simp [SlaveIrq.deliver, HAL_I2C_AddrCallback]
  | SlaveTxCplt => simp [SlaveIrq.deliver, HAL_I2C_SlaveTxCpltCallback]
  | SlaveRxCplt => simp [SlaveIrq.deliver, HAL_I2C_SlaveRxCpltCallback]

theorem SlaveIrq_deliver_all_flags (evs : List SlaveIrq) :
    ∀ d : Dev,
      ((SlaveIrq.deliver_all evs d).obj.pending_slave_tx_master_rx ≠ 0 ↔
        open_match (SlaveIrq.Addr TransferDirection.I2C_DIRECTION_RECEIVE)
          SlaveIrq.SlaveTxCplt evs ∨
        (d.obj.pending_slave_tx_master_rx ≠ 0 ∧ SlaveIrq.SlaveTxCplt ∉ evs)) ∧
      ((SlaveIrq.deliver_all evs d).obj.pending_slave_rx_maxter_tx ≠ 0 ↔
        open_match (SlaveIrq.Addr TransferDirection.I2C_DIRECTION_TRANSMIT)
          SlaveIrq.SlaveRxCplt evs ∨
        (d.obj.pending_slave_rx_maxter_tx ≠ 0 ∧ SlaveIrq.SlaveRxCplt ∉ evs)) := by
  induction evs with
  | nil =>
    intro d
    have hn : ∀ a b : SlaveIrq, ¬ open_match a b [] := by
      rintro a b ⟨pre, post, he, _⟩
      cases pre <;> simp at he
    simp [SlaveIrq.deliver_all, hn]
  | cons ev rest ih =>
    intro d
    have h := ih (ev.deliver d)
    have hf := SlaveIrq_deliver_flags ev d
    simp only [SlaveIrq.deliver_all]
    rw [h.1, h.2, hf.1, hf.2, open_match_cons, open_match_cons]
    constructor
    · constructor
      · rintro (h1 | ⟨h1 | ⟨h1, h2⟩, h3⟩)
        · exact Or.inl (Or.inl h1)
        · exact Or.inl (Or.inr ⟨h1, h3⟩)
        · exact Or.inr ⟨h1, by
            intro hm
            rcases List.mem_cons.mp hm with hm | hm
            · exact h2 hm.symm
            · exact h3 hm⟩
      · rintro ((h1 | ⟨h1, h3⟩) | ⟨h1, h2⟩)
        · exact Or.inl h1
        · exact Or.inr ⟨Or.inl h1, h3⟩
        · exact Or.inr ⟨Or.inr ⟨h1, fun he => h2 (by rw [he]; exact List.mem_cons_self _ _)⟩,
            fun hm => h2 (List.mem_cons_of_mem _ hm)⟩
    · constructor
      · rintro (h1 | ⟨h1 | ⟨h1, h2⟩, h3⟩)
        · exact Or.inl (Or.inl h1)
        · exact Or.inl (Or.inr ⟨h1, h3⟩)
        · exact Or.inr ⟨h1, by
            intro hm
            rcases List.mem_cons.mp hm with hm | hm
            · exact h2 hm.symm
            · exact h3 hm⟩
      · rintro ((h1 | ⟨h1, h3⟩) | ⟨h1, h2⟩)
        · exact Or.inl h1
        · exact Or.inr ⟨Or.inl h1, h3⟩
        · exact Or.inr ⟨Or.inr ⟨h1, fun he => h2 (by rw [he]; exact List.mem_cons_self _ _)⟩,
            fun hm => h2 (List.mem_cons_of_mem _ hm)⟩

theorem i2c_slave_status_cases (d : Dev) :
    (i2c_slave_status d = i2c_slave_status_t.ReadAddressed ↔
      d.obj.pending_slave_tx_master_rx ≠ 0) ∧
    (i2c_slave_status d = i2c_slave_status_t.WriteAddressed ↔
      d.obj.pending_slave_rx_maxter_tx ≠ 0 ∧ d.obj.pending_slave_tx_master_rx = 0) ∧
    (i2c_slave_status d = i2c_slave_status_t.Idle ↔
      d.obj.pending_slave_tx_master_rx = 0 ∧ d.obj.pending_slave_rx_maxter_tx = 0) ∧
    i2c_slave_status d ≠ i2c_slave_status_t.WriteGeneral := by
  unfold i2c_slave_status
  by_cases a : d.obj.pending_slave_rx_maxter_tx = 0 <;>
    by_cases c : d.obj.pending_slave_tx_master_rx = 0 <;> simp [a, c]

/-- C21, as stated, fails for the write direction.  A slave is addressed
for a write and then for a read: no receive-complete interrupt has occurred,
yet the status is ReadAddressed, not WriteAddressed.  In the other order the
address match for a write does not make the status WriteAddressed either. -/
theorem slave_status_trace_counterexample :
    i2c_slave_status (SlaveIrq.deliver_all
      [SlaveIrq.Addr TransferDirection.I2C_DIRECTION_TRANSMIT] (dev_slave stm32v2)) =
        i2c_slave_status_t.WriteAddressed ∧
    SlaveIrq.SlaveRxCplt ∉
      [SlaveIrq.Addr TransferDirection.I2C_DIRECTION_TRANSMIT,
        SlaveIrq.Addr TransferDirection.I2C_DIRECTION_RECEIVE] ∧
    i2c_slave_status (SlaveIrq.deliver_all
      [SlaveIrq.Addr TransferDirection.I2C_DIRECTION_TRANSMIT,
        SlaveIrq.Addr TransferDirection.I2C_DIRECTION_RECEIVE] (dev_slave stm32v2)) =
        i2c_slave_status_t.ReadAddressed ∧
    i2c_slave_status (SlaveIrq.deliver_all
      [SlaveIrq.Addr TransferDirection.I2C_DIRECTION_RECEIVE,
        SlaveIrq.Addr TransferDirection.I2C_DIRECTION_TRANSMIT] (dev_slave stm32v2)) ≠
        i2c_slave_status_t.WriteAddressed := by
  decide

/-- C21, amended.  After `i2c_init` the status is Idle.  After any sequence
of address-match and completion interrupts, the status is ReadAddressed
exactly when an address match for a master read has occurred with no
transmit-complete interrupt after it; it is WriteAddressed exactly when an
address match for a master write has occurred with no receive-complete
interrupt after it and no match for a read is open in that way; it is Idle
exactly when both flags are clear; it is never WriteGeneral.  A completion
interrupt clears its own flag and leaves the other one. -/
theorem slave_status_trace (t : Target) (d0 : Dev) (sda scl : Nat) (is_slave : Bool)
    (evs : List SlaveIrq) :
    i2c_slave_status (i2c_init t d0 sda scl is_slave) = i2c_slave_status_t.Idle ∧
    (i2c_slave_status (SlaveIrq.deliver_all evs (i2c_init t d0 sda scl is_slave)) =
        i2c_slave_status_t.ReadAddressed ↔
      open_match (SlaveIrq.Addr TransferDirection.I2C_DIRECTION_RECEIVE)
        SlaveIrq.SlaveTxCplt evs) ∧
    (i2c_slave_status (SlaveIrq.deliver_all evs (i2c_init t d0 sda scl is_slave)) =
        i2c_slave_status_t.WriteAddressed ↔
      open_match (SlaveIrq.Addr TransferDirection.I2C_DIRECTION_TRANSMIT)
        SlaveIrq.SlaveRxCplt evs ∧
      ¬ open_match (SlaveIrq.Addr TransferDirection.I2C_DIRECTION_RECEIVE)
        SlaveIrq.SlaveTxCplt evs) ∧
    (i2c_slave_status (SlaveIrq.deliver_all evs (i2c_init t d0 sda scl is_slave)) =
        i2c_slave_status_t.Idle ↔
      (SlaveIrq.deliver_all evs (i2c_init t d0 sda scl is_slave)).obj.pending_slave_tx_master_rx
          = 0 ∧
      (SlaveIrq.deliver_all evs (i2c_init t d0 sda scl is_slave)).obj.pending_slave_rx_maxter_tx
          = 0) ∧
    i2c_slave_status (SlaveIrq.deliver_all evs (i2c_init t d0 sda scl is_slave)) ≠
      i2c_slave_status_t.WriteGeneral ∧
    (∀ d : Dev,
      (HAL_I2C_SlaveTxCpltCallback d).obj.pending_slave_tx_master_rx = 0 ∧
      (HAL_I2C_SlaveTxCpltCallback d).obj.pending_slave_rx_maxter_tx =
        d.obj.pending_slave_rx_maxter_tx ∧
      (HAL_I2C_SlaveRxCpltCallback d).obj.pending_slave_rx_maxter_tx = 0 ∧
      (HAL_I2C_SlaveRxCpltCallback d).obj.pending_slave_tx_master_rx =
        d.obj.pending_slave_tx_master_rx) := by
  have hi := i2c_init_obj t d0 sda scl is_slave
  have hf := SlaveIrq_deliver_all_flags evs (i2c_init t d0 sda scl is_slave)
  have hc := i2c_slave_status_cases
    (SlaveIrq.deliver_all evs (i2c_init t d0 sda scl is_slave))
  have h1 : (SlaveIrq.deliver_all evs
      (i2c_init t d0 sda scl is_slave)).obj.pending_slave_tx_master_rx ≠ 0 ↔
      open_match (SlaveIrq.Addr TransferDirection.I2C_DIRECTION_RECEIVE)
        SlaveIrq.SlaveTxCplt evs := by
    rw [hf.1, hi.2.2.1]; simp
  have h2 : (SlaveIrq.deliver_all evs
      (i2c_init t d0 sda scl is_slave)).obj.pending_slave_rx_maxter_tx ≠ 0 ↔
      open_match (SlaveIrq.Addr TransferDirection.I2C_DIRECTION_TRANSMIT)
        SlaveIrq.SlaveRxCplt evs := by
    rw [hf.2, hi.2.2.2.1]; simp
  refine ⟨?_, hc.1.trans h1, ?_, hc.2.2.1, hc.2.2.2, ?_⟩
  · exact (i2c_slave_status_cases _).2.2.1.mpr ⟨hi.2.2.1, hi.2.2.2.1⟩
  · rw [hc.2.1, h2, ← h1]
    simp
  · intro d
    simp [HAL_I2C_SlaveTxCpltCallback, HAL_I2C_SlaveRxCpltCallback]

/-- Witness of `slave_status_trace`: a read is served and completed, then
the slave is addressed for a write. -/
theorem slave_status_trace_witness :
    i2c_slave_status (SlaveIrq.deliver_all
      [SlaveIrq.Addr TransferDirection.I2C_DIRECTION_RECEIVE, SlaveIrq.SlaveTxCplt,
        SlaveIrq.Addr TransferDirection.I2C_DIRECTION_TRANSMIT]
      (i2c_init stm32v2 ⟨i2c_t.zero, Periph.reset⟩ 0 1 true)) ≠
        i2c_slave_status_t.WriteGeneral :=
  (slave_status_trace stm32v2 ⟨i2c_t.zero, Periph.reset⟩ 0 1 true
    [SlaveIrq.Addr TransferDirection.I2C_DIRECTION_RECEIVE, SlaveIrq.SlaveTxCplt,
      SlaveIrq.Addr TransferDirection.I2C_DIRECTION_TRANSMIT]).2.2.2.2.1

/-! ## Slave transfers: budget and result -/

/-- The polling loop is left with the counter at zero or with the condition
false. -/
theorem wait_while_exit (pending : i2c_t → Bool) (env : Nat → Dev → Dev) :
    ∀ (n : Nat) (d : Dev) (timeout k waits : Nat), dec32 timeout = n →
      (wait_while pending env d timeout k waits).timeout = 0 ∨
      pending (wait_while pending env d timeout k waits).dev.obj = false := by
  intro n
  induction n using Nat.strong_induction_on with
  | _ n ih =>
    intro d timeout k waits hn
    rw [wait_while_eq]
    by_cases hp : pending (env k d).obj = true
    · simp only [hp, if_true]
      by_cases h0 : dec32 timeout = 0
      · simp [h0]
      · simp only [h0, if_false]
        have hd2 := dec32_dec32 timeout h0
        exact ih (dec32 timeout - 1) (by omega) (env k d)
          (dec32 timeout) (k + 1) (waits + 1) (by omega)
    · simp only [hp]
      right
      simpa using hp

theorem i2c_slave_read_never (t : Target) (env : Nat → Dev → Dev) (d : Dev) (length : Nat)
    (henv : ∀ k d, (d.obj.pending_slave_rx_maxter_tx != 0) = true →
      ((env k d).obj.pending_slave_rx_maxter_tx != 0) = true)
    (h1 : (d.obj.pending_slave_rx_maxter_tx != 0) = true) :
    (i2c_slave_read t env HAL_OK d length).waits = dec32 (slave_timeout d.obj length) := by
  have h := wait_while_never (fun o => o.pending_slave_rx_maxter_tx != 0) env
    (fun d => (d.obj.pending_slave_rx_maxter_tx != 0) = true) henv (fun _ hd => hd) _
    (d.call (HalCall.SlaveReceive length t.I2C_NEXT_FRAME HAL_OK))
    (slave_timeout d.obj length) 0 0 rfl h1
  have h2 := h.2.1
  unfold i2c_slave_read
  simp only [if_true]
  exact h2.trans (by omega)

/-- C22 does not hold: the default budget of a slave transfer leaves out the
addressing stage.  A slave at 100 kHz with the default timeout is addressed
for a write and reads 2 bytes that the master never sends.  `i2c_read` takes
its slave branch, whose budget is 2 * 300 = 600, and gives up after 599
waits.  The formula of the synchronous engine, which the master branch of
the same function applies and the header states for `i2c_read` and
`i2c_write`, gives (2 + 1) * 300 = 900. -/
theorem slave_budget_omits_addressing_stage :
    (dev_slave_rx stm32v2).obj.slave = 1 ∧
    (dev_slave_rx stm32v2).obj.timeout = UINT32_MAX ∧
    BYTE_TIMEOUT_US (dev_slave_rx stm32v2).obj = 300 ∧
    slave_timeout (dev_slave_rx stm32v2).obj 2 = 600 ∧
    slave_timeout (dev_slave_rx stm32v2).obj 2 ≠ (2 + 1) * 300 ∧
    master_timeout (dev_slave_rx stm32v2).obj 2 = (2 + 1) * 300 ∧
    master_timeout (dev_init stm32v2).obj 2 = (2 + 1) * 300 ∧
    i2c_read stm32v2 env_idle HAL_OK (dev_slave_rx stm32v2) 0 2 false =
      i2c_slave_read stm32v2 env_idle HAL_OK (dev_slave_rx stm32v2) 2 ∧
    (i2c_slave_read stm32v2 env_idle HAL_OK (dev_slave_rx stm32v2) 2).waits = 599 := by
  have hw := i2c_slave_read_never stm32v2 env_idle (dev_slave_rx stm32v2) 2 (fun _ _ h => h)
    (by decide)
  have hb : slave_timeout (dev_slave_rx stm32v2).obj 2 = 600 := by decide
  have hd : dec32 600 = 599 := by decide
  rw [hb, hd] at hw
  refine ⟨by decide, by decide, by decide, hb, by decide, by decide, by decide, ?_, hw⟩
  unfold i2c_read
  rw [if_pos (by decide)]

/-- What the slave transfers do apart from the default budget.  A stored
timeout other than the initial value is the budget.  The wait ends with the
counter at zero or with the pending flag of the direction clear.  The result
is `n` minus the residual counter of the HAL, in 32-bit arithmetic: the
integer `n - residual` for `n < 2 ^ 31` and a residual of at most `n`.  If the
HAL rejects the request there is no wait and the result is the same
expression. -/
theorem slave_transfer_wait_and_result (t : Target) (env : Nat → Dev → Dev) (d : Dev)
    (n : Nat) :
    (d.obj.timeout ≠ UINT32_MAX → slave_timeout d.obj n = d.obj.timeout) ∧
    (i2c_slave_read t env HAL_OK d n).dev =
      (wait_while (fun o => o.pending_slave_rx_maxter_tx != 0) env
        (d.call (HalCall.SlaveReceive n t.I2C_NEXT_FRAME HAL_OK))
        (slave_timeout d.obj n) 0 0).dev ∧
    (i2c_slave_write t env HAL_OK d n).dev =
      (wait_while (fun o => o.pending_slave_tx_master_rx != 0) env
        (d.call (HalCall.SlaveTransmit n t.I2C_NEXT_FRAME HAL_OK))
        (slave_timeout d.obj n) 0 0).dev ∧
    ((wait_while (fun o => o.pending_slave_rx_maxter_tx != 0) env
        (d.call (HalCall.SlaveReceive n t.I2C_NEXT_FRAME HAL_OK))
        (slave_timeout d.obj n) 0 0).timeout = 0 ∨
      (i2c_slave_read t env HAL_OK d n).dev.obj.pending_slave_rx_maxter_tx = 0) ∧
    ((wait_while (fun o => o.pending_slave_tx_master_rx != 0) env
        (d.call (HalCall.SlaveTransmit n t.I2C_NEXT_FRAME HAL_OK))
        (slave_timeout d.obj n) 0 0).timeout = 0 ∨
      (i2c_slave_write t env HAL_OK d n).dev.obj.pending_slave_tx_master_rx = 0) ∧
    (∀ status : HAL_StatusTypeDef,
      (i2c_slave_read t env status d n).ret =
        toInt32 (sub32 n (i2c_slave_read t env status d n).dev.obj.XferCount) ∧
      (i2c_slave_write t env status d n).ret =
        toInt32 (sub32 n (i2c_slave_write t env status d n).dev.obj.XferCount) ∧
      (n < 2 ^ 31 → (i2c_slave_read t env status d n).dev.obj.XferCount ≤ n →
        (i2c_slave_read t env status d n).ret =
          (n : Int) - ((i2c_slave_read t env status d n).dev.obj.XferCount : Int)) ∧
      (n < 2 ^ 31 → (i2c_slave_write t env status d n).dev.obj.XferCount ≤ n →
        (i2c_slave_write t env status d n).ret =
          (n : Int) - ((i2c_slave_write t env status d n).dev.obj.XferCount : Int)) ∧
      (status ≠ HAL_OK →
        (i2c_slave_read t env status d n).waits = 0 ∧
        (i2c_slave_write t env status d n).waits = 0)) := by
  have er : (i2c_slave_read t env HAL_OK d n).dev =
      (wait_while (fun o => o.pending_slave_rx_maxter_tx != 0) env
        (d.call (HalCall.SlaveReceive n t.I2C_NEXT_FRAME HAL_OK))
        (slave_timeout d.obj n) 0 0).dev := by
    unfold i2c_slave_read; simp only [if_true]; rfl
  have ew : (i2c_slave_write t env HAL_OK d n).dev =
      (wait_while (fun o => o.pending_slave_tx_master_rx != 0) env
        (d.call (HalCall.SlaveTransmit n t.I2C_NEXT_FRAME HAL_OK))
        (slave_timeout d.obj n) 0 0).dev := by
    unfold i2c_slave_write; simp only [if_true]; rfl
  refine ⟨?_, er, ew, ?_, ?_, ?_⟩
  · intro h; unfold slave_timeout; rw [if_pos h]
  · rcases wait_while_exit (fun o => o.pending_slave_rx_maxter_tx != 0) env _
      (d.call (HalCall.SlaveReceive n t.I2C_NEXT_FRAME HAL_OK))
      (slave_timeout d.obj n) 0 0 rfl with h | h
    · exact Or.inl h
    · right; rw [er]; simpa using h
  · rcases wait_while_exit (fun o => o.pending_slave_tx_master_rx != 0) env _
      (d.call (HalCall.SlaveTransmit n t.I2C_NEXT_FRAME HAL_OK))
      (slave_timeout d.obj n) 0 0 rfl with h | h
    · exact Or.inl h
    · right; rw [ew]; simpa using h
  · intro status
    have hr : (i2c_slave_read t env status d n).ret =
        toInt32 (sub32 n (i2c_slave_read t env status d n).dev.obj.XferCount) := by
      unfold i2c_slave_read; split_ifs <;> rfl
    have hw : (i2c_slave_write t env status d n).ret =
        toInt32 (sub32 n (i2c_slave_write t env status d n).dev.obj.XferCount) := by
      unfold i2c_slave_write; split_ifs <;> rfl
    refine ⟨hr, hw, ?_, ?_, ?_⟩
    · intro h1 h2; rw [hr]; exact toInt32_count n _ h1 h2
    · intro h1 h2; rw [hw]; exact toInt32_count n _ h1 h2
    · intro hs
      unfold i2c_slave_read i2c_slave_write
      simp [hs]

/-! ## The divisor of the per-byte timeout -/

theorem i2c_init_hz (t : Target) (d : Dev) (sda scl : Nat) (is_slave : Bool) :
    (i2c_init t d sda scl is_slave).obj.hz = (if d.obj.hz = 0 then 100000 else d.obj.hz) ∧
    (i2c_init t d sda scl is_slave).obj.hz ≠ 0 := by
  have h1 : ∀ d f, (i2c_frequency t d f).1.obj.hz = f :=
    fun d f => (i2c_frequency_tuned t d f).2.1
  have e : (i2c_init t d sda scl is_slave).obj.hz =
      (if d.obj.hz = 0 then 100000 else d.obj.hz) := by
    unfold i2c_init
    cases is_slave <;> by_cases hz : d.obj.hz = 0 <;>
      simp [HAL_I2C_EnableListen_IT, HAL_I2C_DisableListen_IT, hz, i2c_hw_reset, Dev.call, h1]
  refine ⟨e, ?_⟩
  rw [e]
  by_cases hz : d.obj.hz = 0
  · rw [if_pos hz]; decide
  · rw [if_neg hz]; exact hz

theorem error_reinit_hz (t : Target) (d : Dev) : (error_reinit t d).obj.hz ≠ 0 := by
  have hi := (i2c_init_hz t d d.obj.sda d.obj.scl (d.obj.slave != 0)).2
  simp only [error_reinit]
  split_ifs <;> exact hi

theorem Irq_deliver_hz (t : Target) (irq : Irq) (d : Dev) (h : d.obj.hz ≠ 0) :
    (irq.deliver t d).1.obj.hz ≠ 0 := by
  cases irq with
  | MasterTxCplt count status =>
    have e : (Irq.deliver t (Irq.MasterTxCplt count status) d).1.obj.hz = d.obj.hz := by
      unfold Irq.deliver HAL_I2C_MasterTxCpltCallback
      by_cases hp : d.obj.tx_buff.length ≠ 0 ∧ d.obj.rx_buff.length ≠ 0
      · simp [hp, Dev.call]
      · cases hh : d.obj.handler <;> simp [hp, hh]
    rw [e]; exact h
  | MasterRxCplt count =>
    have e : (Irq.deliver t (Irq.MasterRxCplt count) d).1.obj.hz = d.obj.hz := by
      unfold Irq.deliver HAL_I2C_MasterRxCpltCallback
      cases hh : d.obj.handler <;> simp [hh]
    rw [e]; exact h
  | Error code count =>
    have e := (HAL_I2C_ErrorCallback_dev t
      { d with obj := { d.obj with ErrorCode := code, XferCount := count } }).2.2.2.2.2.2
    have e2 : (Irq.deliver t (Irq.Error code count) d).1.obj.hz =
        (error_reinit t
          { d with obj := { d.obj with ErrorCode := code, XferCount := count } }).obj.hz := e
    rw [e2]; exact error_reinit_hz t _
  | AbortCplt count =>
    have e : (Irq.deliver t (Irq.AbortCplt count) d).1.obj.hz = d.obj.hz := by
      unfold Irq.deliver HAL_I2C_AbortCpltCallback
      cases hh : d.obj.handler <;> simp [hh, i2c_ev_err_disable]
    rw [e]; exact h

theorem AnyIrq_deliver_hz (t : Target) (irq : AnyIrq) (d : Dev) (h : d.obj.hz ≠ 0) :
    (irq.deliver t d).obj.hz ≠ 0 := by
  cases irq with
  | master i => exact Irq_deliver_hz t i d h
  | slave i =>
    have e : (AnyIrq.deliver t (AnyIrq.slave i) d).obj.hz = d.obj.hz := by
      cases i with
      | Addr dir =>
        cases dir <;> simp [AnyIrq.deliver, SlaveIrq.deliver, HAL_I2C_AddrCallback]
      | SlaveTxCplt => simp [AnyIrq.deliver, SlaveIrq.deliver, HAL_I2C_SlaveTxCpltCallback]
      | SlaveRxCplt => simp [AnyIrq.deliver, SlaveIrq.deliver, HAL_I2C_SlaveRxCpltCallback]
    rw [e]; exact h
  | ListenCplt => exact h

theorem irq_env_hz (t : Target) (sched : Nat → List AnyIrq) :
    ∀ k d, d.obj.hz ≠ 0 → (irq_env t sched k d).obj.hz ≠ 0 := by
  intro k
  unfold irq_env
  induction sched k with
  | nil => intro d h; exact h
  | cons i rest ih =>
    intro d h
    exact ih (i.deliver t d) (AnyIrq_deliver_hz t i d h)

theorem i2c_transfer_hz (t : Target) (env : Nat → Dev → Dev) (status : HAL_StatusTypeDef)
    (d : Dev) (address length : Nat) (stop : Bool)
    (henv : ∀ k d, d.obj.hz ≠ 0 → (env k d).obj.hz ≠ 0) (h : d.obj.hz ≠ 0) :
    (i2c_write t env status d address length stop).dev.obj.hz ≠ 0 ∧
    (i2c_read t env status d address length stop).dev.obj.hz ≠ 0 := by
  have hk := i2c_request_keeps t status d address length stop
  have hw : (i2c_write_request t status d address length stop).obj.hz ≠ 0 := by
    rw [hk.2.1]; exact h
  have hr : (i2c_read_request t status d address length stop).obj.hz ≠ 0 := by
    rw [hk.2.2.2]; exact h
  have hf : ∀ p : PollResult, (master_finish t p length).dev.obj.hz ≠ 0 ∨
      (master_finish t p length).dev.obj.hz = p.dev.obj.hz := by
    intro p
    unfold master_finish
    simp only []
    split_ifs
    · exact Or.inl (i2c_init_hz t _ _ _ _).2
    · exact Or.inr rfl
    · exact Or.inr rfl
  have hfin : ∀ p : PollResult, p.dev.obj.hz ≠ 0 → (master_finish t p length).dev.obj.hz ≠ 0 := by
    intro p hp
    rcases hf p with h1 | h1
    · exact h1
    · rw [h1]; exact hp
  constructor
  · unfold i2c_write
    split_ifs
    · unfold i2c_slave_write
      simp only []
      split_ifs
      · exact wait_rounds_keeps _ env (fun d => d.obj.hz ≠ 0) henv _ _ _ _ _ h
      · exact h
    · exact hw
    · exact hfin _ (wait_rounds_keeps _ env (fun d => d.obj.hz ≠ 0) henv _ _ _ _ _ hw)
  · unfold i2c_read
    split_ifs
    · unfold i2c_slave_read
      simp only []
      split_ifs
      · exact wait_rounds_keeps _ env (fun d => d.obj.hz ≠ 0) henv _ _ _ _ _ h
      · exact h
    · exact hr
    · exact hfin _ (wait_rounds_keeps _ env (fun d => d.obj.hz ≠ 0) henv _ _ _ _ _ hr)

theorem HalOp_run_hz (t : Target) (d : Dev) (op : HalOp) (hp : op.positive)
    (h : d.obj.hz ≠ 0) : (op.run t d).obj.hz ≠ 0 := by
  cases op with
  | init sda scl is_slave => exact (i2c_init_hz t d sda scl is_slave).2
  | frequency hz =>
    have e : (HalOp.run t d (HalOp.frequency hz)).obj.hz = hz :=
      (i2c_frequency_tuned t d hz).2.1
    have hpos : 0 < hz := hp
    rw [e]; omega
  | timeout x =>
    have e : (HalOp.run t d (HalOp.timeout x)).obj.hz = d.obj.hz := (i2c_timeout_obj d x).2
    rw [e]; exact h
  | read sched status address length stop =>
    exact (i2c_transfer_hz t _ status d address length stop (irq_env_hz t sched) h).2
  | write sched status address length stop =>
    exact (i2c_transfer_hz t _ status d address length stop (irq_env_hz t sched) h).1
  | irq i => exact AnyIrq_deliver_hz t i d h

theorem HalOp_run_all_hz (t : Target) (ops : List HalOp) :
    ∀ d : Dev, (∀ op ∈ ops, op.positive) → d.obj.hz ≠ 0 →
      (HalOp.run_all t d ops).obj.hz ≠ 0 := by
  induction ops with
  | nil => intro d _ h; exact h
  | cons op rest ih =>
    intro d hp h
    exact ih (op.run t d) (fun o ho => hp o (List.mem_cons_of_mem _ ho))
      (HalOp_run_hz t d op (hp op (List.mem_cons_self _ _)) h)

/-- C29.  Start with `i2c_init` on any object and run any sequence of
`i2c_init`, `i2c_frequency` with a positive frequency, `i2c_timeout`, blocking
reads and writes (master or slave, with any interrupts served while they
poll, and with their reinitialisation after a failure) and interrupts
between the calls.  The frequency stored in the object is then not 0, and it
is not 0 on the device on which a following read or write computes its
budget, so `BYTE_TIMEOUT_US` never divides by zero. -/
theorem divisor_nonzero (t : Target) (d0 : Dev) (sda scl : Nat) (is_slave : Bool)
    (ops : List HalOp) (hpos : ∀ op ∈ ops, op.positive) :
    (HalOp.run_all t (i2c_init t d0 sda scl is_slave) ops).obj.hz ≠ 0 ∧
    BYTE_TIMEOUT_US (HalOp.run_all t (i2c_init t d0 sda scl is_slave) ops).obj =
      30000000 / (HalOp.run_all t (i2c_init t d0 sda scl is_slave) ops).obj.hz ∧
    (∀ (status : HAL_StatusTypeDef) (address length : Nat) (stop : Bool),
      (i2c_write_request t status (HalOp.run_all t (i2c_init t d0 sda scl is_slave) ops)
        address length stop).obj.hz ≠ 0 ∧
      (i2c_read_request t status (HalOp.run_all t (i2c_init t d0 sda scl is_slave) ops)
        address length stop).obj.hz ≠ 0) ∧
    (∀ c : HalCall,
      ((HalOp.run_all t (i2c_init t d0 sda scl is_slave) ops).call c).obj.hz ≠ 0) := by
  have h := HalOp_run_all_hz t ops (i2c_init t d0 sda scl is_slave) hpos
    (i2c_init_hz t d0 sda scl is_slave).2
  refine ⟨h, rfl, ?_, fun _ => h⟩
  intro status address length stop
  have hk := i2c_request_keeps t status
    (HalOp.run_all t (i2c_init t d0 sda scl is_slave) ops) address length stop
  exact ⟨by rw [hk.2.1]; exact h, by rw [hk.2.2.2]; exact h⟩

/-- Witness of `divisor_nonzero`: 400 kHz, a timeout of 5, a write that
times out and is answered by a reinitialisation. -/
theorem divisor_nonzero_witness :
    (HalOp.run_all stm32v2 (i2c_init stm32v2 ⟨i2c_t.zero, Periph.reset⟩ 0 1 false)
      [HalOp.frequency 400000, HalOp.timeout 5,
        HalOp.write (fun _ => []) HAL_OK 80 1 true]).obj.hz ≠ 0 :=
  (divisor_nonzero stm32v2 ⟨i2c_t.zero, Periph.reset⟩ 0 1 false
    [HalOp.frequency 400000, HalOp.timeout 5, HalOp.write (fun _ => []) HAL_OK 80 1 true]
    (by
      intro op hop
      simp only [List.mem_cons, List.mem_singleton, List.not_mem_nil, or_false] at hop
      rcases hop with rfl | rfl | rfl
      · show 0 < 400000
        decide
      · trivial
      · trivial)).1

end Mbed
